import Mathlib

/-!
# Light node registries, lifecycle and polling (BREthereumLightNode.c)

A shallow embedding of `src/ethereum/BREthereumLightNode.c`.

* The node record is a Lean structure; the C functions become functions on a
  `World`, which holds the node together with everything else the functions
  touch: the wallet and transaction objects the registries point to, the log of
  events announced to listeners, the log of client callbacks invoked, and the
  status of the worker thread.
* Object references are natural numbers; a nullable reference is an `Option`.
* `requestId` is a 64-bit counter: every increment is taken modulo `2 ^ 64`.
* Handles (`BREthereumWalletId`, `BREthereumTransactionId`, `BREthereumBlockId`,
  `BREthereumListenerId`) are signed integers with `-1` for "absent".
-/

namespace LightNode

/-! ## Enumerations -/

/-- Lifecycle states of a node (`BREthereumLightNodeState`). -/
inductive BREthereumLightNodeState where
  | LIGHT_NODE_CREATED
  | LIGHT_NODE_CONNECTING
  | LIGHT_NODE_CONNECTED
  | LIGHT_NODE_DISCONNECTING
  | LIGHT_NODE_DISCONNECTED
  | LIGHT_NODE_ERRORED
  deriving DecidableEq, Repr

/-- Backend kinds of a node (`BREthereumType`). -/
inductive BREthereumType where
  | NODE_TYPE_NONE
  | NODE_TYPE_JSON_RPC
  | NODE_TYPE_LES
  deriving DecidableEq, Repr

/-- Status carried by every announced event. Only the statuses that
`BREthereumLightNode.c` uses are listed. -/
inductive BREthereumStatus where
  | SUCCESS
  | ERROR_UNKNOWN_WALLET
  | ERROR_NODE_NOT_CONNECTED
  deriving DecidableEq, Repr

/-- Wallet event codes. -/
inductive BREthereumWalletEvent where
  | WALLET_EVENT_CREATED
  | WALLET_EVENT_BALANCE_UPDATED
  | WALLET_EVENT_DEFAULT_GAS_LIMIT_UPDATED
  | WALLET_EVENT_DEFAULT_GAS_PRICE_UPDATED
  deriving DecidableEq, Repr

/-- Block event codes. -/
inductive BREthereumBlockEvent where
  | BLOCK_EVENT_CREATED
  deriving DecidableEq, Repr

/-- Transaction event codes. -/
inductive BREthereumTransactionEvent where
  | TRANSACTION_EVENT_CREATED
  | TRANSACTION_EVENT_SIGNED
  | TRANSACTION_EVENT_SUBMITTED
  | TRANSACTION_EVENT_INCLUDED
  | TRANSACTION_EVENT_ERRORED
  | TRANSACTION_EVENT_GAS_ESTIMATE_UPDATED
  | TRANSACTION_EVENT_ADDED
  | TRANSACTION_EVENT_REMOVED
  deriving DecidableEq, Repr

/-! ## Handles and references -/

/-- Modelled from the spec: the handle typedefs live in `BREthereum.h`, which is
not among the sources; the spec says that all handles are signed integers and
that `-1` is the sentinel "absent". -/
abbrev BREthereumWalletId := Int

/-- Transaction handle, see `BREthereumWalletId`. -/
abbrev BREthereumTransactionId := Int

/-- Block handle, see `BREthereumWalletId`. -/
abbrev BREthereumBlockId := Int

/-- Listener handle, see `BREthereumWalletId`. -/
abbrev BREthereumListenerId := Int

/-- A nullable reference to a transaction object; `none` is `NULL`. -/
abbrev BREthereumTransaction := Option Nat

/-- A reference to a token description; `none` is `NULL` (the wallet holds ether). -/
abbrev BREthereumToken := Option Nat

/-- Modulus of the `requestId` counter. -/
def requestIdModulus : Nat := 2 ^ 64

/-! ## Objects the node points to -/

/-- Modelled from the spec: `BREthereumAccount` is declared outside the sources;
the node only asks an account for its primary address, as a string. -/
structure BREthereumAccount where
  primaryAddress : String
  deriving DecidableEq, Repr

/-- Modelled from the spec: a wallet is an (account, network, optional token)
triple plus the list of transactions it has accepted; the default gas limit and
gas price are the fields that `walletSetDefaultGasLimit` and
`walletSetDefaultGasPrice` write (`none` until they are set). -/
structure WalletRecord where
  account : BREthereumAccount
  network : Nat
  token : BREthereumToken
  transactions : List BREthereumTransaction
  defaultGasLimit : Option Nat
  defaultGasPrice : Option Nat
  deriving DecidableEq, Repr

/-- Modelled from the spec: a transaction has a recipient, an amount, data and an
optional signature. Only what the node reads is kept: the effective address,
the effective amount in WEI, the data and whether it is signed. -/
structure TransactionRecord where
  effectiveAddress : String
  effectiveAmountInWEI : Nat
  data : String
  isSigned : Bool
  deriving DecidableEq, Repr

/-- The injected client (`BREthereumClient`): a context and eight function
pointers. A pointer is a number and `0` is `NULL`. -/
structure BREthereumClient where
  funcContext : Nat
  funcGetBalance : Nat
  funcGetGasPrice : Nat
  funcEstimateGas : Nat
  funcSubmitTransaction : Nat
  funcGetTransactions : Nat
  funcGetLogs : Nat
  funcGetBlockNumber : Nat
  funcGetNonce : Nat
  deriving DecidableEq, Repr

/-- The function `ethereumClientCreate`. -/
def ethereumClientCreate (context funcGetBalance funcGetGasPrice funcEstimateGas
    funcSubmitTransaction funcGetTransactions funcGetLogs funcGetBlockNumber
    funcGetNonce : Nat) : BREthereumClient :=
  { funcContext := context
    funcGetBalance := funcGetBalance
    funcGetGasPrice := funcGetGasPrice
    funcEstimateGas := funcEstimateGas
    funcSubmitTransaction := funcSubmitTransaction
    funcGetTransactions := funcGetTransactions
    funcGetLogs := funcGetLogs
    funcGetBlockNumber := funcGetBlockNumber
    funcGetNonce := funcGetNonce }

/-- The static `nullClient`: zero-initialised. -/
def nullClient : BREthereumClient :=
  { funcContext := 0, funcGetBalance := 0, funcGetGasPrice := 0, funcEstimateGas := 0,
    funcSubmitTransaction := 0, funcGetTransactions := 0, funcGetLogs := 0,
    funcGetBlockNumber := 0, funcGetNonce := 0 }

/-- A listener slot (`BREthereumLightNodeListener`): a context and three
handlers; `0` is `NULL`. -/
structure BREthereumLightNodeListener where
  context : Nat
  walletEventHandler : Nat
  blockEventHandler : Nat
  transactionEventHandler : Nat
  deriving DecidableEq, Repr

/-- The node (`struct BREthereumLightNodeRecord`). The registries are lists; a
wallet or block slot holds a reference to an object, a transaction slot holds a
nullable reference. -/
structure BREthereumLightNodeRecord where
  state : BREthereumLightNodeState
  type : BREthereumType
  network : Nat
  account : BREthereumAccount
  client : BREthereumClient
  listeners : List BREthereumLightNodeListener
  wallets : List Nat
  walletHoldingEther : Nat
  transactions : List BREthereumTransaction
  blocks : List Nat
  blockHeight : Nat
  requestId : Nat

/-! ## What the node does to the outside -/

/-- Modelled from the spec: the announce functions are defined outside the
sources; they post one typed event (ids, event code, status) to the node's event
handler, which delivers the events in the order they were announced. -/
inductive ListenerEvent where
  | wallet (wid : BREthereumWalletId) (event : BREthereumWalletEvent)
      (status : BREthereumStatus)
  | block (bid : BREthereumBlockId) (event : BREthereumBlockEvent)
      (status : BREthereumStatus)
  | transaction (wid : BREthereumWalletId) (tid : BREthereumTransactionId)
      (event : BREthereumTransactionEvent) (status : BREthereumStatus)
  deriving DecidableEq, Repr

/-- The operation-specific arguments of a client callback; the constructor says
which of the eight callbacks it is. -/
inductive ClientRequest where
  | getBalance (wid : BREthereumWalletId) (address : String)
  | getGasPrice (wid : BREthereumWalletId)
  | estimateGas (wid : BREthereumWalletId) (tid : BREthereumTransactionId)
      (toAddress amount data : String)
  | submitTransaction (wid : BREthereumWalletId) (tid : BREthereumTransactionId)
      (rawTransaction : String)
  | getTransactions (address : String)
  | getLogs (contract : Option String) (encodedAddress selector : String)
  | getBlockNumber
  | getNonce (address : String)
  deriving DecidableEq, Repr

/-- One invocation of a client callback: the function pointer that was called,
the context handed to it, the arguments and the request id. -/
structure ClientCall where
  func : Nat
  context : Nat
  request : ClientRequest
  rid : Nat
  deriving DecidableEq, Repr

/-- Status of the worker thread of a node: none, created by `pthread_create`
but not yet running, or inside `lightNodeThreadRoutine`. -/
inductive WorkerStatus where
  | absent
  | spawned
  | running
  deriving DecidableEq, Repr

/-- The node and its surroundings. `walletObjects` and `transactionObjects` are
the objects that references point to; `nextWallet` and `nextTransaction` are the
references the next allocation returns; `events` and `calls` are the logs of
announced events and of client callbacks, oldest first. -/
structure World where
  node : BREthereumLightNodeRecord
  walletObjects : Nat → WalletRecord
  transactionObjects : Nat → TransactionRecord
  nextWallet : Nat
  nextTransaction : Nat
  events : List ListenerEvent
  calls : List ClientCall
  worker : WorkerStatus

/-- An amount to transfer (`BREthereumAmount`): ether, in WEI, or a quantity of
a token. -/
inductive BREthereumAmount where
  | ether (valueInWEI : Nat)
  | token (token : Nat) (quantity : Nat)
  deriving DecidableEq, Repr

/-- Modelled from the spec: collaborators of the node that are defined outside
the sources and whose results the node only stores or passes on: the address of
a token contract, the ERC20 Transfer event with its address encoder and
selector, the base-16 rendering `coerceString (x, 16)` of an amount, the hex
encoding of a raw transaction, the transaction a wallet builds (with the wallet
as it is afterwards) and the transaction a wallet signs. -/
structure External where
  tokenGetAddress : Nat → String
  eventERC20Transfer : Nat
  eventERC20TransferEncodeAddress : Nat → String → String
  eventGetSelector : Nat → String
  coerceString16 : Nat → String
  rawTransactionHex : WalletRecord → TransactionRecord → String
  walletCreateTransaction :
    WalletRecord → Nat → String → BREthereumAmount → TransactionRecord × WalletRecord
  walletCreateTransactionGeneric :
    WalletRecord → Nat → String → Nat → Nat → Nat → String → TransactionRecord × WalletRecord
  walletSignTransactionWithPrivateKey : WalletRecord → TransactionRecord → Nat → TransactionRecord
  walletSignTransaction : WalletRecord → TransactionRecord → String → TransactionRecord

/-! ## Announcements -/

/-- Modelled from the spec: `lightNodeListenerAnnounceWalletEvent` posts one
wallet event to the event handler. -/
def lightNodeListenerAnnounceWalletEvent (W : World) (wid : BREthereumWalletId)
    (event : BREthereumWalletEvent) (status : BREthereumStatus) : World :=
  { W with events := W.events ++ [ListenerEvent.wallet wid event status] }

/-- Modelled from the spec: `lightNodeListenerAnnounceBlockEvent` posts one block
event to the event handler. -/
def lightNodeListenerAnnounceBlockEvent (W : World) (bid : BREthereumBlockId)
    (event : BREthereumBlockEvent) (status : BREthereumStatus) : World :=
  { W with events := W.events ++ [ListenerEvent.block bid event status] }

/-- Modelled from the spec: `lightNodeListenerAnnounceTransactionEvent` posts one
transaction event to the event handler. -/
def lightNodeListenerAnnounceTransactionEvent (W : World) (wid : BREthereumWalletId)
    (tid : BREthereumTransactionId) (event : BREthereumTransactionEvent)
    (status : BREthereumStatus) : World :=
  { W with events := W.events ++ [ListenerEvent.transaction wid tid event status] }

/-! ## Wallet collaborators -/

/-- Modelled from the spec: `walletGetToken`, the optional token of the wallet
triple. -/
def walletGetToken (W : World) (wallet : Nat) : BREthereumToken :=
  (W.walletObjects wallet).token

/-- Modelled from the spec: `walletGetAddress`, the primary address of the
account of the wallet triple. -/
def walletGetAddress (W : World) (wallet : Nat) : String :=
  (W.walletObjects wallet).account.primaryAddress

/-- Modelled from the spec: `walletHasTransaction`, whether the wallet's list of
accepted transactions holds the reference. -/
def walletHasTransaction (W : World) (wallet : Nat) (transaction : BREthereumTransaction) :
    Bool :=
  decide (transaction ∈ (W.walletObjects wallet).transactions)

/-- Modelled from the spec: `walletUnhandleTransaction` removes the transaction
from the wallet's list. -/
def walletUnhandleTransaction (W : World) (wallet : Nat)
    (transaction : BREthereumTransaction) : World :=
  { W with
    walletObjects := Function.update W.walletObjects wallet
      ({ W.walletObjects wallet with
         transactions := (W.walletObjects wallet).transactions.erase transaction }) }

/-- Modelled from the spec: `walletGetTransactionCount`. -/
def walletGetTransactionCount (W : World) (wallet : Nat) : Nat :=
  (W.walletObjects wallet).transactions.length

/-- Modelled from the spec: `walletGetTransactionByIndex`; `NULL` past the end. -/
def walletGetTransactionByIndex (W : World) (wallet : Nat) (index : Nat) :
    BREthereumTransaction :=
  (W.walletObjects wallet).transactions[index]?.join

/-- Modelled from the spec: `walletCreate` and `walletCreateHoldingToken` allocate
a wallet object for the (account, network, optional token) triple, with no
transactions. The new reference is `nextWallet`. -/
def walletCreateHoldingToken (W : World) (account : BREthereumAccount) (network : Nat)
    (token : BREthereumToken) : Nat × World :=
  (W.nextWallet,
   { W with
     walletObjects := Function.update W.walletObjects W.nextWallet
       ({ account := account, network := network, token := token, transactions := [],
          defaultGasLimit := none, defaultGasPrice := none })
     nextWallet := W.nextWallet + 1 })

/-! ## Listeners -/

/-- The function `lightNodeAddListener`: appends the listener and returns its
slot index. -/
def lightNodeAddListener (W : World) (context walletEventHandler blockEventHandler
    transactionEventHandler : Nat) : BREthereumListenerId × World :=
  let listener : BREthereumLightNodeListener :=
    { context := context, walletEventHandler := walletEventHandler,
      blockEventHandler := blockEventHandler,
      transactionEventHandler := transactionEventHandler }
  let listeners := W.node.listeners ++ [listener]
  ((listeners.length : Int) - 1, { W with node := { W.node with listeners := listeners } })

/-- The function `lightNodeHasListener`. -/
def lightNodeHasListener (node : BREthereumLightNodeRecord) (lid : BREthereumListenerId) :
    Bool :=
  if 0 ≤ lid ∧ lid < (node.listeners.length : Int) then
    match node.listeners[lid.toNat]? with
    | some l =>
      decide (l.context ≠ 0) &&
        (decide (l.walletEventHandler ≠ 0) || decide (l.blockEventHandler ≠ 0) ||
          decide (l.transactionEventHandler ≠ 0))
    | none => false
  else false

/-- The function `lightNodeRemoveListener`: `memset` of the slot to zero. -/
def lightNodeRemoveListener (W : World) (lid : BREthereumListenerId) : Bool × World :=
  if 0 ≤ lid ∧ lid < (W.node.listeners.length : Int) then
    (true, { W with node := { W.node with
      listeners := W.node.listeners.set lid.toNat
        ({ context := 0, walletEventHandler := 0, blockEventHandler := 0,
           transactionEventHandler := 0 }) } })
  else (false, W)

/-! ## Connect and disconnect -/

/-- Outcomes of the pthread calls that `lightNodeConnect` makes; `true` is
success (return value `0`). -/
structure ThreadSetup where
  attrInit : Bool
  attrSetDetachState : Bool
  attrSetStackSize : Bool
  create : Bool
  deriving DecidableEq, Repr

/-- What `lightNodeConnect` produces: its boolean result, the world afterwards,
the node as it was at the call of `pthread_create`, when that call was made, and
the values that were assigned to `node->state`, in the order of the
assignments. -/
structure ConnectResult where
  result : Bool
  world : World
  nodeAtThreadCreate : Option BREthereumLightNodeRecord
  stateWrites : List BREthereumLightNodeState

/-- The function `lightNodeConnect`. -/
def lightNodeConnect (W : World) (client : BREthereumClient) (t : ThreadSetup) :
    ConnectResult :=
  match W.node.state with
  | .LIGHT_NODE_CONNECTING | .LIGHT_NODE_CONNECTED | .LIGHT_NODE_DISCONNECTING =>
    { result := false, world := W, nodeAtThreadCreate := none, stateWrites := [] }
  | .LIGHT_NODE_CREATED | .LIGHT_NODE_DISCONNECTED | .LIGHT_NODE_ERRORED =>
    if !t.attrInit then
      { result := false
        world := { W with node := { W.node with state := .LIGHT_NODE_ERRORED } }
        nodeAtThreadCreate := none
        stateWrites := [.LIGHT_NODE_ERRORED] }
    else if !t.attrSetDetachState || !t.attrSetStackSize then
      { result := false
        world := { W with node := { W.node with state := .LIGHT_NODE_ERRORED } }
        nodeAtThreadCreate := none
        stateWrites := [.LIGHT_NODE_ERRORED] }
    else
      let node1 := { W.node with client := client, state := .LIGHT_NODE_CONNECTING }
      if !t.create then
        { result := false
          world := { W with
            node := { node1 with client := nullClient, state := .LIGHT_NODE_ERRORED } }
          nodeAtThreadCreate := some node1
          stateWrites := [.LIGHT_NODE_CONNECTING, .LIGHT_NODE_ERRORED] }
      else
        { result := true
          world := { W with node := node1, worker := .spawned }
          nodeAtThreadCreate := some node1
          stateWrites := [.LIGHT_NODE_CONNECTING] }

/-- The function `lightNodeGetClientContext`. -/
def lightNodeGetClientContext (node : BREthereumLightNodeRecord) : Nat :=
  node.client.funcContext

/-- The function `lightNodeDisconnect`. -/
def lightNodeDisconnect (W : World) : Bool × World :=
  (true, { W with node := { W.node with state := .LIGHT_NODE_DISCONNECTING } })

/-! ## Registries -/

/-- The scan `for (i = 0; i < count; i++) if (p (slots[i])) { id = i; break; }`
with `id` initially `-1`, on the slots from index `i` on. -/
def scanFrom {α : Type} (p : α → Bool) : List α → Nat → Int
  | [], _ => -1
  | y :: ys, i => if p y then (i : Int) else scanFrom p ys (i + 1)

/-- The function `lightNodeLookupWallet`. -/
def lightNodeLookupWallet (node : BREthereumLightNodeRecord) (wid : BREthereumWalletId) :
    Option Nat :=
  if 0 ≤ wid ∧ wid < (node.wallets.length : Int) then node.wallets[wid.toNat]? else none

/-- The function `lightNodeLookupWalletId`. -/
def lightNodeLookupWalletId (node : BREthereumLightNodeRecord) (wallet : Nat) :
    BREthereumWalletId :=
  scanFrom (fun w => decide (wallet = w)) node.wallets 0

/-- The function `lightNodeInsertWallet`. -/
def lightNodeInsertWallet (W : World) (wallet : Nat) : World :=
  let wallets := W.node.wallets ++ [wallet]
  let wid : BREthereumWalletId := (wallets.length : Int) - 1
  lightNodeListenerAnnounceWalletEvent
    { W with node := { W.node with wallets := wallets } } wid
    .WALLET_EVENT_CREATED .SUCCESS

/-- The function `lightNodeGetWallet`. -/
def lightNodeGetWallet (node : BREthereumLightNodeRecord) : BREthereumWalletId :=
  lightNodeLookupWalletId node node.walletHoldingEther

/-- The function `lightNodeGetWalletHoldingToken`. -/
def lightNodeGetWalletHoldingToken (W : World) (token : BREthereumToken) :
    BREthereumWalletId × World :=
  let wid := scanFrom (fun w => decide (token = walletGetToken W w)) W.node.wallets 0
  if wid = -1 then
    let created := walletCreateHoldingToken W W.node.account W.node.network token
    let W2 := lightNodeInsertWallet created.2 created.1
    (lightNodeLookupWalletId W2.node created.1, W2)
  else (wid, W)

/-- The function `lightNodeLookupTransaction`. -/
def lightNodeLookupTransaction (node : BREthereumLightNodeRecord)
    (tid : BREthereumTransactionId) : BREthereumTransaction :=
  if 0 ≤ tid ∧ tid < (node.transactions.length : Int) then
    node.transactions[tid.toNat]?.join
  else none

/-- The function `lightNodeLookupTransactionId`. -/
def lightNodeLookupTransactionId (node : BREthereumLightNodeRecord)
    (transaction : BREthereumTransaction) : BREthereumTransactionId :=
  scanFrom (fun t => decide (transaction = t)) node.transactions 0

/-- The function `lightNodeInsertTransaction`. -/
def lightNodeInsertTransaction (W : World) (transaction : BREthereumTransaction) :
    BREthereumTransactionId × World :=
  let transactions := W.node.transactions ++ [transaction]
  ((transactions.length : Int) - 1,
   { W with node := { W.node with transactions := transactions } })

/-- The loop of `lightNodeDeleteTransaction` over the wallets from index `wid`
on: a wallet that has the transaction unhandles it and a
`TRANSACTION_EVENT_REMOVED` is announced for it. -/
def lightNodeDeleteTransactionLoop (transaction : BREthereumTransaction)
    (tid : BREthereumTransactionId) : List Nat → Nat → World → World
  | [], _, W => W
  | wallet :: rest, wid, W =>
    if walletHasTransaction W wallet transaction then
      lightNodeDeleteTransactionLoop transaction tid rest (wid + 1)
        (lightNodeListenerAnnounceTransactionEvent
          (walletUnhandleTransaction W wallet transaction) (wid : Int) tid
          .TRANSACTION_EVENT_REMOVED .SUCCESS)
    else lightNodeDeleteTransactionLoop transaction tid rest (wid + 1) W

/-- The function `lightNodeDeleteTransaction`. The final store
`node->transactions[tid] = NULL` is outside the array when the transaction is
not in the table (`tid` is `-1`): the result is then undefined, `none`. -/
def lightNodeDeleteTransaction (W : World) (transaction : BREthereumTransaction) :
    Option World :=
  let tid := lightNodeLookupTransactionId W.node transaction
  let W1 := lightNodeDeleteTransactionLoop transaction tid W.node.wallets 0 W
  if 0 ≤ tid ∧ tid < (W1.node.transactions.length : Int) then
    some { W1 with node := { W1.node with
      transactions := W1.node.transactions.set tid.toNat none } }
  else none

/-- The function `lightNodeLookupBlock`. -/
def lightNodeLookupBlock (node : BREthereumLightNodeRecord) (bid : BREthereumBlockId) :
    Option Nat :=
  if 0 ≤ bid ∧ bid < (node.blocks.length : Int) then node.blocks[bid.toNat]? else none

/-- The function `lightNodeLookupBlockId`. -/
def lightNodeLookupBlockId (node : BREthereumLightNodeRecord) (block : Nat) :
    BREthereumBlockId :=
  scanFrom (fun b => decide (block = b)) node.blocks 0

/-- The function `lightNodeInsertBlock`. -/
def lightNodeInsertBlock (W : World) (block : Nat) : World :=
  let blocks := W.node.blocks ++ [block]
  let bid : BREthereumBlockId := (blocks.length : Int) - 1
  lightNodeListenerAnnounceBlockEvent
    { W with node := { W.node with blocks := blocks } } bid .BLOCK_EVENT_CREATED .SUCCESS

/-- The function `lightNodeGetBlockHeight`. -/
def lightNodeGetBlockHeight (node : BREthereumLightNodeRecord) : Nat :=
  node.blockHeight

/-- The function `lightNodeUpdateBlockHeight`. -/
def lightNodeUpdateBlockHeight (W : World) (blockHeight : Nat) : World :=
  if blockHeight > W.node.blockHeight then
    { W with node := { W.node with blockHeight := blockHeight } }
  else W

/-! ## Client callbacks -/

/-- A call `node->client.func (node->client.funcContext, node, ..., ++node->requestId)`:
the counter is incremented first (modulo `2 ^ 64`) and the call carries the new
value. -/
def clientInvoke (W : World) (func : Nat) (request : ClientRequest) : World :=
  let rid := (W.node.requestId + 1) % requestIdModulus
  { W with
    node := { W.node with requestId := rid }
    calls := W.calls ++
      [{ func := func, context := W.node.client.funcContext, request := request, rid := rid }] }

/-! ## Wallet operations -/

/-- The function `lightNodeWalletCreateTransaction`. The wallet builds the
transaction (a new object, with reference `nextTransaction`). -/
def lightNodeWalletCreateTransaction (x : External) (W : World) (wallet : Nat)
    (recvAddress : String) (amount : BREthereumAmount) : BREthereumTransactionId × World :=
  let built := x.walletCreateTransaction (W.walletObjects wallet) W.nextTransaction
    recvAddress amount
  let W1 : World :=
    { W with
      transactionObjects := Function.update W.transactionObjects W.nextTransaction built.1
      walletObjects := Function.update W.walletObjects wallet built.2
      nextTransaction := W.nextTransaction + 1 }
  let inserted := lightNodeInsertTransaction W1 (some W.nextTransaction)
  let tid := inserted.1
  let wid := lightNodeLookupWalletId inserted.2.node wallet
  let W3 := lightNodeListenerAnnounceTransactionEvent inserted.2 wid tid
    .TRANSACTION_EVENT_CREATED .SUCCESS
  (tid, lightNodeListenerAnnounceTransactionEvent W3 wid tid .TRANSACTION_EVENT_ADDED .SUCCESS)

/-- The function `lightNodeWalletCreateTransactionGeneric`. -/
def lightNodeWalletCreateTransactionGeneric (x : External) (W : World) (wallet : Nat)
    (recvAddress : String) (amount gasPrice gasLimit : Nat) (data : String) :
    BREthereumTransactionId × World :=
  let built := x.walletCreateTransactionGeneric (W.walletObjects wallet) W.nextTransaction
    recvAddress amount gasPrice gasLimit data
  let W1 : World :=
    { W with
      transactionObjects := Function.update W.transactionObjects W.nextTransaction built.1
      walletObjects := Function.update W.walletObjects wallet built.2
      nextTransaction := W.nextTransaction + 1 }
  let inserted := lightNodeInsertTransaction W1 (some W.nextTransaction)
  let tid := inserted.1
  let wid := lightNodeLookupWalletId inserted.2.node wallet
  let W3 := lightNodeListenerAnnounceTransactionEvent inserted.2 wid tid
    .TRANSACTION_EVENT_CREATED .SUCCESS
  (tid, lightNodeListenerAnnounceTransactionEvent W3 wid tid .TRANSACTION_EVENT_ADDED .SUCCESS)

/-- The function `lightNodeWalletSignTransaction`. -/
def lightNodeWalletSignTransaction (x : External) (W : World) (wallet transaction : Nat)
    (privateKey : Nat) : World :=
  let W1 : World :=
    { W with
      transactionObjects := Function.update W.transactionObjects transaction
        (x.walletSignTransactionWithPrivateKey (W.walletObjects wallet)
          (W.transactionObjects transaction) privateKey) }
  lightNodeListenerAnnounceTransactionEvent W1
    (lightNodeLookupWalletId W1.node wallet)
    (lightNodeLookupTransactionId W1.node (some transaction))
    .TRANSACTION_EVENT_SIGNED .SUCCESS

/-- The function `lightNodeWalletSignTransactionWithPaperKey`. -/
def lightNodeWalletSignTransactionWithPaperKey (x : External) (W : World)
    (wallet transaction : Nat) (paperKey : String) : World :=
  let W1 : World :=
    { W with
      transactionObjects := Function.update W.transactionObjects transaction
        (x.walletSignTransaction (W.walletObjects wallet)
          (W.transactionObjects transaction) paperKey) }
  lightNodeListenerAnnounceTransactionEvent W1
    (lightNodeLookupWalletId W1.node wallet)
    (lightNodeLookupTransactionId W1.node (some transaction))
    .TRANSACTION_EVENT_SIGNED .SUCCESS

/-- Modelled from the spec: `walletGetRawTransactionHexEncoded` produces the
hex-encoded raw transaction behind the given leading string. -/
def walletGetRawTransactionHexEncoded (x : External) (W : World) (wallet transaction : Nat)
    (lead : String) : String :=
  lead ++ x.rawTransactionHex (W.walletObjects wallet) (W.transactionObjects transaction)

/-- The function `lightNodeWalletSubmitTransaction`. -/
def lightNodeWalletSubmitTransaction (x : External) (W : World) (wallet transaction : Nat) :
    World :=
  let rawTransaction := walletGetRawTransactionHexEncoded x W wallet transaction "0x"
  match W.node.type with
  | .NODE_TYPE_LES | .NODE_TYPE_JSON_RPC =>
    clientInvoke W W.node.client.funcSubmitTransaction
      (.submitTransaction (lightNodeLookupWalletId W.node wallet)
        (lightNodeLookupTransactionId W.node (some transaction)) rawTransaction)
  | .NODE_TYPE_NONE => W

/-- The function `lightNodeWalletGetTransactions`: the ids of the wallet's
transactions, then `-1`. -/
def lightNodeWalletGetTransactions (W : World) (wallet : Nat) : List BREthereumTransactionId :=
  (List.range (walletGetTransactionCount W wallet)).map
      (fun index => lightNodeLookupTransactionId W.node
        (walletGetTransactionByIndex W wallet index))
    ++ [-1]

/-- The function `lightNodeWalletGetTransactionCount`; the wallet may be `NULL`. -/
def lightNodeWalletGetTransactionCount (W : World) (wallet : Option Nat) : Int :=
  match wallet with
  | some w => (walletGetTransactionCount W w : Int)
  | none => -1

/-- The function `lightNodeWalletSetDefaultGasLimit`. -/
def lightNodeWalletSetDefaultGasLimit (W : World) (wallet : Nat) (gasLimit : Nat) : World :=
  let W1 : World :=
    { W with
      walletObjects := Function.update W.walletObjects wallet
        ({ W.walletObjects wallet with defaultGasLimit := some gasLimit }) }
  lightNodeListenerAnnounceWalletEvent W1 (lightNodeLookupWalletId W1.node wallet)
    .WALLET_EVENT_DEFAULT_GAS_LIMIT_UPDATED .SUCCESS

/-- The function `lightNodeWalletSetDefaultGasPrice`. -/
def lightNodeWalletSetDefaultGasPrice (W : World) (wallet : Nat) (gasPrice : Nat) : World :=
  let W1 : World :=
    { W with
      walletObjects := Function.update W.walletObjects wallet
        ({ W.walletObjects wallet with defaultGasPrice := some gasPrice }) }
  lightNodeListenerAnnounceWalletEvent W1 (lightNodeLookupWalletId W1.node wallet)
    .WALLET_EVENT_DEFAULT_GAS_PRICE_UPDATED .SUCCESS

/-! ## Updates -/

/-- The function `lightNodeUpdateBlockNumber`. -/
def lightNodeUpdateBlockNumber (W : World) : World :=
  if W.node.state ≠ .LIGHT_NODE_CONNECTED then W
  else
    match W.node.type with
    | .NODE_TYPE_LES | .NODE_TYPE_JSON_RPC =>
      clientInvoke W W.node.client.funcGetBlockNumber .getBlockNumber
    | .NODE_TYPE_NONE => W

/-- The function `lightNodeUpdateNonce`. -/
def lightNodeUpdateNonce (W : World) : World :=
  if W.node.state ≠ .LIGHT_NODE_CONNECTED then W
  else
    match W.node.type with
    | .NODE_TYPE_LES | .NODE_TYPE_JSON_RPC =>
      clientInvoke W W.node.client.funcGetNonce (.getNonce W.node.account.primaryAddress)
    | .NODE_TYPE_NONE => W

/-- The function `lightNodeUpdateTransactions`. -/
def lightNodeUpdateTransactions (W : World) : World :=
  if W.node.state ≠ .LIGHT_NODE_CONNECTED then W
  else
    match W.node.type with
    | .NODE_TYPE_LES | .NODE_TYPE_JSON_RPC =>
      clientInvoke W W.node.client.funcGetTransactions
        (.getTransactions W.node.account.primaryAddress)
    | .NODE_TYPE_NONE => W

/-- The function `lightNodeGetWalletContractAddress`. -/
def lightNodeGetWalletContractAddress (x : External) (W : World) (wid : BREthereumWalletId) :
    Option String :=
  match lightNodeLookupWallet W.node wid with
  | none => none
  | some wallet =>
    match walletGetToken W wallet with
    | none => none
    | some token => some (x.tokenGetAddress token)

/-- The function `lightNodeUpdateLogs`. -/
def lightNodeUpdateLogs (x : External) (W : World) (wid : BREthereumWalletId) (event : Nat) :
    World :=
  if W.node.state ≠ .LIGHT_NODE_CONNECTED then W
  else
    match W.node.type with
    | .NODE_TYPE_LES | .NODE_TYPE_JSON_RPC =>
      let address := W.node.account.primaryAddress
      let encodedAddress := x.eventERC20TransferEncodeAddress event address
      let contract := lightNodeGetWalletContractAddress x W wid
      clientInvoke W W.node.client.funcGetLogs
        (.getLogs contract encodedAddress (x.eventGetSelector event))
    | .NODE_TYPE_NONE => W

/-- The function `lightNodeUpdateWalletBalance`. -/
def lightNodeUpdateWalletBalance (W : World) (wid : BREthereumWalletId) : World :=
  match lightNodeLookupWallet W.node wid with
  | none =>
    lightNodeListenerAnnounceWalletEvent W wid .WALLET_EVENT_BALANCE_UPDATED
      .ERROR_UNKNOWN_WALLET
  | some wallet =>
    if W.node.state ≠ .LIGHT_NODE_CONNECTED then
      lightNodeListenerAnnounceWalletEvent W wid .WALLET_EVENT_BALANCE_UPDATED
        .ERROR_NODE_NOT_CONNECTED
    else
      match W.node.type with
      | .NODE_TYPE_LES | .NODE_TYPE_JSON_RPC =>
        clientInvoke W W.node.client.funcGetBalance
          (.getBalance wid (walletGetAddress W wallet))
      | .NODE_TYPE_NONE => W

/-- The amount handed to the gas estimate: `"0x"` followed by
`&amount['0' == amount[0]]`, the string without its first character when that
character is `'0'`. -/
def canonicalAmount (amount : String) : String :=
  "0x" ++
    (match amount.data with
     | '0' :: rest => String.mk rest
     | _ => amount)

/-- The data handed to the gas estimate: `"0x"` followed by the data. -/
def canonicalData (data : String) : String :=
  "0x" ++ data

/-- The function `lightNodeUpdateTransactionGasEstimate`. -/
def lightNodeUpdateTransactionGasEstimate (x : External) (W : World)
    (wid : BREthereumWalletId) (tid : BREthereumTransactionId) : World :=
  match lightNodeLookupTransaction W.node tid with
  | none =>
    lightNodeListenerAnnounceTransactionEvent W wid tid
      .TRANSACTION_EVENT_GAS_ESTIMATE_UPDATED .ERROR_UNKNOWN_WALLET
  | some transaction =>
    if W.node.state ≠ .LIGHT_NODE_CONNECTED then
      lightNodeListenerAnnounceTransactionEvent W wid tid
        .TRANSACTION_EVENT_GAS_ESTIMATE_UPDATED .ERROR_NODE_NOT_CONNECTED
    else
      match W.node.type with
      | .NODE_TYPE_LES | .NODE_TYPE_JSON_RPC =>
        let object := W.transactionObjects transaction
        let amount := x.coerceString16 object.effectiveAmountInWEI
        clientInvoke W W.node.client.funcEstimateGas
          (.estimateGas wid tid object.effectiveAddress (canonicalAmount amount)
            (canonicalData object.data))
      | .NODE_TYPE_NONE => W

/-- The function `lightNodeUpdateWalletDefaultGasPrice`. -/
def lightNodeUpdateWalletDefaultGasPrice (W : World) (wid : BREthereumWalletId) : World :=
  match lightNodeLookupWallet W.node wid with
  | none =>
    lightNodeListenerAnnounceWalletEvent W wid .WALLET_EVENT_DEFAULT_GAS_PRICE_UPDATED
      .ERROR_UNKNOWN_WALLET
  | some _ =>
    if W.node.state ≠ .LIGHT_NODE_CONNECTED then
      lightNodeListenerAnnounceWalletEvent W wid .WALLET_EVENT_DEFAULT_GAS_PRICE_UPDATED
        .ERROR_NODE_NOT_CONNECTED
    else
      match W.node.type with
      | .NODE_TYPE_LES | .NODE_TYPE_JSON_RPC =>
        clientInvoke W W.node.client.funcGetGasPrice (.getGasPrice wid)
      | .NODE_TYPE_NONE => W

/-! ## The worker -/

/-- The first statement of `lightNodeThreadRoutine`: `node->state = LIGHT_NODE_CONNECTED`. -/
def lightNodeThreadRoutineStart (W : World) : World :=
  { W with node := { W.node with state := .LIGHT_NODE_CONNECTED }, worker := .running }

/-- The loop `for (i = 0; i < count; i++) lightNodeUpdateWalletBalance (node, i)`
for the indices from `i` on, `remaining` of them. -/
def lightNodeThreadRoutineBalances : Nat → Nat → World → World
  | 0, _, W => W
  | remaining + 1, i, W =>
    lightNodeThreadRoutineBalances remaining (i + 1) (lightNodeUpdateWalletBalance W (i : Int))

/-- The body of one cycle of `lightNodeThreadRoutine`, between lock and unlock. -/
def lightNodeThreadRoutineCycle (x : External) (W : World) : World :=
  let W1 := lightNodeUpdateBlockNumber W
  let W2 := lightNodeUpdateNonce W1
  let W3 := lightNodeUpdateTransactions W2
  let W4 := lightNodeUpdateLogs x W3 (-1) x.eventERC20Transfer
  lightNodeThreadRoutineBalances W4.node.wallets.length 0 W4

/-- The end of `lightNodeThreadRoutine`, after the loop:
`node->state = LIGHT_NODE_DISCONNECTED` and the thread is gone. -/
def lightNodeThreadRoutineExit (W : World) : World :=
  { W with node := { W.node with state := .LIGHT_NODE_DISCONNECTED }, worker := .absent }

/-! ## Creation -/

/-- A wallet object of zeroed memory. -/
def zeroWalletRecord : WalletRecord :=
  { account := { primaryAddress := "" }, network := 0, token := none, transactions := [],
    defaultGasLimit := none, defaultGasPrice := none }

/-- A transaction object of zeroed memory. -/
def zeroTransactionRecord : TransactionRecord :=
  { effectiveAddress := "", effectiveAmountInWEI := 0, data := "", isSigned := false }

/-- The function `createLightNode`, in a world with no objects yet. The macro
`FIXED_LIGHT_NODE_TYPE` is defined outside the sources and is a parameter. -/
def createLightNode (fixedLightNodeType : BREthereumType) (network : Nat)
    (account : BREthereumAccount) : World :=
  let W0 : World :=
    { node :=
        { state := .LIGHT_NODE_CREATED, type := fixedLightNodeType, network := network,
          account := account, client := nullClient, listeners := [], wallets := [],
          walletHoldingEther := 0, transactions := [], blocks := [], blockHeight := 0,
          requestId := 0 }
      walletObjects := fun _ => zeroWalletRecord
      transactionObjects := fun _ => zeroTransactionRecord
      nextWallet := 0, nextTransaction := 0, events := [], calls := [], worker := .absent }
  let created := walletCreateHoldingToken W0 account network none
  let W1 : World :=
    { created.2 with node := { created.2.node with walletHoldingEther := created.1 } }
  lightNodeInsertWallet W1 W1.node.walletHoldingEther

/-! ## Sequences of operations -/

/-- The operations on a node: the functions of `BREthereumLightNode.c` that
change something, and the three steps of the worker thread. -/
inductive NodeOp where
  | addListener (context walletEventHandler blockEventHandler transactionEventHandler : Nat)
  | removeListener (lid : BREthereumListenerId)
  | connect (client : BREthereumClient) (t : ThreadSetup)
  | disconnect
  | workerStart
  | workerCycle
  | workerExit
  | insertWallet (wallet : Nat)
  | getWalletHoldingToken (token : BREthereumToken)
  | walletCreateTransaction (wallet : Nat) (recvAddress : String) (amount : BREthereumAmount)
  | walletCreateTransactionGeneric (wallet : Nat) (recvAddress : String)
      (amount gasPrice gasLimit : Nat) (data : String)
  | walletSignTransaction (wallet transaction privateKey : Nat)
  | walletSignTransactionWithPaperKey (wallet transaction : Nat) (paperKey : String)
  | walletSubmitTransaction (wallet transaction : Nat)
  | walletSetDefaultGasLimit (wallet gasLimit : Nat)
  | walletSetDefaultGasPrice (wallet gasPrice : Nat)
  | insertBlock (block : Nat)
  | updateBlockHeight (blockHeight : Nat)
  | insertTransaction (transaction : BREthereumTransaction)
  | deleteTransaction (transaction : BREthereumTransaction)
  | updateBlockNumber
  | updateNonce
  | updateTransactions
  | updateLogs (wid : BREthereumWalletId) (event : Nat)
  | updateWalletBalance (wid : BREthereumWalletId)
  | updateTransactionGasEstimate (wid : BREthereumWalletId) (tid : BREthereumTransactionId)
  | updateWalletDefaultGasPrice (wid : BREthereumWalletId)
  deriving DecidableEq, Repr

/-- The world after one operation. A step of the worker is possible only where
the worker is: its first statement when the thread has been created, a cycle
when it is running and does not see `LIGHT_NODE_DISCONNECTING` at the check,
its exit when it is running and sees `LIGHT_NODE_DISCONNECTING`; `none` when the
step is not possible or the result is undefined. -/
def perform (x : External) (W : World) : NodeOp → Option World
  | .addListener c w b t => some (lightNodeAddListener W c w b t).2
  | .removeListener lid => some (lightNodeRemoveListener W lid).2
  | .connect client t => some (lightNodeConnect W client t).world
  | .disconnect => some (lightNodeDisconnect W).2
  | .workerStart =>
    if W.worker = .spawned then some (lightNodeThreadRoutineStart W) else none
  | .workerCycle =>
    if W.worker = .running ∧ W.node.state ≠ .LIGHT_NODE_DISCONNECTING then
      some (lightNodeThreadRoutineCycle x W)
    else none
  | .workerExit =>
    if W.worker = .running ∧ W.node.state = .LIGHT_NODE_DISCONNECTING then
      some (lightNodeThreadRoutineExit W)
    else none
  | .insertWallet wallet => some (lightNodeInsertWallet W wallet)
  | .getWalletHoldingToken token => some (lightNodeGetWalletHoldingToken W token).2
  | .walletCreateTransaction wallet recv amount =>
    some (lightNodeWalletCreateTransaction x W wallet recv amount).2
  | .walletCreateTransactionGeneric wallet recv amount gasPrice gasLimit data =>
    some (lightNodeWalletCreateTransactionGeneric x W wallet recv amount gasPrice gasLimit
      data).2
  | .walletSignTransaction wallet transaction key =>
    some (lightNodeWalletSignTransaction x W wallet transaction key)
  | .walletSignTransactionWithPaperKey wallet transaction paperKey =>
    some (lightNodeWalletSignTransactionWithPaperKey x W wallet transaction paperKey)
  | .walletSubmitTransaction wallet transaction =>
    some (lightNodeWalletSubmitTransaction x W wallet transaction)
  | .walletSetDefaultGasLimit wallet gasLimit =>
    some (lightNodeWalletSetDefaultGasLimit W wallet gasLimit)
  | .walletSetDefaultGasPrice wallet gasPrice =>
    some (lightNodeWalletSetDefaultGasPrice W wallet gasPrice)
  | .insertBlock block => some (lightNodeInsertBlock W block)
  | .updateBlockHeight h => some (lightNodeUpdateBlockHeight W h)
  | .insertTransaction t => some (lightNodeInsertTransaction W t).2
  | .deleteTransaction t => lightNodeDeleteTransaction W t
  | .updateBlockNumber => some (lightNodeUpdateBlockNumber W)
  | .updateNonce => some (lightNodeUpdateNonce W)
  | .updateTransactions => some (lightNodeUpdateTransactions W)
  | .updateLogs wid event => some (lightNodeUpdateLogs x W wid event)
  | .updateWalletBalance wid => some (lightNodeUpdateWalletBalance W wid)
  | .updateTransactionGasEstimate wid tid =>
    some (lightNodeUpdateTransactionGasEstimate x W wid tid)
  | .updateWalletDefaultGasPrice wid => some (lightNodeUpdateWalletDefaultGasPrice W wid)

/-- The world after a sequence of operations, `none` as soon as one of them is
not possible. -/
def performAll (x : External) : World → List NodeOp → Option World
  | W, [] => some W
  | W, op :: ops =>
    match perform x W op with
    | some W1 => performAll x W1 ops
    | none => none

/-! ## State changes -/

/-- The values that an operation assigns to `node->state`, in the order of the
assignments: `lightNodeConnect` as recorded in its result, `lightNodeDisconnect`
`LIGHT_NODE_DISCONNECTING`, the worker `LIGHT_NODE_CONNECTED` at its start and
`LIGHT_NODE_DISCONNECTED` at its exit; no other operation assigns to it. -/
def stateWrites (W : World) : NodeOp → List BREthereumLightNodeState
  | .connect client t => (lightNodeConnect W client t).stateWrites
  | .disconnect => [.LIGHT_NODE_DISCONNECTING]
  | .workerStart => [.LIGHT_NODE_CONNECTED]
  | .workerExit => [.LIGHT_NODE_DISCONNECTED]
  | _ => []

/-- The changes of state that a sequence of assignments makes from state `s`:
the pairs (state before, state after) of the assignments that assign a state
other than the current one. -/
def stateChanges (s : BREthereumLightNodeState) :
    List BREthereumLightNodeState → List (BREthereumLightNodeState × BREthereumLightNodeState)
  | [] => []
  | t :: rest => if s = t then stateChanges t rest else (s, t) :: stateChanges t rest

/-- The state after a sequence of assignments to `node->state` made in state
`s`: the last value assigned, `s` when there is none. -/
def stateAfter (s : BREthereumLightNodeState) :
    List BREthereumLightNodeState → BREthereumLightNodeState
  | [] => s
  | t :: rest => stateAfter t rest

/-- The transitions of the lifecycle diagram: Created to Connecting, Connecting
to Connected, Connecting to Errored, Connected to Disconnecting, Disconnecting
to Disconnected, Disconnected to Connecting, Errored to Connecting. -/
def diagramTransition : BREthereumLightNodeState → BREthereumLightNodeState → Bool
  | .LIGHT_NODE_CREATED, .LIGHT_NODE_CONNECTING => true
  | .LIGHT_NODE_CONNECTING, .LIGHT_NODE_CONNECTED => true
  | .LIGHT_NODE_CONNECTING, .LIGHT_NODE_ERRORED => true
  | .LIGHT_NODE_CONNECTED, .LIGHT_NODE_DISCONNECTING => true
  | .LIGHT_NODE_DISCONNECTING, .LIGHT_NODE_DISCONNECTED => true
  | .LIGHT_NODE_DISCONNECTED, .LIGHT_NODE_CONNECTING => true
  | .LIGHT_NODE_ERRORED, .LIGHT_NODE_CONNECTING => true
  | _, _ => false

/-! ## Predicates used in the statements -/

/-- The `TRANSACTION_EVENT_REMOVED` events, with status `SUCCESS`, for the
wallets that carry the transaction in world `W`: one for each wallet id whose
wallet has the transaction, in increasing order of the wallet id. -/
def removedEvents (W : World) (transaction : BREthereumTransaction)
    (tid : BREthereumTransactionId) : List ListenerEvent :=
  (W.node.wallets.enum.filter (fun p => walletHasTransaction W p.2 transaction)).map
    (fun p => ListenerEvent.transaction (p.1 : Int) tid .TRANSACTION_EVENT_REMOVED .SUCCESS)


/-- Handle stability from world `W` to world `V`: every wallet handle and every
block handle that is in range in `W` looks up the same object in `V`, and every
transaction handle that is in range in `W` looks up the same object in `V` or
`NULL`. -/
def HandlesStable (W V : World) : Prop :=
  (∀ wid : Int, 0 ≤ wid → wid < (W.node.wallets.length : Int) →
    lightNodeLookupWallet V.node wid = lightNodeLookupWallet W.node wid) ∧
  (∀ bid : Int, 0 ≤ bid → bid < (W.node.blocks.length : Int) →
    lightNodeLookupBlock V.node bid = lightNodeLookupBlock W.node bid) ∧
  (∀ tid : Int, 0 ≤ tid → tid < (W.node.transactions.length : Int) →
    lightNodeLookupTransaction V.node tid = lightNodeLookupTransaction W.node tid ∨
    lightNodeLookupTransaction V.node tid = none)

/-- The `getBalance` callbacks of one poll cycle of world `W`: one for each
wallet id `wid` in increasing order, for the address of the wallet at `wid`,
with request id `base + wid` modulo `2 ^ 64`. -/
def balanceCalls (W : World) (base : Nat) (wallets : List (Nat × Nat)) : List ClientCall :=
  wallets.map (fun p =>
    { func := W.node.client.funcGetBalance, context := W.node.client.funcContext,
      request := .getBalance (p.1 : Int) (walletGetAddress W p.2),
      rid := (base + p.1) % requestIdModulus })

/-- From world `W` to world `V` the log of client callbacks has only grown at the
end, and the new callbacks carry the successive values of the counter: the
`i`-th new callback (counting from `0`) carries `requestId + (i + 1)` modulo
`2 ^ 64`, and the counter of `V` is the counter of `W` moved on by the number of
new callbacks. -/
def Issued (W V : World) : Prop :=
  ∃ cs : List ClientCall, V.calls = W.calls ++ cs ∧
    V.node.requestId % requestIdModulus =
      (W.node.requestId + cs.length) % requestIdModulus ∧
    cs.map (fun c => c.rid) =
      (List.range cs.length).map (fun i => (W.node.requestId + (i + 1)) % requestIdModulus)

/-- World `W` after `k` more client callbacks `cs`: the counter has moved on by
`k` and the callbacks are at the end of the log; nothing else differs. -/
def advance (W : World) (k : Nat) (cs : List ClientCall) : World :=
  { W with
    node := { W.node with requestId := (W.node.requestId + k) % requestIdModulus }
    calls := W.calls ++ cs }

/-- From world `W` to world `V` the wallet registry, the ether wallet of the node
and the reference that the next wallet allocation returns are the same. -/
def WalletFrame (W V : World) : Prop :=
  V.node.wallets = W.node.wallets ∧
  V.node.walletHoldingEther = W.node.walletHoldingEther ∧
  V.nextWallet = W.nextWallet

/-- The zeroed listener slot that `lightNodeRemoveListener` leaves behind. -/
def zeroListener : BREthereumLightNodeListener :=
  { context := 0, walletEventHandler := 0, blockEventHandler := 0,
    transactionEventHandler := 0 }

/-- Modelled from the spec: the byte-wise base-16 rendering of an amount, the
string that `coerceString (x, 16)` is said to produce: two digits for each byte,
so `"00"` for zero and `"01"` for one. -/
def byteWiseHex (n : Nat) : String :=
  let digits := Nat.toDigits 16 n
  String.mk (if digits.length % 2 = 1 then '0' :: digits else digits)

/-- The steps of the worker thread among the operations. -/
def isWorkerStep : NodeOp → Bool
  | .workerStart => true
  | .workerCycle => true
  | .workerExit => true
  | _ => false

/-! ## Worlds for concrete checks -/

/-- Collaborators for concrete checks. -/
def sampleExternal : External :=
  { tokenGetAddress := fun _ => "0xtoken"
    eventERC20Transfer := 1
    eventERC20TransferEncodeAddress := fun _ address => address
    eventGetSelector := fun _ => "0xddf252ad"
    coerceString16 := fun n => String.mk (Nat.toDigits 16 n)
    rawTransactionHex := fun _ _ => "f86b"
    walletCreateTransaction := fun w p recv amount =>
      ({ effectiveAddress := recv
         effectiveAmountInWEI :=
           (match amount with
            | .ether v => v
            | .token _ _ => 0)
         data := "", isSigned := false },
       { w with transactions := w.transactions ++ [some p] })
    walletCreateTransactionGeneric := fun w p recv amount _ _ data =>
      ({ effectiveAddress := recv, effectiveAmountInWEI := amount, data := data,
         isSigned := false },
       { w with transactions := w.transactions ++ [some p] })
    walletSignTransactionWithPrivateKey := fun _ t _ => { t with isSigned := true }
    walletSignTransaction := fun _ t _ => { t with isSigned := true } }

/-- A client for concrete checks. -/
def sampleClient : BREthereumClient :=
  ethereumClientCreate 7 11 12 13 14 15 16 17 18

/-- A freshly created node for concrete checks. -/
def sampleWorld : World :=
  createLightNode .NODE_TYPE_JSON_RPC 1 { primaryAddress := "0xabc" }

/-- The sample node after its ether wallet has created one transaction (object
`0`, transaction id `0`). -/
def sampleWorldWithTransaction : World :=
  (lightNodeWalletCreateTransaction sampleExternal sampleWorld 0 "0xdef" (.ether 1)).2

/-- The sample node after a successful connect and the start of its worker:
its state is Connected. -/
def sampleWorldConnected : World :=
  lightNodeThreadRoutineStart
    (lightNodeConnect sampleWorld sampleClient ⟨true, true, true, true⟩).world

/-- The sample node after `lightNodeInsertWallet` has been given its ether wallet
a second time and `lightNodeInsertTransaction` its transaction a second time:
the wallet object `0` has the ids `0` and `1`, and so has the transaction
object `0`. -/
def sampleWorldTwice : World :=
  (lightNodeInsertTransaction (lightNodeInsertWallet sampleWorldWithTransaction 0) (some 0)).2

/-- The sample node and a wallet of its account that is not in its registry
(object `1`), after that wallet has created a transaction (object `0`, id `0`). -/
def sampleWorldOutsideWallet : World :=
  (lightNodeWalletCreateTransaction sampleExternal
    (walletCreateHoldingToken sampleWorld sampleWorld.node.account sampleWorld.node.network
      none).2 1 "0xdef" (.ether 1)).2

/-- The world `sampleWorldOutsideWallet` after `lightNodeDeleteTransaction` of its
transaction. -/
def sampleWorldOutsideWalletDeleted : World :=
  (lightNodeDeleteTransaction sampleWorldOutsideWallet (some 0)).getD sampleWorld

end LightNode

/-!
# File service (BRFileService.c)

A shallow embedding of `src/support/BRFileService.c` and of the record declared
in `src/support/BRFileService.h`.

* C strings are Lean strings; `strlen` is the length.
* The member `char type[FSR_LENGTH_TYPE][FSR_ELEMENTS_MAXIMUM]` is an array of 25
  rows of 10 characters: it is modelled as its 250 characters in memory order,
  and `fs->type[i]` is the C string that starts at character `10 * i`.
* The arrays `version`, `FileReader` and `FileWriter` are lists of 10 entries; a
  function pointer is a number and `0` is `NULL`.
* The file system is outside the model: the functions that touch it yield the
  list of the operations they ask for, and what a reader or writer callback
  returns is a parameter.
-/

namespace FileService

/-- The enumerator `FSR_LENGTH_BASEDIR`. -/
def FSR_LENGTH_BASEDIR : Nat := 100

/-- The enumerator `FSR_LENGTH_NETWORK`. -/
def FSR_LENGTH_NETWORK : Nat := 25

/-- The enumerator `FSR_LENGTH_CURRENCY`. -/
def FSR_LENGTH_CURRENCY : Nat := 25

/-- The enumerator `FSR_LENGTH_TYPE`. -/
def FSR_LENGTH_TYPE : Nat := 25

/-- The enumerator `FSR_ELEMENTS_MAXIMUM`. -/
def FSR_ELEMENTS_MAXIMUM : Nat := 10

/-- The status `__LINE__` with which `fileServiceLoad` starts (line 184). -/
def loadFailure : Int := 184

/-- The status `__LINE__` with which `fileServiceSave` starts (line 215). -/
def saveFailure : Int := 215

/-- The status `__LINE__` with which `fileServiceDefineType` starts (line 315). -/
def defineTypeFailure : Int := 315

/-- The status `__LINE__` with which `fileServiceDefineCurrentVersion` starts
(line 345). -/
def defineCurrentVersionFailure : Int := 345

/-- The terminating character of a C string. -/
def nul : Char := Char.ofNat 0

/-- The record `struct BRFileServiceRecord`. -/
structure BRFileServiceRecord where
  status : Nat
  baseDirectory : String
  network : String
  currency : String
  current_element : Nat
  count_elements : Nat
  type : List Char
  version : List Nat
  FileReader : List Nat
  FileWriter : List Nat
  deriving DecidableEq, Repr

/-- The record after `calloc`: every byte is zero. -/
def zeroRecord : BRFileServiceRecord :=
  { status := 0, baseDirectory := "", network := "", currency := "", current_element := 0,
    count_elements := 0
    type := List.replicate (FSR_LENGTH_TYPE * FSR_ELEMENTS_MAXIMUM) nul
    version := List.replicate FSR_ELEMENTS_MAXIMUM 0
    FileReader := List.replicate FSR_ELEMENTS_MAXIMUM 0
    FileWriter := List.replicate FSR_ELEMENTS_MAXIMUM 0 }

/-- The C string `fs->type[i]`: the characters from the start of row `i`, which
is character `10 * i` of the member `type`, up to the next terminating
character. -/
def typeRow (fs : BRFileServiceRecord) (i : Nat) : String :=
  String.mk ((fs.type.drop (FSR_ELEMENTS_MAXIMUM * i)).takeWhile (fun c => c != nul))

/-- Memory after `strcpy` to the characters from `offset` on: the characters of
the string and the terminating character replace what was there. -/
def strcpyAt (memory : List Char) (offset : Nat) (source : String) : List Char :=
  memory.take offset ++ (source.data ++ [nul]) ++
    memory.drop (offset + (source.data.length + 1))

/-- The loop of `findType` from index `i` on, with `remaining` indices below
`count_elements` left and `x` still `0`: on a match `x` is incremented, then the
loop increment `i++` runs once more before the condition `x == 0` ends the loop,
and `i` is returned; without a match the result is `-1`. -/
def findTypeFrom (fs : BRFileServiceRecord) (type : String) : Nat → Nat → Int
  | 0, _ => -1
  | remaining + 1, i =>
    if typeRow fs i = type then ((i + 1 : Nat) : Int)
    else findTypeFrom fs type remaining (i + 1)

/-- The function `findType`. -/
def findType (fs : BRFileServiceRecord) (type : String) : Int :=
  findTypeFrom fs type fs.count_elements 0

/-- The function `createDirectory`: `FS_ERR_DIR_CREATE` (here `true`) when the
directory does not exist and `mkdir` fails. What the file system answers is the
parameter `mkdirFails`. -/
def createDirectory (mkdirFails : String → Bool) (path : String) : Bool :=
  mkdirFails path

/-- What `fileServiceCreate` does: it returns `NULL`, or it returns a handle
after having called `createDirectory` on the listed paths, or one of its
`strcpy` calls writes past the end of the member it copies to, after which
nothing is defined. -/
inductive CreateOutcome where
  | null
  | bufferOverflow
  | created (fs : BRFileServiceRecord) (directories : List String)
  deriving DecidableEq, Repr

/-- The function `fileServiceCreate`; `calloc` is assumed to succeed. The three
sizes are `strlen` cast to `uint16_t`. -/
def fileServiceCreate (mkdirFails : String → Bool) (baseDirectory network currency : String) :
    CreateOutcome :=
  let sz_baseDirectory := baseDirectory.length % 2 ^ 16
  let sz_network := network.length % 2 ^ 16
  let sz_currency := currency.length % 2 ^ 16
  if sz_baseDirectory ≥ FSR_LENGTH_BASEDIR ∨ sz_network ≥ FSR_LENGTH_NETWORK ∨
      sz_currency ≥ FSR_LENGTH_CURRENCY then
    .null
  else if baseDirectory.length + 1 > FSR_LENGTH_BASEDIR ∨
      network.length + 1 > FSR_LENGTH_NETWORK ∨
      currency.length + 1 > FSR_LENGTH_CURRENCY then
    .bufferOverflow
  else
    let fs : BRFileServiceRecord :=
      { zeroRecord with
        baseDirectory := baseDirectory, network := network, currency := currency,
        status := 0, current_element := 0 }
    let path1 := baseDirectory ++ "/" ++ network
    let path2 := baseDirectory ++ "/" ++ network ++ "/" ++ currency
    if createDirectory mkdirFails path1 then .created fs [path1]
    else .created fs [path1, path2]

/-- A call of a reader or writer: the function pointer, its first argument (the
result set or the entity), the directory path and the version. -/
structure FileCallback where
  func : Nat
  argument : Nat
  path : String
  version : Nat
  deriving DecidableEq, Repr

/-- What `fileServiceLoad` and `fileServiceSave` do: the status they return and
the callbacks they invoke. -/
structure TransferOutcome where
  status : Int
  invoked : List FileCallback
  deriving DecidableEq, Repr

/-- The directory path `"%s/%s/%s/%s"` of the type in row `id`. The buffer
`dirpath[256]` is taken to be large enough. -/
def typeDirectory (fs : BRFileServiceRecord) (id : Nat) : String :=
  fs.baseDirectory ++ "/" ++ fs.network ++ "/" ++ fs.currency ++ "/" ++ typeRow fs id

/-- The function `fileServiceLoad`. What the reader returns is the parameter
`run`. -/
def fileServiceLoad (run : FileCallback → Int) (fs : BRFileServiceRecord) (results : Nat)
    (type : String) : TransferOutcome :=
  if type.length < FSR_LENGTH_TYPE then
    let id := findType fs type
    if id ≥ 0 then
      let call : FileCallback :=
        { func := fs.FileReader.getD id.toNat 0, argument := results,
          path := typeDirectory fs id.toNat,
          version := fs.version.getD fs.current_element 0 }
      { status := run call, invoked := [call] }
    else { status := loadFailure, invoked := [] }
  else { status := loadFailure, invoked := [] }

/-- The function `fileServiceSave`. What the writer returns is the parameter
`run`. -/
def fileServiceSave (run : FileCallback → Int) (fs : BRFileServiceRecord) (entity : Nat)
    (type : String) : TransferOutcome :=
  if type.length < FSR_LENGTH_TYPE then
    let id := findType fs type
    if id ≥ 0 then
      let call : FileCallback :=
        { func := fs.FileWriter.getD id.toNat 0, argument := entity,
          path := typeDirectory fs id.toNat,
          version := fs.version.getD fs.current_element 0 }
      { status := run call, invoked := [call] }
    else { status := saveFailure, invoked := [] }
  else { status := saveFailure, invoked := [] }

/-- An operation on the file system that the file service asks for. -/
inductive FileSystemOp where
  | removeFiles (dirpath : String)
  | rmdir (dirpath : String)
  deriving DecidableEq, Repr

/-- The loop of `fileServiceClear` from index `id` on, with `remaining` indices
left. -/
def fileServiceClearFrom (fs : BRFileServiceRecord) (type : String) :
    Nat → Nat → List FileSystemOp
  | 0, _ => []
  | remaining + 1, id =>
    (if typeRow fs id = type then
      [FileSystemOp.removeFiles (typeDirectory fs id), FileSystemOp.rmdir (typeDirectory fs id)]
    else []) ++ fileServiceClearFrom fs type remaining (id + 1)

/-- The function `fileServiceClear`. -/
def fileServiceClear (fs : BRFileServiceRecord) (type : String) : List FileSystemOp :=
  if type.length < FSR_LENGTH_TYPE then fileServiceClearFrom fs type fs.count_elements 0
  else []

/-- The function `fileServiceClearAll`. In the second and third pass whether the
directory exists is asked of the file system each time, parameter `dirExists`,
which is given the operations done so far. -/
def fileServiceClearAll (dirExists : List FileSystemOp → String → Bool)
    (fs : BRFileServiceRecord) : List FileSystemOp :=
  let pass1 := (List.range fs.count_elements).flatMap (fun id =>
    [FileSystemOp.removeFiles (typeDirectory fs id), FileSystemOp.rmdir (typeDirectory fs id)])
  let currencyPath := fs.baseDirectory ++ "/" ++ fs.network ++ "/" ++ fs.currency
  let pass2 := (List.range fs.count_elements).foldl
    (fun ops _ => if dirExists ops currencyPath then ops ++ [FileSystemOp.rmdir currencyPath]
      else ops) pass1
  let networkPath := fs.baseDirectory ++ "/" ++ fs.network
  (List.range fs.count_elements).foldl
    (fun ops _ => if dirExists ops networkPath then ops ++ [FileSystemOp.rmdir networkPath]
      else ops) pass2

/-- The function `fileServiceDefineType`. -/
def fileServiceDefineType (fs : BRFileServiceRecord) (type : String) (version reader writer : Nat) :
    Int × BRFileServiceRecord :=
  if type.length < FSR_LENGTH_TYPE ∧ fs.count_elements < FSR_ELEMENTS_MAXIMUM then
    if fs.count_elements < FSR_ELEMENTS_MAXIMUM then
      let fs1 : BRFileServiceRecord :=
        { fs with
          type := strcpyAt fs.type (FSR_ELEMENTS_MAXIMUM * fs.count_elements) type
          version := fs.version.set fs.count_elements version
          FileReader := fs.FileReader.set fs.count_elements reader
          FileWriter := fs.FileWriter.set fs.count_elements writer
          count_elements := fs.count_elements + 1 }
      if fs1.count_elements < FSR_ELEMENTS_MAXIMUM then (0, fs1)
      else (defineTypeFailure, fs1)
    else (defineTypeFailure, fs)
  else (defineTypeFailure, fs)

/-- The loop of `fileServiceDefineCurrentVersion` from index `i` on, with
`remaining` indices left and `x` still `0`: the first entry whose version
matches sets `current_element` and the status `0`, and ends the loop. -/
def defineCurrentVersionFrom (version : Nat) :
    Nat → Nat → Int × BRFileServiceRecord → Int × BRFileServiceRecord
  | 0, _, r => r
  | remaining + 1, i, r =>
    if r.2.version.getD i 0 = version then (0, { r.2 with current_element := i })
    else defineCurrentVersionFrom version remaining (i + 1) r

/-- The function `fileServiceDefineCurrentVersion`. -/
def fileServiceDefineCurrentVersion (fs : BRFileServiceRecord) (type : String) (version : Nat) :
    Int × BRFileServiceRecord :=
  if type.length < FSR_LENGTH_TYPE then
    defineCurrentVersionFrom version fs.count_elements 0 (defineCurrentVersionFailure, fs)
  else (defineCurrentVersionFailure, fs)

/-! ## File services for concrete checks -/

/-- A file system in which every `mkdir` succeeds. -/
def sampleMkdirFails : String → Bool := fun _ => false

/-- Callbacks for concrete checks: every reader and writer returns `0`. -/
def sampleRun : FileCallback → Int := fun _ => 0

/-- The record of `fileServiceCreate ("/tmp/x", "mainnet", "eth")`. -/
def sampleService : BRFileServiceRecord :=
  match fileServiceCreate sampleMkdirFails "/tmp/x" "mainnet" "eth" with
  | .created fs _ => fs
  | _ => zeroRecord

/-- The sample service after `fileServiceDefineType (fs, "blocks", 1, 21, 22)`. -/
def sampleServiceBlocks : BRFileServiceRecord :=
  (fileServiceDefineType sampleService "blocks" 1 21 22).2

/-- The sample service after a second type, `"peers"`, version `2`, reader `31`,
writer `32`. -/
def sampleServiceBlocksPeers : BRFileServiceRecord :=
  (fileServiceDefineType sampleServiceBlocks "peers" 2 31 32).2

/-- The sample service after nine types, `"t0"` to `"t8"`, have been defined,
type `"t"i` with version `i`, reader `100 + i` and writer `200 + i`. -/
def sampleServiceNine : BRFileServiceRecord :=
  (["t0", "t1", "t2", "t3", "t4", "t5", "t6", "t7", "t8"].enum).foldl
    (fun fs p => (fileServiceDefineType fs p.2 p.1 (100 + p.1) (200 + p.1)).2) sampleService

/-- The sample service after `"transactions"` (12 characters) and then `"peers"`
have been defined. -/
def sampleServiceTransactionsPeers : BRFileServiceRecord :=
  (fileServiceDefineType (fileServiceDefineType sampleService "transactions" 1 21 22).2
    "peers" 2 31 32).2

/-- The sample service after `"blocks"` has been defined twice. -/
def sampleServiceBlocksTwice : BRFileServiceRecord :=
  (fileServiceDefineType sampleServiceBlocks "blocks" 2 31 32).2

/-- The sample service after `"transactions"` has been defined three times. -/
def sampleServiceTransactionsThrice : BRFileServiceRecord :=
  (fileServiceDefineType (fileServiceDefineType
    (fileServiceDefineType sampleService "transactions" 1 21 22).2
    "transactions" 2 31 32).2 "transactions" 3 41 42).2

/-! ## Sequences of definitions -/

/-- A call that defines something in a file service: `fileServiceDefineType` or
`fileServiceDefineCurrentVersion`, with its arguments. -/
inductive ServiceOp where
  | defineType (type : String) (version reader writer : Nat)
  | defineCurrentVersion (type : String) (version : Nat)
  deriving DecidableEq, Repr

/-- The file service after one call. -/
def applyOp (fs : BRFileServiceRecord) : ServiceOp → BRFileServiceRecord
  | .defineType type version reader writer =>
    (fileServiceDefineType fs type version reader writer).2
  | .defineCurrentVersion type version => (fileServiceDefineCurrentVersion fs type version).2

/-- The file service after a sequence of calls. -/
def applyOps (fs : BRFileServiceRecord) (ops : List ServiceOp) : BRFileServiceRecord :=
  ops.foldl applyOp fs

/-- The names that the calls of `fileServiceDefineType` in a sequence of calls
store, in order, on a service that holds `count` definitions at the start: a
call stores its name when the name has fewer than 25 characters and fewer than
10 definitions are held. -/
def acceptedNames : Nat → List ServiceOp → List String
  | _, [] => []
  | count, .defineType type _ _ _ :: ops =>
    if type.length < FSR_LENGTH_TYPE ∧ count < FSR_ELEMENTS_MAXIMUM then
      type :: acceptedNames (count + 1) ops
    else acceptedNames count ops
  | count, .defineCurrentVersion _ _ :: ops => acceptedNames count ops

/-- The type names held in the table: the strings `fs->type[i]` for the indices
below `count_elements`. -/
def typeNames (fs : BRFileServiceRecord) : List String :=
  (List.range fs.count_elements).map (typeRow fs)

/-- The rows of the table hold the names `ns`: there are as many definitions as
names, the member `type` has its 250 characters, and the characters of row `i`
are those of the `i`-th name, with the terminating character. -/
def RowsHold (fs : BRFileServiceRecord) (ns : List String) : Prop :=
  fs.count_elements = ns.length ∧
  fs.type.length = FSR_LENGTH_TYPE * FSR_ELEMENTS_MAXIMUM ∧
  ∀ i n, ns[i]? = some n →
    (fs.type.drop (FSR_ELEMENTS_MAXIMUM * i)).take (n.length + 1) = n.data ++ [nul]

/-- The directory that an operation on the file system names. -/
def dirpathOf : FileSystemOp → String
  | .removeFiles dirpath => dirpath
  | .rmdir dirpath => dirpath

/-- The service created for `("/tmp/x", "a/b", "c")` with the types `"blocks"`
and `"peers"`. -/
def sampleServiceSlashNetwork : BRFileServiceRecord :=
  match fileServiceCreate sampleMkdirFails "/tmp/x" "a/b" "c" with
  | .created fs _ =>
    (fileServiceDefineType (fileServiceDefineType fs "blocks" 1 21 22).2 "peers" 2 31 32).2
  | _ => zeroRecord

/-- The service created for `("/tmp/x", "a", "b/c")` with the types `"blocks"`
and `"peers"`. -/
def sampleServiceSlashCurrency : BRFileServiceRecord :=
  match fileServiceCreate sampleMkdirFails "/tmp/x" "a" "b/c" with
  | .created fs _ =>
    (fileServiceDefineType (fileServiceDefineType fs "blocks" 1 21 22).2 "peers" 2 31 32).2
  | _ => zeroRecord

/-- The record of `fileServiceCreate ("/tmp/x", "mainnet", "btc")`. -/
def sampleServiceBtc : BRFileServiceRecord :=
  match fileServiceCreate sampleMkdirFails "/tmp/x" "mainnet" "btc" with
  | .created fs _ => fs
  | _ => zeroRecord

end FileService

namespace LightNode

/-! ## Lookups after a registry grows -/

theorem lookupWallet_of_append {n m : BREthereumLightNodeRecord} {ext : List Nat}
    (h : m.wallets = n.wallets ++ ext) {wid : Int} (h0 : 0 ≤ wid)
    (h1 : wid < (n.wallets.length : Int)) :
    lightNodeLookupWallet m wid = lightNodeLookupWallet n wid := by
  have h2 : wid.toNat < n.wallets.length := by omega
  have h3 : wid < ((n.wallets ++ ext).length : Int) := by
    simp only [List.length_append, Nat.cast_add]; omega
  simp only [lightNodeLookupWallet, h, h0, h1, h3, List.getElem?_append_left h2,
    and_self, if_true]

theorem lookupBlock_of_append {n m : BREthereumLightNodeRecord} {ext : List Nat}
    (h : m.blocks = n.blocks ++ ext) {bid : Int} (h0 : 0 ≤ bid)
    (h1 : bid < (n.blocks.length : Int)) :
    lightNodeLookupBlock m bid = lightNodeLookupBlock n bid := by
  have h2 : bid.toNat < n.blocks.length := by omega
  have h3 : bid < ((n.blocks ++ ext).length : Int) := by
    simp only [List.length_append, Nat.cast_add]; omega
  simp only [lightNodeLookupBlock, h, h0, h1, h3, List.getElem?_append_left h2,
    and_self, if_true]

theorem lookupTransaction_of_append {n m : BREthereumLightNodeRecord}
    {ext : List BREthereumTransaction}
    (h : m.transactions = n.transactions ++ ext) {tid : Int}
    (h0 : 0 ≤ tid) (h1 : tid < (n.transactions.length : Int)) :
    lightNodeLookupTransaction m tid = lightNodeLookupTransaction n tid := by
  have h2 : tid.toNat < n.transactions.length := by omega
  have h3 : tid < ((n.transactions ++ ext).length : Int) := by
    simp only [List.length_append, Nat.cast_add]; omega
  simp only [lightNodeLookupTransaction, h, h0, h1, h3, List.getElem?_append_left h2,
    and_self, if_true]

/-- Registries that only grow at the end keep every handle stable. -/
theorem handlesStable_of_append {W V : World} (ws bs : List Nat)
    (ts : List BREthereumTransaction)
    (hw : V.node.wallets = W.node.wallets ++ ws)
    (hb : V.node.blocks = W.node.blocks ++ bs)
    (ht : V.node.transactions = W.node.transactions ++ ts) : HandlesStable W V :=
  ⟨fun _ h0 h1 => lookupWallet_of_append hw h0 h1,
   fun _ h0 h1 => lookupBlock_of_append hb h0 h1,
   fun _ h0 h1 => Or.inl (lookupTransaction_of_append ht h0 h1)⟩

theorem deleteTransactionLoop_node (t : BREthereumTransaction) (tid : BREthereumTransactionId) :
    ∀ (ws : List Nat) (i : Nat) (W : World),
      (lightNodeDeleteTransactionLoop t tid ws i W).node = W.node := by
  intro ws
  induction ws with
  | nil => intro i W; rfl
  | cons w rest ih =>
    intro i W
    simp only [lightNodeDeleteTransactionLoop]
    split
    · rw [ih]; rfl
    · rw [ih]

/-! ## C1: handle stability -/

/-- C1. Handle stability: for every node and each registry-mutating operation
(`lightNodeInsertWallet`, `lightNodeGetWalletHoldingToken`,
`lightNodeInsertTransaction`, `lightNodeWalletCreateTransaction`,
`lightNodeInsertBlock`, `lightNodeDeleteTransaction`), every wallet, block or
transaction handle that is in range before the operation looks up the same
object after it, or `NULL` in the case of a transaction handle only; it never
looks up a different object. -/
theorem handle_stability (x : External) (W : World) :
    (∀ wallet, HandlesStable W (lightNodeInsertWallet W wallet)) ∧
    (∀ token, HandlesStable W (lightNodeGetWalletHoldingToken W token).2) ∧
    (∀ transaction, HandlesStable W (lightNodeInsertTransaction W transaction).2) ∧
    (∀ wallet recvAddress amount,
      HandlesStable W (lightNodeWalletCreateTransaction x W wallet recvAddress amount).2) ∧
    (∀ block, HandlesStable W (lightNodeInsertBlock W block)) ∧
    (∀ transaction V, lightNodeDeleteTransaction W transaction = some V →
      HandlesStable W V) := by
  refine ⟨?_, ?_, ?_, ?_, ?_, ?_⟩
  · intro wallet
    exact handlesStable_of_append [wallet] [] [] rfl
      (List.append_nil _).symm (List.append_nil _).symm
  · intro token
    unfold lightNodeGetWalletHoldingToken
    simp only []
    split
    · exact handlesStable_of_append [W.nextWallet] [] [] rfl
        (List.append_nil _).symm (List.append_nil _).symm
    · exact handlesStable_of_append [] [] []
        (List.append_nil _).symm (List.append_nil _).symm (List.append_nil _).symm
  · intro transaction
    exact handlesStable_of_append [] [] [transaction]
      (List.append_nil _).symm (List.append_nil _).symm rfl
  · intro wallet recvAddress amount
    exact handlesStable_of_append [] [] ([some W.nextTransaction])
      (List.append_nil _).symm (List.append_nil _).symm rfl
  · intro block
    exact handlesStable_of_append [] [block] []
      (List.append_nil _).symm rfl (List.append_nil _).symm
  · intro transaction V hV
    unfold lightNodeDeleteTransaction at hV
    simp only [deleteTransactionLoop_node] at hV
    split at hV
    · injection hV with hV
      subst hV
      refine ⟨fun _ _ _ => rfl, fun _ _ _ => rfl, ?_⟩
      intro tid h0 h1
      have h2 : tid < ((W.node.transactions.set
          (lightNodeLookupTransactionId W.node transaction).toNat none).length : Int) := by
        rw [List.length_set]; exact h1
      simp only [lightNodeLookupTransaction, h0, h1, h2, and_self, if_true]
      by_cases hEq : (lightNodeLookupTransactionId W.node transaction).toNat = tid.toNat
      · right
        have h3 : tid.toNat < W.node.transactions.length := by omega
        rw [hEq, List.getElem?_set_self h3]
        rfl
      · left
        rw [List.getElem?_set_ne hEq]
    · exact absurd hV (by simp)

/-- C1 at a concrete node: deleting the one transaction of the sample node. -/
theorem handle_stability_witness :
    ∃ V, lightNodeDeleteTransaction sampleWorldWithTransaction (some 0) = some V ∧
      HandlesStable sampleWorldWithTransaction V :=
  ⟨(lightNodeDeleteTransaction sampleWorldWithTransaction (some 0)).getD sampleWorld, rfl,
   (handle_stability sampleExternal sampleWorldWithTransaction).2.2.2.2.2 (some 0) _ rfl⟩

/-! ## C2: insert and lookup -/

/-- C2. Insert/lookup round trip: for every node and transaction `t`,
`lightNodeInsertTransaction` returns the number of entries that the transaction
table had before the call, and `lightNodeLookupTransaction` at that id then
returns `t`; for every handle that is negative or not less than the table size,
`lightNodeLookupTransaction`, `lightNodeLookupWallet` and `lightNodeLookupBlock`
return `NULL`. -/
theorem insert_lookup_round_trip (W : World) (t : BREthereumTransaction) :
    (lightNodeInsertTransaction W t).1 = (W.node.transactions.length : Int) ∧
    lightNodeLookupTransaction (lightNodeInsertTransaction W t).2.node
      (lightNodeInsertTransaction W t).1 = t ∧
    (∀ h : Int, h < 0 ∨ ¬ h < (W.node.transactions.length : Int) →
      lightNodeLookupTransaction W.node h = none) ∧
    (∀ h : Int, h < 0 ∨ ¬ h < (W.node.wallets.length : Int) →
      lightNodeLookupWallet W.node h = none) ∧
    (∀ h : Int, h < 0 ∨ ¬ h < (W.node.blocks.length : Int) →
      lightNodeLookupBlock W.node h = none) := by
  refine ⟨?_, ?_, ?_, ?_, ?_⟩
  · simp [lightNodeInsertTransaction]
  · simp [lightNodeInsertTransaction, lightNodeLookupTransaction]
  · intro h hh
    have : ¬ (0 ≤ h ∧ h < (W.node.transactions.length : Int)) := by omega
    simp only [lightNodeLookupTransaction, this, if_false]
  · intro h hh
    have : ¬ (0 ≤ h ∧ h < (W.node.wallets.length : Int)) := by omega
    simp only [lightNodeLookupWallet, this, if_false]
  · intro h hh
    have : ¬ (0 ≤ h ∧ h < (W.node.blocks.length : Int)) := by omega
    simp only [lightNodeLookupBlock, this, if_false]

/-- C2 at a concrete node: a transaction inserted into the sample node, and the
handles `-1` and `1` of its registries. -/
theorem insert_lookup_round_trip_witness :
    (lightNodeInsertTransaction sampleWorldWithTransaction (some 5)).1 = 1 ∧
    lightNodeLookupTransaction
      (lightNodeInsertTransaction sampleWorldWithTransaction (some 5)).2.node 1 = some 5 ∧
    lightNodeLookupTransaction sampleWorldWithTransaction.node (-1) = none ∧
    lightNodeLookupWallet sampleWorldWithTransaction.node 1 = none ∧
    lightNodeLookupBlock sampleWorldWithTransaction.node (-1) = none :=
  have h := insert_lookup_round_trip sampleWorldWithTransaction (some 5)
  ⟨h.1, h.2.1, h.2.2.1 (-1) (Or.inl (by decide)), h.2.2.2.1 1 (Or.inr (by decide)),
   h.2.2.2.2 (-1) (Or.inl (by decide))⟩

/-! ## C3: transaction deletion -/

theorem scanFrom_range {α : Type} (p : α → Bool) :
    ∀ (l : List α) (i : Nat),
      scanFrom p l i = -1 ∨
        ((i : Int) ≤ scanFrom p l i ∧ scanFrom p l i < (i : Int) + (l.length : Int)) := by
  intro l
  induction l with
  | nil => intro i; left; rfl
  | cons y ys ih =>
    intro i
    simp only [scanFrom, List.length_cons]
    split
    · right; constructor <;> push_cast <;> omega
    · rcases ih (i + 1) with h | ⟨h1, h2⟩
      · left; exact h
      · right; push_cast at h1 h2 ⊢; constructor <;> omega

theorem filter_enumFrom_congr {α : Type} (f g : α → Bool) :
    ∀ (l : List α) (i : Nat), (∀ v ∈ l, f v = g v) →
      (List.enumFrom i l).filter (fun p => f p.2) =
        (List.enumFrom i l).filter (fun p => g p.2) := by
  intro l
  induction l with
  | nil => intro i _; rfl
  | cons y ys ih =>
    intro i h
    have hy : f y = g y := h y (List.mem_cons_self _ _)
    have hys : ∀ v ∈ ys, f v = g v := fun v hv => h v (List.mem_cons_of_mem _ hv)
    simp only [List.enumFrom_cons, List.filter_cons, hy, ih (i + 1) hys]

theorem deleteTransactionLoop_events (t : BREthereumTransaction) (tid : Int) :
    ∀ (ws : List Nat) (i : Nat) (W : World), ws.Nodup →
      (lightNodeDeleteTransactionLoop t tid ws i W).events =
        W.events ++
          ((List.enumFrom i ws).filter (fun p => walletHasTransaction W p.2 t)).map
            (fun p => ListenerEvent.transaction (p.1 : Int) tid
              .TRANSACTION_EVENT_REMOVED .SUCCESS) := by
  intro ws
  induction ws with
  | nil => intro i W _; simp [lightNodeDeleteTransactionLoop]
  | cons w rest ih =>
    intro i W hnd
    have hw : w ∉ rest := (List.nodup_cons.mp hnd).1
    have hrest : rest.Nodup := (List.nodup_cons.mp hnd).2
    simp only [lightNodeDeleteTransactionLoop, List.enumFrom_cons, List.filter_cons]
    by_cases hc : walletHasTransaction W w t = true
    · simp only [hc, if_true, List.map_cons]
      rw [ih (i + 1) _ hrest]
      have hsame : ∀ v ∈ rest,
          walletHasTransaction
            (lightNodeListenerAnnounceTransactionEvent (walletUnhandleTransaction W w t)
              (i : Int) tid .TRANSACTION_EVENT_REMOVED .SUCCESS) v t =
          walletHasTransaction W v t := by
        intro v hv
        have hne : v ≠ w := fun h => hw (h ▸ hv)
        simp [walletHasTransaction, lightNodeListenerAnnounceTransactionEvent,
          walletUnhandleTransaction, Function.update_noteq hne]
      rw [filter_enumFrom_congr _ _ rest (i + 1) hsame]
      simp [lightNodeListenerAnnounceTransactionEvent, walletUnhandleTransaction]
    · simp only [hc, if_false, Bool.false_eq_true]
      exact ih (i + 1) W hrest

/-- C3 (amended). Transaction deletion: for every node whose registered wallets
are pairwise distinct objects and every transaction `t` whose id is `tid` (the
id that `lightNodeLookupTransactionId` finds for it, the first slot that holds
`t`), `lightNodeDeleteTransaction` sets slot `tid` to `NULL`, leaves the table
length and every other slot unchanged, and announces one
`TRANSACTION_EVENT_REMOVED (wid, tid, SUCCESS)` for exactly those wallets `wid`
that carried `t`, in increasing `wid` order. -/
theorem delete_transaction (W : World) (t : BREthereumTransaction) (tid : Int)
    (hid : lightNodeLookupTransactionId W.node t = tid) (h0 : 0 ≤ tid)
    (hw : W.node.wallets.Nodup) :
    ∃ V, lightNodeDeleteTransaction W t = some V ∧
      V.node.transactions[tid.toNat]? = some none ∧
      V.node.transactions.length = W.node.transactions.length ∧
      (∀ i : Nat, i ≠ tid.toNat → V.node.transactions[i]? = W.node.transactions[i]?) ∧
      V.events = W.events ++ removedEvents W t tid := by
  have hlt : tid < (W.node.transactions.length : Int) := by
    have h := scanFrom_range (fun u => decide (t = u)) W.node.transactions 0
    unfold lightNodeLookupTransactionId at hid
    rw [hid] at h
    rcases h with h | ⟨_, h⟩
    · omega
    · simpa using h
  have hlt2 : tid.toNat < W.node.transactions.length := by omega
  have hnode := deleteTransactionLoop_node t tid W.node.wallets 0 W
  refine ⟨{ lightNodeDeleteTransactionLoop t tid W.node.wallets 0 W with
            node := { W.node with transactions := W.node.transactions.set tid.toNat none } },
          ?_, ?_, ?_, ?_, ?_⟩
  · unfold lightNodeDeleteTransaction
    simp only [hnode, hid, h0, hlt, and_self, if_true]
  · simp only [List.getElem?_set_self hlt2]
  · simp only [List.length_set]
  · intro i hi
    exact List.getElem?_set_ne (Ne.symm hi)
  · simp only [removedEvents, List.enum]
    exact deleteTransactionLoop_events t tid W.node.wallets 0 W hw

/-- C3 (amended) at a concrete node: deleting the transaction of the sample
node, which its one wallet carries. -/
theorem delete_transaction_witness :
    ∃ V, lightNodeDeleteTransaction sampleWorldWithTransaction (some 0) = some V ∧
      V.node.transactions[0]? = some none ∧
      V.node.transactions.length = sampleWorldWithTransaction.node.transactions.length ∧
      (∀ i : Nat, i ≠ 0 →
        V.node.transactions[i]? = sampleWorldWithTransaction.node.transactions[i]?) ∧
      V.events = sampleWorldWithTransaction.events ++
        [ListenerEvent.transaction 0 0 .TRANSACTION_EVENT_REMOVED .SUCCESS] :=
  delete_transaction sampleWorldWithTransaction (some 0) 0 (by decide) (by decide) (by decide)

/-- C3 as stated fails. In the sample node the transaction is stored at the ids
`0` and `1` and is carried by the wallet of the ids `0` and `1`. Deleting it
leaves slot `1` as it was, changes slot `0`, and announces a single
`TRANSACTION_EVENT_REMOVED`, for wallet `0` and transaction `0`. -/
theorem delete_transaction_counterexample :
    sampleWorldTwice.node.transactions[1]? = some (some 0) ∧
    (lightNodeLookupWallet sampleWorldTwice.node 1).map
      (fun w => walletHasTransaction sampleWorldTwice w (some 0)) = some true ∧
    ∃ V, lightNodeDeleteTransaction sampleWorldTwice (some 0) = some V ∧
      V.node.transactions[1]? = some (some 0) ∧
      V.node.transactions[0]? ≠ sampleWorldTwice.node.transactions[0]? ∧
      V.events = sampleWorldTwice.events ++
        [ListenerEvent.transaction 0 0 .TRANSACTION_EVENT_REMOVED .SUCCESS] :=
  ⟨by decide, by decide,
   (lightNodeDeleteTransaction sampleWorldTwice (some 0)).getD sampleWorld, rfl,
   by decide, by decide, by decide⟩

/-! ## C4 and C5: connect -/

/-- C4. Rejected connect: for every node whose state is Connecting, Connected or
Disconnecting and every client, `lightNodeConnect` returns false and leaves the
node (its state, stored client and registries) and everything else unchanged;
`pthread_create` is not called. -/
theorem connect_rejected (W : World) (client : BREthereumClient) (t : ThreadSetup)
    (h : W.node.state = .LIGHT_NODE_CONNECTING ∨ W.node.state = .LIGHT_NODE_CONNECTED ∨
      W.node.state = .LIGHT_NODE_DISCONNECTING) :
    (lightNodeConnect W client t).result = false ∧
    (lightNodeConnect W client t).world = W ∧
    (lightNodeConnect W client t).nodeAtThreadCreate = none := by
  unfold lightNodeConnect
  rcases h with h | h | h <;> simp only [h, and_self]

/-- C4 at a concrete node: a second connect while the first is still
Connecting. -/
theorem connect_rejected_witness :
    (lightNodeConnect (lightNodeConnect sampleWorld sampleClient ⟨true, true, true, true⟩).world
      nullClient ⟨true, true, true, true⟩).result = false ∧
    (lightNodeConnect (lightNodeConnect sampleWorld sampleClient ⟨true, true, true, true⟩).world
      nullClient ⟨true, true, true, true⟩).world =
      (lightNodeConnect sampleWorld sampleClient ⟨true, true, true, true⟩).world ∧
    (lightNodeConnect (lightNodeConnect sampleWorld sampleClient ⟨true, true, true, true⟩).world
      nullClient ⟨true, true, true, true⟩).nodeAtThreadCreate = none :=
  connect_rejected (lightNodeConnect sampleWorld sampleClient ⟨true, true, true, true⟩).world
    nullClient ⟨true, true, true, true⟩ (Or.inl rfl)

/-- C5. Accepted connect: for every node whose state is Created, Disconnected or
Errored, when thread setup and spawn succeed `lightNodeConnect` returns true,
has stored the given client and set the state to Connecting (nothing else in the
node changes) and the worker is spawned, and the worker's first step then sets
the state to Connected; whenever `pthread_create` is called, the node it is
called on already has the given client and the state Connecting; when thread
setup or spawn fails, `lightNodeConnect` returns false and the state is
Errored. -/
theorem connect_accepted (x : External) (W : World) (client : BREthereumClient)
    (t : ThreadSetup)
    (h : W.node.state = .LIGHT_NODE_CREATED ∨ W.node.state = .LIGHT_NODE_DISCONNECTED ∨
      W.node.state = .LIGHT_NODE_ERRORED) :
    (t.attrInit = true ∧ t.attrSetDetachState = true ∧ t.attrSetStackSize = true ∧
        t.create = true →
      (lightNodeConnect W client t).result = true ∧
      (lightNodeConnect W client t).world =
        { W with
          node := { W.node with client := client, state := .LIGHT_NODE_CONNECTING }
          worker := .spawned } ∧
      (lightNodeConnect W client t).nodeAtThreadCreate =
        some { W.node with client := client, state := .LIGHT_NODE_CONNECTING } ∧
      ∃ V, perform x (lightNodeConnect W client t).world .workerStart = some V ∧
        V.node.state = .LIGHT_NODE_CONNECTED) ∧
    (∀ n, (lightNodeConnect W client t).nodeAtThreadCreate = some n →
      n.client = client ∧ n.state = .LIGHT_NODE_CONNECTING) ∧
    (¬ (t.attrInit = true ∧ t.attrSetDetachState = true ∧ t.attrSetStackSize = true ∧
        t.create = true) →
      (lightNodeConnect W client t).result = false ∧
      (lightNodeConnect W client t).world.node.state = .LIGHT_NODE_ERRORED) := by
  obtain ⟨a, b, c, d⟩ := t
  unfold lightNodeConnect
  rcases h with h | h | h <;>
    cases a <;> cases b <;> cases c <;> cases d <;>
    simp [h, perform, lightNodeThreadRoutineStart]

/-- C5 at a concrete node: the first connect of the sample node, with every
pthread call succeeding. -/
theorem connect_accepted_witness :
    (lightNodeConnect sampleWorld sampleClient ⟨true, true, true, true⟩).result = true ∧
    (lightNodeConnect sampleWorld sampleClient ⟨true, true, true, true⟩).world.node.client =
      sampleClient ∧
    (lightNodeConnect sampleWorld sampleClient ⟨true, true, true, true⟩).world.node.state =
      .LIGHT_NODE_CONNECTING :=
  have h := (connect_accepted sampleExternal sampleWorld sampleClient ⟨true, true, true, true⟩
    (Or.inl rfl)).1 ⟨rfl, rfl, rfl, rfl⟩
  ⟨h.1, by rw [h.2.1], by rw [h.2.1]⟩

/-! ## C9 and C10: helpers on a node that is not connected -/

/-- C9 (amended). Quiescent helpers: for every node whose state is not
Connected, `lightNodeUpdateBlockNumber`, `lightNodeUpdateNonce`,
`lightNodeUpdateTransactions` and `lightNodeUpdateLogs` are no-ops (no client
callback, no listener event, nothing changes), while
`lightNodeUpdateWalletBalance`, `lightNodeUpdateTransactionGasEstimate` and
`lightNodeUpdateWalletDefaultGasPrice` invoke no client callback and leave
`requestId` and the rest of the node unchanged but announce exactly one listener
event, whose status is not `SUCCESS`. -/
theorem quiescent_helpers (x : External) (W : World)
    (h : W.node.state ≠ .LIGHT_NODE_CONNECTED) :
    lightNodeUpdateBlockNumber W = W ∧
    lightNodeUpdateNonce W = W ∧
    lightNodeUpdateTransactions W = W ∧
    (∀ wid event, lightNodeUpdateLogs x W wid event = W) ∧
    (∀ wid, ∃ status, status ≠ BREthereumStatus.SUCCESS ∧
      (lightNodeUpdateWalletBalance W wid).events =
        W.events ++ [.wallet wid .WALLET_EVENT_BALANCE_UPDATED status] ∧
      (lightNodeUpdateWalletBalance W wid).calls = W.calls ∧
      (lightNodeUpdateWalletBalance W wid).node = W.node) ∧
    (∀ wid tid, ∃ status, status ≠ BREthereumStatus.SUCCESS ∧
      (lightNodeUpdateTransactionGasEstimate x W wid tid).events =
        W.events ++ [.transaction wid tid .TRANSACTION_EVENT_GAS_ESTIMATE_UPDATED status] ∧
      (lightNodeUpdateTransactionGasEstimate x W wid tid).calls = W.calls ∧
      (lightNodeUpdateTransactionGasEstimate x W wid tid).node = W.node) ∧
    (∀ wid, ∃ status, status ≠ BREthereumStatus.SUCCESS ∧
      (lightNodeUpdateWalletDefaultGasPrice W wid).events =
        W.events ++ [.wallet wid .WALLET_EVENT_DEFAULT_GAS_PRICE_UPDATED status] ∧
      (lightNodeUpdateWalletDefaultGasPrice W wid).calls = W.calls ∧
      (lightNodeUpdateWalletDefaultGasPrice W wid).node = W.node) := by
  refine ⟨?_, ?_, ?_, ?_, ?_, ?_, ?_⟩
  · simp only [lightNodeUpdateBlockNumber, ne_eq, h, not_false_eq_true, if_true]
  · simp only [lightNodeUpdateNonce, ne_eq, h, not_false_eq_true, if_true]
  · simp only [lightNodeUpdateTransactions, ne_eq, h, not_false_eq_true, if_true]
  · intro wid event
    simp only [lightNodeUpdateLogs, ne_eq, h, not_false_eq_true, if_true]
  · intro wid
    unfold lightNodeUpdateWalletBalance
    cases lightNodeLookupWallet W.node wid with
    | none => exact ⟨.ERROR_UNKNOWN_WALLET, by decide, rfl, rfl, rfl⟩
    | some w =>
      simp only [ne_eq, h, not_false_eq_true, if_true]
      exact ⟨.ERROR_NODE_NOT_CONNECTED, by decide, rfl, rfl, rfl⟩
  · intro wid tid
    unfold lightNodeUpdateTransactionGasEstimate
    cases lightNodeLookupTransaction W.node tid with
    | none => exact ⟨.ERROR_UNKNOWN_WALLET, by decide, rfl, rfl, rfl⟩
    | some w =>
      simp only [ne_eq, h, not_false_eq_true, if_true]
      exact ⟨.ERROR_NODE_NOT_CONNECTED, by decide, rfl, rfl, rfl⟩
  · intro wid
    unfold lightNodeUpdateWalletDefaultGasPrice
    cases lightNodeLookupWallet W.node wid with
    | none => exact ⟨.ERROR_UNKNOWN_WALLET, by decide, rfl, rfl, rfl⟩
    | some w =>
      simp only [ne_eq, h, not_false_eq_true, if_true]
      exact ⟨.ERROR_NODE_NOT_CONNECTED, by decide, rfl, rfl, rfl⟩

/-- C9 (amended) at a concrete node: the sample node, whose state is Created. -/
theorem quiescent_helpers_witness :
    lightNodeUpdateBlockNumber sampleWorld = sampleWorld ∧
    lightNodeUpdateNonce sampleWorld = sampleWorld ∧
    lightNodeUpdateTransactions sampleWorld = sampleWorld ∧
    lightNodeUpdateLogs sampleExternal sampleWorld (-1) 1 = sampleWorld :=
  have h := quiescent_helpers sampleExternal sampleWorld (by decide)
  ⟨h.1, h.2.1, h.2.2.1, h.2.2.2.1 (-1) 1⟩

/-- C9 as stated fails. On the sample node, whose state is Created,
`lightNodeUpdateWalletBalance`, `lightNodeUpdateWalletDefaultGasPrice` and
`lightNodeUpdateTransactionGasEstimate` each announce a listener event. -/
theorem quiescent_helpers_counterexample :
    sampleWorldWithTransaction.node.state = .LIGHT_NODE_CREATED ∧
    (lightNodeUpdateWalletBalance sampleWorldWithTransaction 0).events =
      sampleWorldWithTransaction.events ++
        [.wallet 0 .WALLET_EVENT_BALANCE_UPDATED .ERROR_NODE_NOT_CONNECTED] ∧
    (lightNodeUpdateWalletDefaultGasPrice sampleWorldWithTransaction 0).events =
      sampleWorldWithTransaction.events ++
        [.wallet 0 .WALLET_EVENT_DEFAULT_GAS_PRICE_UPDATED .ERROR_NODE_NOT_CONNECTED] ∧
    (lightNodeUpdateTransactionGasEstimate sampleExternal sampleWorldWithTransaction 0 0).events =
      sampleWorldWithTransaction.events ++
        [.transaction 0 0 .TRANSACTION_EVENT_GAS_ESTIMATE_UPDATED .ERROR_NODE_NOT_CONNECTED] := by
  decide

/-- C10. Precondition errors are reported as the status of the operation's own
event: `lightNodeUpdateWalletBalance` and `lightNodeUpdateWalletDefaultGasPrice`
with a wallet id that resolves to no wallet, and
`lightNodeUpdateTransactionGasEstimate` with a transaction id that resolves to no
transaction, announce exactly one event of the operation's kind
(`BALANCE_UPDATED`, `DEFAULT_GAS_PRICE_UPDATED`, `GAS_ESTIMATE_UPDATED`) with
status `ERROR_UNKNOWN_WALLET`; otherwise, when the state is not Connected, they
announce exactly one such event with status `ERROR_NODE_NOT_CONNECTED`; in both
cases no client callback is invoked and the node, `requestId` included, is
unchanged. -/
theorem precondition_errors (x : External) (W : World) :
    (∀ wid, lightNodeLookupWallet W.node wid = none →
      (lightNodeUpdateWalletBalance W wid).events =
        W.events ++ [.wallet wid .WALLET_EVENT_BALANCE_UPDATED .ERROR_UNKNOWN_WALLET] ∧
      (lightNodeUpdateWalletBalance W wid).calls = W.calls ∧
      (lightNodeUpdateWalletBalance W wid).node = W.node) ∧
    (∀ wid, lightNodeLookupWallet W.node wid ≠ none →
      W.node.state ≠ .LIGHT_NODE_CONNECTED →
      (lightNodeUpdateWalletBalance W wid).events =
        W.events ++ [.wallet wid .WALLET_EVENT_BALANCE_UPDATED .ERROR_NODE_NOT_CONNECTED] ∧
      (lightNodeUpdateWalletBalance W wid).calls = W.calls ∧
      (lightNodeUpdateWalletBalance W wid).node = W.node) ∧
    (∀ wid, lightNodeLookupWallet W.node wid = none →
      (lightNodeUpdateWalletDefaultGasPrice W wid).events =
        W.events ++
          [.wallet wid .WALLET_EVENT_DEFAULT_GAS_PRICE_UPDATED .ERROR_UNKNOWN_WALLET] ∧
      (lightNodeUpdateWalletDefaultGasPrice W wid).calls = W.calls ∧
      (lightNodeUpdateWalletDefaultGasPrice W wid).node = W.node) ∧
    (∀ wid, lightNodeLookupWallet W.node wid ≠ none →
      W.node.state ≠ .LIGHT_NODE_CONNECTED →
      (lightNodeUpdateWalletDefaultGasPrice W wid).events =
        W.events ++
          [.wallet wid .WALLET_EVENT_DEFAULT_GAS_PRICE_UPDATED .ERROR_NODE_NOT_CONNECTED] ∧
      (lightNodeUpdateWalletDefaultGasPrice W wid).calls = W.calls ∧
      (lightNodeUpdateWalletDefaultGasPrice W wid).node = W.node) ∧
    (∀ wid tid, lightNodeLookupTransaction W.node tid = none →
      (lightNodeUpdateTransactionGasEstimate x W wid tid).events =
        W.events ++
          [.transaction wid tid .TRANSACTION_EVENT_GAS_ESTIMATE_UPDATED
            .ERROR_UNKNOWN_WALLET] ∧
      (lightNodeUpdateTransactionGasEstimate x W wid tid).calls = W.calls ∧
      (lightNodeUpdateTransactionGasEstimate x W wid tid).node = W.node) ∧
    (∀ wid tid, lightNodeLookupTransaction W.node tid ≠ none →
      W.node.state ≠ .LIGHT_NODE_CONNECTED →
      (lightNodeUpdateTransactionGasEstimate x W wid tid).events =
        W.events ++
          [.transaction wid tid .TRANSACTION_EVENT_GAS_ESTIMATE_UPDATED
            .ERROR_NODE_NOT_CONNECTED] ∧
      (lightNodeUpdateTransactionGasEstimate x W wid tid).calls = W.calls ∧
      (lightNodeUpdateTransactionGasEstimate x W wid tid).node = W.node) := by
  refine ⟨?_, ?_, ?_, ?_, ?_, ?_⟩
  · intro wid h
    simp only [lightNodeUpdateWalletBalance, h]
    exact ⟨rfl, rfl, rfl⟩
  · intro wid h hs
    unfold lightNodeUpdateWalletBalance
    cases hl : lightNodeLookupWallet W.node wid with
    | none => exact absurd hl h
    | some w =>
      simp only [ne_eq, hs, not_false_eq_true, if_true]
      exact ⟨rfl, rfl, rfl⟩
  · intro wid h
    simp only [lightNodeUpdateWalletDefaultGasPrice, h]
    exact ⟨rfl, rfl, rfl⟩
  · intro wid h hs
    unfold lightNodeUpdateWalletDefaultGasPrice
    cases hl : lightNodeLookupWallet W.node wid with
    | none => exact absurd hl h
    | some w =>
      simp only [ne_eq, hs, not_false_eq_true, if_true]
      exact ⟨rfl, rfl, rfl⟩
  · intro wid tid h
    simp only [lightNodeUpdateTransactionGasEstimate, h]
    exact ⟨rfl, rfl, rfl⟩
  · intro wid tid h hs
    unfold lightNodeUpdateTransactionGasEstimate
    cases hl : lightNodeLookupTransaction W.node tid with
    | none => exact absurd hl h
    | some w =>
      simp only [ne_eq, hs, not_false_eq_true, if_true]
      exact ⟨rfl, rfl, rfl⟩

/-- C10 at a concrete node: the sample node, not connected, with the unknown
wallet id `5`, the known wallet id `0`, the unknown transaction id `-1` and the
known transaction id `0`. -/
theorem precondition_errors_witness :
    (lightNodeUpdateWalletBalance sampleWorldWithTransaction 5).events =
      sampleWorldWithTransaction.events ++
        [.wallet 5 .WALLET_EVENT_BALANCE_UPDATED .ERROR_UNKNOWN_WALLET] ∧
    (lightNodeUpdateWalletDefaultGasPrice sampleWorldWithTransaction 0).events =
      sampleWorldWithTransaction.events ++
        [.wallet 0 .WALLET_EVENT_DEFAULT_GAS_PRICE_UPDATED .ERROR_NODE_NOT_CONNECTED] ∧
    (lightNodeUpdateTransactionGasEstimate sampleExternal sampleWorldWithTransaction 0
        (-1)).calls = sampleWorldWithTransaction.calls ∧
    (lightNodeUpdateTransactionGasEstimate sampleExternal sampleWorldWithTransaction 0 0).node =
      sampleWorldWithTransaction.node :=
  have h := precondition_errors sampleExternal sampleWorldWithTransaction
  ⟨(h.1 5 (by decide)).1, (h.2.2.2.1 0 (by decide) (by decide)).1,
   (h.2.2.2.2.1 0 (-1) (by decide)).2.1, (h.2.2.2.2.2 0 0 (by decide) (by decide)).2.2⟩

/-! ## C7: one poll cycle -/

theorem mod_succ_mod (a : Nat) :
    (a % requestIdModulus + 1) % requestIdModulus = (a + 1) % requestIdModulus := by
  rw [Nat.add_mod, Nat.mod_mod, ← Nat.add_mod]

theorem clientInvoke_eq_advance (W : World) (func : Nat) (request : ClientRequest) :
    clientInvoke W func request =
      advance W 1
        [{ func := func, context := W.node.client.funcContext, request := request,
           rid := (W.node.requestId + 1) % requestIdModulus }] := rfl

theorem advance_advance (W : World) (k j : Nat) (cs ds : List ClientCall) :
    advance (advance W k cs) j ds = advance W (k + j) (cs ++ ds) := by
  have h : ((W.node.requestId + k) % requestIdModulus + j) % requestIdModulus =
      (W.node.requestId + (k + j)) % requestIdModulus := by
    rw [Nat.add_mod, Nat.mod_mod, ← Nat.add_mod, Nat.add_assoc]
  simp only [advance, List.append_assoc, h]

theorem advance_zero (W : World) (h : W.node.requestId < requestIdModulus) :
    advance W 0 [] = W := by
  simp only [advance, Nat.add_zero, Nat.mod_eq_of_lt h, List.append_nil]

theorem advance_state (W : World) (k : Nat) (cs : List ClientCall) :
    (advance W k cs).node.state = W.node.state := rfl

theorem advance_type (W : World) (k : Nat) (cs : List ClientCall) :
    (advance W k cs).node.type = W.node.type := rfl

theorem advance_wallets (W : World) (k : Nat) (cs : List ClientCall) :
    (advance W k cs).node.wallets = W.node.wallets := rfl

theorem advance_client (W : World) (k : Nat) (cs : List ClientCall) :
    (advance W k cs).node.client = W.node.client := rfl

theorem advance_account (W : World) (k : Nat) (cs : List ClientCall) :
    (advance W k cs).node.account = W.node.account := rfl

theorem advance_requestId (W : World) (k : Nat) (cs : List ClientCall) :
    (advance W k cs).node.requestId = (W.node.requestId + k) % requestIdModulus := rfl

theorem advance_calls (W : World) (k : Nat) (cs : List ClientCall) :
    (advance W k cs).calls = W.calls ++ cs := rfl

theorem advance_events (W : World) (k : Nat) (cs : List ClientCall) :
    (advance W k cs).events = W.events := rfl

theorem advance_walletObjects (W : World) (k : Nat) (cs : List ClientCall) :
    (advance W k cs).walletObjects = W.walletObjects := rfl

theorem balanceCalls_advance (W : World) (k : Nat) (cs : List ClientCall) (base : Nat)
    (ws : List (Nat × Nat)) :
    balanceCalls (advance W k cs) base ws = balanceCalls W base ws := rfl

theorem updateWalletBalance_connected (W : World) (i w : Nat)
    (hs : W.node.state = .LIGHT_NODE_CONNECTED)
    (ht : W.node.type = .NODE_TYPE_JSON_RPC ∨ W.node.type = .NODE_TYPE_LES)
    (hw : W.node.wallets[i]? = some w) :
    lightNodeUpdateWalletBalance W (i : Int) =
      clientInvoke W W.node.client.funcGetBalance
        (.getBalance (i : Int) (walletGetAddress W w)) := by
  have hi : i < W.node.wallets.length := by
    rcases Nat.lt_or_ge i W.node.wallets.length with h | h
    · exact h
    · rw [List.getElem?_eq_none h] at hw; exact absurd hw (by simp)
  have hl : lightNodeLookupWallet W.node (i : Int) = some w := by
    have h0 : (0 : Int) ≤ (i : Int) := Int.ofNat_nonneg i
    have h1 : (i : Int) < (W.node.wallets.length : Int) := by exact_mod_cast hi
    simp only [lightNodeLookupWallet, h0, h1, and_self, if_true, Int.toNat_ofNat, hw]
  unfold lightNodeUpdateWalletBalance
  rw [hl]
  rcases ht with ht | ht <;> simp [hs, ht]

theorem threadRoutineBalances_spec (r0 : Nat) :
    ∀ (ws : List Nat) (i : Nat) (W : World),
      W.node.wallets.drop i = ws →
      W.node.state = .LIGHT_NODE_CONNECTED →
      (W.node.type = .NODE_TYPE_JSON_RPC ∨ W.node.type = .NODE_TYPE_LES) →
      W.node.requestId = (r0 + i) % requestIdModulus →
      lightNodeThreadRoutineBalances ws.length i W =
        advance W ws.length (balanceCalls W (r0 + 1) (List.enumFrom i ws)) := by
  intro ws
  induction ws with
  | nil =>
    intro i W _ _ _ hr
    have hlt : W.node.requestId < requestIdModulus := by
      rw [hr]; exact Nat.mod_lt _ (by decide)
    simp only [lightNodeThreadRoutineBalances, List.length_nil, List.enumFrom_nil, balanceCalls,
      List.map_nil, advance_zero W hlt]
  | cons w rest ih =>
    intro i W hd hs ht hr
    have hw : W.node.wallets[i]? = some w := by
      have h := congrArg List.head? hd
      simpa [List.head?_drop] using h
    have hrest : W.node.wallets.drop (i + 1) = rest := by
      have h := congrArg List.tail hd
      simpa [List.tail_drop] using h
    simp only [List.length_cons, lightNodeThreadRoutineBalances]
    rw [updateWalletBalance_connected W i w hs ht hw, clientInvoke_eq_advance]
    have hr1 : (advance W 1
        [{ func := W.node.client.funcGetBalance, context := W.node.client.funcContext,
           request := .getBalance (i : Int) (walletGetAddress W w),
           rid := (W.node.requestId + 1) % requestIdModulus }]).node.requestId =
        (r0 + (i + 1)) % requestIdModulus := by
      rw [advance_requestId, hr, mod_succ_mod, Nat.add_assoc]
    rw [ih (i + 1) (advance W 1
        [{ func := W.node.client.funcGetBalance, context := W.node.client.funcContext,
           request := .getBalance (i : Int) (walletGetAddress W w),
           rid := (W.node.requestId + 1) % requestIdModulus }]) hrest hs ht hr1,
      balanceCalls_advance, advance_advance]
    have e1 : (W.node.requestId + 1) % requestIdModulus = (r0 + 1 + i) % requestIdModulus := by
      rw [hr, mod_succ_mod]; congr 1; omega
    have e2 : 1 + rest.length = rest.length + 1 := by omega
    rw [e1, e2]
    rfl

theorem balanceCalls_rid (W : World) (base : Nat) :
    ∀ (ws : List Nat) (i : Nat), base + i + ws.length ≤ requestIdModulus →
      (balanceCalls W base (List.enumFrom i ws)).map (fun c => c.rid) =
        List.range' (base + i) ws.length := by
  intro ws
  induction ws with
  | nil => intro i _; rfl
  | cons w rest ih =>
    intro i h
    simp only [List.length_cons] at h
    have h1 : (base + i) % requestIdModulus = base + i := Nat.mod_eq_of_lt (by omega)
    have h2 := ih (i + 1) (by omega)
    simp only [balanceCalls, List.map_map] at h2
    simp only [balanceCalls, List.enumFrom_cons, List.map_cons, List.map_map, List.length_cons,
      List.range'_succ, h1, h2]
    rfl

theorem updateBlockNumber_connected (W : World)
    (hs : W.node.state = .LIGHT_NODE_CONNECTED)
    (ht : W.node.type = .NODE_TYPE_JSON_RPC ∨ W.node.type = .NODE_TYPE_LES) :
    lightNodeUpdateBlockNumber W =
      clientInvoke W W.node.client.funcGetBlockNumber .getBlockNumber := by
  unfold lightNodeUpdateBlockNumber
  rcases ht with ht | ht <;> simp [hs, ht]

theorem updateNonce_connected (W : World)
    (hs : W.node.state = .LIGHT_NODE_CONNECTED)
    (ht : W.node.type = .NODE_TYPE_JSON_RPC ∨ W.node.type = .NODE_TYPE_LES) :
    lightNodeUpdateNonce W =
      clientInvoke W W.node.client.funcGetNonce (.getNonce W.node.account.primaryAddress) := by
  unfold lightNodeUpdateNonce
  rcases ht with ht | ht <;> simp [hs, ht]

theorem updateTransactions_connected (W : World)
    (hs : W.node.state = .LIGHT_NODE_CONNECTED)
    (ht : W.node.type = .NODE_TYPE_JSON_RPC ∨ W.node.type = .NODE_TYPE_LES) :
    lightNodeUpdateTransactions W =
      clientInvoke W W.node.client.funcGetTransactions
        (.getTransactions W.node.account.primaryAddress) := by
  unfold lightNodeUpdateTransactions
  rcases ht with ht | ht <;> simp [hs, ht]

theorem updateLogs_connected (x : External) (W : World) (wid : Int) (event : Nat)
    (hs : W.node.state = .LIGHT_NODE_CONNECTED)
    (ht : W.node.type = .NODE_TYPE_JSON_RPC ∨ W.node.type = .NODE_TYPE_LES) :
    lightNodeUpdateLogs x W wid event =
      clientInvoke W W.node.client.funcGetLogs
        (.getLogs (lightNodeGetWalletContractAddress x W wid)
          (x.eventERC20TransferEncodeAddress event W.node.account.primaryAddress)
          (x.eventGetSelector event)) := by
  unfold lightNodeUpdateLogs
  rcases ht with ht | ht <;> simp [hs, ht]

theorem updateNonce_advance (W : World) (k : Nat) (cs : List ClientCall)
    (hs : W.node.state = .LIGHT_NODE_CONNECTED)
    (ht : W.node.type = .NODE_TYPE_JSON_RPC ∨ W.node.type = .NODE_TYPE_LES) :
    lightNodeUpdateNonce (advance W k cs) =
      advance W (k + 1)
        (cs ++ [{ func := W.node.client.funcGetNonce, context := W.node.client.funcContext,
                  request := .getNonce W.node.account.primaryAddress,
                  rid := (W.node.requestId + (k + 1)) % requestIdModulus }]) := by
  rw [updateNonce_connected (advance W k cs) hs ht, clientInvoke_eq_advance, advance_advance]
  simp only [advance_client, advance_account, advance_requestId, mod_succ_mod, Nat.add_assoc]

theorem updateTransactions_advance (W : World) (k : Nat) (cs : List ClientCall)
    (hs : W.node.state = .LIGHT_NODE_CONNECTED)
    (ht : W.node.type = .NODE_TYPE_JSON_RPC ∨ W.node.type = .NODE_TYPE_LES) :
    lightNodeUpdateTransactions (advance W k cs) =
      advance W (k + 1)
        (cs ++ [{ func := W.node.client.funcGetTransactions,
                  context := W.node.client.funcContext,
                  request := .getTransactions W.node.account.primaryAddress,
                  rid := (W.node.requestId + (k + 1)) % requestIdModulus }]) := by
  rw [updateTransactions_connected (advance W k cs) hs ht, clientInvoke_eq_advance,
    advance_advance]
  simp only [advance_client, advance_account, advance_requestId, mod_succ_mod, Nat.add_assoc]

theorem getWalletContractAddress_neg_one (x : External) (W : World) :
    lightNodeGetWalletContractAddress x W (-1) = none := by
  have : ¬ ((0 : Int) ≤ -1 ∧ (-1 : Int) < (W.node.wallets.length : Int)) := by omega
  simp only [lightNodeGetWalletContractAddress, lightNodeLookupWallet, this, if_false]

/-- C7. Poll cycle contents and order: for every node in state Connected, of
type JsonRpc or Les, with client `c`, `n` wallets and `requestId` `r`, one
execution of the worker's cycle body invokes exactly these client callbacks, in
this order: `getBlockNumber`, `getNonce`, `getTransactions`, `getLogs` (null
contract, ERC20 Transfer selector), then `getBalance` for the wallet ids
`0, 1, ..., n-1`. They carry the values `r+1, ..., r+4+n` of the 64-bit counter
(taken modulo `2 ^ 64`, so exactly these numbers as long as `r + 4 + n < 2 ^ 64`),
the counter ends at `r+4+n`, no other callback is invoked, no listener event is
announced and nothing else changes. -/
theorem poll_cycle (x : External) (W : World)
    (hs : W.node.state = .LIGHT_NODE_CONNECTED)
    (ht : W.node.type = .NODE_TYPE_JSON_RPC ∨ W.node.type = .NODE_TYPE_LES) :
    lightNodeThreadRoutineCycle x W =
      { W with
        node := { W.node with
          requestId := (W.node.requestId + 4 + W.node.wallets.length) % requestIdModulus }
        calls := W.calls ++
          [{ func := W.node.client.funcGetBlockNumber, context := W.node.client.funcContext,
             request := .getBlockNumber,
             rid := (W.node.requestId + 1) % requestIdModulus },
           { func := W.node.client.funcGetNonce, context := W.node.client.funcContext,
             request := .getNonce W.node.account.primaryAddress,
             rid := (W.node.requestId + 2) % requestIdModulus },
           { func := W.node.client.funcGetTransactions,
             context := W.node.client.funcContext,
             request := .getTransactions W.node.account.primaryAddress,
             rid := (W.node.requestId + 3) % requestIdModulus },
           { func := W.node.client.funcGetLogs, context := W.node.client.funcContext,
             request := .getLogs none
               (x.eventERC20TransferEncodeAddress x.eventERC20Transfer
                 W.node.account.primaryAddress)
               (x.eventGetSelector x.eventERC20Transfer),
             rid := (W.node.requestId + 4) % requestIdModulus }] ++
          balanceCalls W (W.node.requestId + 5) W.node.wallets.enum } ∧
    (W.node.requestId + 4 + W.node.wallets.length < requestIdModulus →
      ((lightNodeThreadRoutineCycle x W).calls.drop W.calls.length).map (fun c => c.rid) =
        List.range' (W.node.requestId + 1) (4 + W.node.wallets.length)) := by
  have hfirst : lightNodeThreadRoutineCycle x W =
      advance W (4 + W.node.wallets.length)
        ([{ func := W.node.client.funcGetBlockNumber, context := W.node.client.funcContext,
             request := .getBlockNumber,
             rid := (W.node.requestId + 1) % requestIdModulus },
           { func := W.node.client.funcGetNonce, context := W.node.client.funcContext,
             request := .getNonce W.node.account.primaryAddress,
             rid := (W.node.requestId + 2) % requestIdModulus },
           { func := W.node.client.funcGetTransactions,
             context := W.node.client.funcContext,
             request := .getTransactions W.node.account.primaryAddress,
             rid := (W.node.requestId + 3) % requestIdModulus },
           { func := W.node.client.funcGetLogs, context := W.node.client.funcContext,
             request := .getLogs none
               (x.eventERC20TransferEncodeAddress x.eventERC20Transfer
                 W.node.account.primaryAddress)
               (x.eventGetSelector x.eventERC20Transfer),
             rid := (W.node.requestId + 4) % requestIdModulus }] ++
          balanceCalls W (W.node.requestId + 5) W.node.wallets.enum) := by
    unfold lightNodeThreadRoutineCycle
    simp only []
    rw [updateBlockNumber_connected W hs ht, clientInvoke_eq_advance,
      updateNonce_advance W _ _ hs ht, updateTransactions_advance W _ _ hs ht]
    rw [updateLogs_connected x (advance W (1 + 1 + 1) _) _ _ hs ht, clientInvoke_eq_advance,
      advance_advance, getWalletContractAddress_neg_one]
    simp only [advance_wallets, advance_client, advance_account, advance_requestId,
      mod_succ_mod]
    rw [threadRoutineBalances_spec (W.node.requestId + 4) W.node.wallets 0
      (advance W (1 + 1 + 1 + 1) _) (List.drop_zero _) hs ht (by rw [advance_requestId]),
      balanceCalls_advance, advance_advance]
    rfl
  refine ⟨?_, ?_⟩
  · rw [hfirst]
    simp only [advance, Nat.add_assoc, List.append_assoc]
  intro hlt
  rw [hfirst, advance_calls]
  simp only [List.append_assoc, List.drop_left, List.map_append, List.map_cons, List.map_nil,
    List.cons_append, List.nil_append]
  have hb := balanceCalls_rid W (W.node.requestId + 5) W.node.wallets 0 (by omega)
  rw [List.enum, hb]
  have e1 : (W.node.requestId + 1) % requestIdModulus = W.node.requestId + 1 :=
    Nat.mod_eq_of_lt (by omega)
  have e2 : (W.node.requestId + 2) % requestIdModulus = W.node.requestId + 2 :=
    Nat.mod_eq_of_lt (by omega)
  have e3 : (W.node.requestId + 3) % requestIdModulus = W.node.requestId + 3 :=
    Nat.mod_eq_of_lt (by omega)
  have e4 : (W.node.requestId + 4) % requestIdModulus = W.node.requestId + 4 :=
    Nat.mod_eq_of_lt (by omega)
  have e5 : 4 + W.node.wallets.length = W.node.wallets.length + 1 + 1 + 1 + 1 := by omega
  rw [e1, e2, e3, e4, e5]
  simp only [List.range'_succ, Nat.add_zero]

/-- C7 at a concrete node: one cycle of the connected sample node, which has one
wallet and `requestId` `0`. -/
theorem poll_cycle_witness :
    (lightNodeThreadRoutineCycle sampleExternal sampleWorldConnected).calls.map
        (fun c => (c.request, c.rid)) =
      [(.getBlockNumber, 1), (.getNonce "0xabc", 2), (.getTransactions "0xabc", 3),
       (.getLogs none "0xabc" "0xddf252ad", 4), (.getBalance 0 "0xabc", 5)] := by
  rw [(poll_cycle sampleExternal sampleWorldConnected rfl (Or.inl rfl)).1]
  decide

/-! ## The state of the node across the operations -/

theorem removeListener_state (W : World) (lid : Int) :
    (lightNodeRemoveListener W lid).2.node.state = W.node.state := by
  unfold lightNodeRemoveListener; split <;> rfl

theorem getWalletHoldingToken_state (W : World) (token : BREthereumToken) :
    (lightNodeGetWalletHoldingToken W token).2.node.state = W.node.state := by
  unfold lightNodeGetWalletHoldingToken; simp only []; split <;> rfl

theorem submitTransaction_state (x : External) (W : World) (wallet transaction : Nat) :
    (lightNodeWalletSubmitTransaction x W wallet transaction).node.state = W.node.state := by
  unfold lightNodeWalletSubmitTransaction; split <;> rfl

theorem updateBlockHeight_state (W : World) (h : Nat) :
    (lightNodeUpdateBlockHeight W h).node.state = W.node.state := by
  unfold lightNodeUpdateBlockHeight; split <;> rfl

theorem deleteTransaction_state (W V : World) (t : BREthereumTransaction)
    (h : lightNodeDeleteTransaction W t = some V) : V.node.state = W.node.state := by
  unfold lightNodeDeleteTransaction at h
  simp only [deleteTransactionLoop_node] at h
  split at h
  · injection h with h; subst h; rfl
  · exact absurd h (by simp)

theorem updateBlockNumber_state (W : World) :
    (lightNodeUpdateBlockNumber W).node.state = W.node.state := by
  unfold lightNodeUpdateBlockNumber; repeat' split
  all_goals rfl

theorem updateNonce_state (W : World) :
    (lightNodeUpdateNonce W).node.state = W.node.state := by
  unfold lightNodeUpdateNonce; repeat' split
  all_goals rfl

theorem updateTransactions_state (W : World) :
    (lightNodeUpdateTransactions W).node.state = W.node.state := by
  unfold lightNodeUpdateTransactions; repeat' split
  all_goals rfl

theorem updateLogs_state (x : External) (W : World) (wid : Int) (event : Nat) :
    (lightNodeUpdateLogs x W wid event).node.state = W.node.state := by
  unfold lightNodeUpdateLogs; repeat' split
  all_goals rfl

theorem updateWalletBalance_state (W : World) (wid : Int) :
    (lightNodeUpdateWalletBalance W wid).node.state = W.node.state := by
  unfold lightNodeUpdateWalletBalance; repeat' split
  all_goals rfl

theorem updateTransactionGasEstimate_state (x : External) (W : World) (wid tid : Int) :
    (lightNodeUpdateTransactionGasEstimate x W wid tid).node.state = W.node.state := by
  unfold lightNodeUpdateTransactionGasEstimate; repeat' split
  all_goals rfl

theorem updateWalletDefaultGasPrice_state (W : World) (wid : Int) :
    (lightNodeUpdateWalletDefaultGasPrice W wid).node.state = W.node.state := by
  unfold lightNodeUpdateWalletDefaultGasPrice; repeat' split
  all_goals rfl

theorem threadRoutineBalances_state :
    ∀ (n i : Nat) (W : World),
      (lightNodeThreadRoutineBalances n i W).node.state = W.node.state := by
  intro n
  induction n with
  | zero => intro i W; rfl
  | succ n ih =>
    intro i W
    simp only [lightNodeThreadRoutineBalances]
    rw [ih, updateWalletBalance_state]

theorem threadRoutineCycle_state (x : External) (W : World) :
    (lightNodeThreadRoutineCycle x W).node.state = W.node.state := by
  unfold lightNodeThreadRoutineCycle
  simp only []
  rw [threadRoutineBalances_state, updateLogs_state, updateTransactions_state,
    updateNonce_state, updateBlockNumber_state]

theorem connect_state (W : World) (client : BREthereumClient) (t : ThreadSetup) :
    (lightNodeConnect W client t).world.node.state =
      stateAfter W.node.state (lightNodeConnect W client t).stateWrites := by
  obtain ⟨a, b, c, d⟩ := t
  unfold lightNodeConnect
  cases hst : W.node.state <;> cases a <;> cases b <;> cases c <;> cases d <;>
    simp [hst, stateAfter]

/-- The state of the node after an operation is the last value the operation
assigned to it, and the state before when the operation assigned none. -/
theorem perform_state (x : External) (W V : World) (op : NodeOp)
    (h : perform x W op = some V) :
    V.node.state = stateAfter W.node.state (stateWrites W op) := by
  cases op with
  | deleteTransaction t => exact deleteTransaction_state W V t h
  | workerStart =>
    simp only [perform] at h
    split at h
    · injection h with h; subst h; rfl
    · exact absurd h (by simp)
  | workerCycle =>
    simp only [perform] at h
    split at h
    · injection h with h; subst h; exact threadRoutineCycle_state x W
    · exact absurd h (by simp)
  | workerExit =>
    simp only [perform] at h
    split at h
    · injection h with h; subst h; rfl
    · exact absurd h (by simp)
  | connect client t =>
    simp only [perform] at h
    injection h with h; subst h
    exact connect_state W client t
  | removeListener lid =>
    injection h with h; subst h; exact removeListener_state W lid
  | getWalletHoldingToken token =>
    injection h with h; subst h; exact getWalletHoldingToken_state W token
  | walletSubmitTransaction w t =>
    injection h with h; subst h; exact submitTransaction_state x W w t
  | updateBlockHeight b =>
    injection h with h; subst h; exact updateBlockHeight_state W b
  | updateBlockNumber => injection h with h; subst h; exact updateBlockNumber_state W
  | updateNonce => injection h with h; subst h; exact updateNonce_state W
  | updateTransactions => injection h with h; subst h; exact updateTransactions_state W
  | updateLogs wid event => injection h with h; subst h; exact updateLogs_state x W wid event
  | updateWalletBalance wid =>
    injection h with h; subst h; exact updateWalletBalance_state W wid
  | updateTransactionGasEstimate wid tid =>
    injection h with h; subst h; exact updateTransactionGasEstimate_state x W wid tid
  | updateWalletDefaultGasPrice wid =>
    injection h with h; subst h; exact updateWalletDefaultGasPrice_state W wid
  | _ => injection h with h; subst h; rfl

/-! ## C6: the lifecycle -/

theorem connect_changes (W : World) (client : BREthereumClient) (t : ThreadSetup) :
    ∀ p ∈ stateChanges W.node.state (lightNodeConnect W client t).stateWrites,
      diagramTransition p.1 p.2 = true ∨
      ((t.attrInit = false ∨ t.attrSetDetachState = false ∨ t.attrSetStackSize = false) ∧
        p.2 = .LIGHT_NODE_ERRORED) := by
  obtain ⟨a, b, c, d⟩ := t
  unfold lightNodeConnect
  cases hst : W.node.state <;> cases a <;> cases b <;> cases c <;> cases d <;>
    simp [hst, stateChanges, diagramTransition]

/-- C6 (amended). State machine legality: in the step relation generated by the
operations on a node (`lightNodeConnect`, `lightNodeDisconnect`, the worker's
start, cycle and exit, and every other operation), the state after a step is the
last state the step assigned, and every change of node state made by a step
other than a worker start on a node that is no longer Connecting is one of the
diagram's transitions (Created->Connecting, Connecting->Connected,
Connecting->Errored, Connected->Disconnecting, Disconnecting->Disconnected,
Disconnected->Connecting, Errored->Connecting), or a change to Disconnecting
made by `lightNodeDisconnect`, or a change to Errored made by `lightNodeConnect`
when the setup of the thread attributes fails. -/
theorem state_machine_legality (x : External) (W V : World) (op : NodeOp)
    (h : perform x W op = some V)
    (hstart : op = .workerStart → W.node.state = .LIGHT_NODE_CONNECTING) :
    V.node.state = stateAfter W.node.state (stateWrites W op) ∧
    ∀ p ∈ stateChanges W.node.state (stateWrites W op),
      diagramTransition p.1 p.2 = true ∨
      (op = .disconnect ∧ p.2 = .LIGHT_NODE_DISCONNECTING) ∨
      (∃ client t, op = .connect client t ∧
        (t.attrInit = false ∨ t.attrSetDetachState = false ∨ t.attrSetStackSize = false) ∧
        p.2 = .LIGHT_NODE_ERRORED) := by
  refine ⟨perform_state x W V op h, ?_⟩
  intro p hp
  cases op with
  | connect client t =>
    rcases connect_changes W client t p hp with h1 | ⟨h1, h2⟩
    · exact Or.inl h1
    · exact Or.inr (Or.inr ⟨client, t, rfl, h1, h2⟩)
  | disconnect =>
    simp only [stateWrites, stateChanges] at hp
    split at hp
    · exact absurd hp (by simp)
    · simp only [stateChanges, List.mem_singleton] at hp
      subst hp
      exact Or.inr (Or.inl ⟨rfl, rfl⟩)
  | workerStart =>
    have hs := hstart rfl
    simp [stateWrites, stateChanges, hs] at hp
    subst hp
    exact Or.inl rfl
  | workerExit =>
    simp only [perform] at h
    split at h
    · rename_i hg
      simp [stateWrites, stateChanges, hg.2] at hp
      subst hp
      exact Or.inl rfl
    · exact absurd h (by simp)
  | _ => simp [stateWrites, stateChanges] at hp

/-- C6 (amended) at a concrete node: the start of the worker of the sample node
after a successful connect. -/
theorem state_machine_legality_witness :
    (lightNodeThreadRoutineStart
      (lightNodeConnect sampleWorld sampleClient ⟨true, true, true, true⟩).world).node.state =
      .LIGHT_NODE_CONNECTED ∧
    diagramTransition .LIGHT_NODE_CONNECTING .LIGHT_NODE_CONNECTED = true := by
  have h := state_machine_legality sampleExternal
    (lightNodeConnect sampleWorld sampleClient ⟨true, true, true, true⟩).world
    (lightNodeThreadRoutineStart
      (lightNodeConnect sampleWorld sampleClient ⟨true, true, true, true⟩).world)
    .workerStart rfl (fun _ => rfl)
  refine ⟨h.1, ?_⟩
  rcases h.2 (.LIGHT_NODE_CONNECTING, .LIGHT_NODE_CONNECTED) (by decide) with
    h2 | ⟨h2, _⟩ | ⟨_, _, h2, _⟩
  · exact h2
  · exact NodeOp.noConfusion h2
  · exact NodeOp.noConfusion h2

/-- C6 as stated fails. `lightNodeDisconnect` on the freshly created sample node
changes the state from Created to Disconnecting, and `lightNodeConnect` on it
with a failing `pthread_attr_init` changes the state from Created to Errored;
neither is a transition of the diagram. After a connect followed at once by a
disconnect, the start of the worker changes the state from Disconnecting to
Connected, which is not a transition of the diagram either. -/
theorem state_machine_legality_counterexample :
    sampleWorld.node.state = .LIGHT_NODE_CREATED ∧
    (lightNodeDisconnect sampleWorld).2.node.state = .LIGHT_NODE_DISCONNECTING ∧
    diagramTransition .LIGHT_NODE_CREATED .LIGHT_NODE_DISCONNECTING = false ∧
    (lightNodeConnect sampleWorld sampleClient ⟨false, true, true, true⟩).world.node.state =
      .LIGHT_NODE_ERRORED ∧
    diagramTransition .LIGHT_NODE_CREATED .LIGHT_NODE_ERRORED = false ∧
    (performAll sampleExternal sampleWorld
      [.connect sampleClient ⟨true, true, true, true⟩, .disconnect]).map
        (fun V => V.node.state) = some .LIGHT_NODE_DISCONNECTING ∧
    (performAll sampleExternal sampleWorld
      [.connect sampleClient ⟨true, true, true, true⟩, .disconnect, .workerStart]).map
        (fun V => V.node.state) = some .LIGHT_NODE_CONNECTED ∧
    diagramTransition .LIGHT_NODE_DISCONNECTING .LIGHT_NODE_CONNECTED = false := by
  decide

/-! ## C8: request ids -/

theorem issued_quiet {W V : World} (h1 : V.calls = W.calls)
    (h2 : V.node.requestId = W.node.requestId) : Issued W V :=
  ⟨[], by rw [h1, List.append_nil], by rw [h2]; rfl, rfl⟩

theorem issued_refl (W : World) : Issued W W := issued_quiet rfl rfl

theorem issued_clientInvoke (W : World) (func : Nat) (request : ClientRequest) :
    Issued W (clientInvoke W func request) :=
  ⟨[{ func := func, context := W.node.client.funcContext, request := request,
      rid := (W.node.requestId + 1) % requestIdModulus }], rfl,
    Nat.mod_mod _ _, rfl⟩

theorem add_mod_congr {a b : Nat} (c : Nat)
    (h : a % requestIdModulus = b % requestIdModulus) :
    (a + c) % requestIdModulus = (b + c) % requestIdModulus := by
  rw [Nat.add_mod, h, ← Nat.add_mod]

theorem issued_trans {W V U : World} (h1 : Issued W V) (h2 : Issued V U) : Issued W U := by
  obtain ⟨cs, hc1, hr1, hm1⟩ := h1
  obtain ⟨ds, hc2, hr2, hm2⟩ := h2
  refine ⟨cs ++ ds, ?_, ?_, ?_⟩
  · rw [hc2, hc1, List.append_assoc]
  · rw [hr2, List.length_append, ← Nat.add_assoc]
    exact add_mod_congr _ hr1
  · rw [List.map_append, hm1, hm2, List.length_append, List.range_add, List.map_append,
      List.map_map]
    congr 1
    apply List.map_congr_left
    intro i _
    simp only [Function.comp]
    rw [add_mod_congr (i + 1) hr1]
    congr 1
    omega

theorem removeListener_issued (W : World) (lid : Int) :
    Issued W (lightNodeRemoveListener W lid).2 := by
  unfold lightNodeRemoveListener; split <;> exact issued_quiet rfl rfl

theorem getWalletHoldingToken_issued (W : World) (token : BREthereumToken) :
    Issued W (lightNodeGetWalletHoldingToken W token).2 := by
  unfold lightNodeGetWalletHoldingToken; simp only []; split <;> exact issued_quiet rfl rfl

theorem connect_issued (W : World) (client : BREthereumClient) (t : ThreadSetup) :
    Issued W (lightNodeConnect W client t).world := by
  unfold lightNodeConnect
  repeat' split
  all_goals exact issued_quiet rfl rfl

theorem updateBlockHeight_issued (W : World) (h : Nat) :
    Issued W (lightNodeUpdateBlockHeight W h) := by
  unfold lightNodeUpdateBlockHeight; split <;> exact issued_quiet rfl rfl

theorem deleteTransactionLoop_calls (t : BREthereumTransaction) (tid : Int) :
    ∀ (ws : List Nat) (i : Nat) (W : World),
      (lightNodeDeleteTransactionLoop t tid ws i W).calls = W.calls := by
  intro ws
  induction ws with
  | nil => intro i W; rfl
  | cons w rest ih =>
    intro i W
    simp only [lightNodeDeleteTransactionLoop]
    split
    · rw [ih]; rfl
    · rw [ih]

theorem deleteTransaction_issued (W V : World) (t : BREthereumTransaction)
    (h : lightNodeDeleteTransaction W t = some V) : Issued W V := by
  unfold lightNodeDeleteTransaction at h
  simp only [deleteTransactionLoop_node] at h
  split at h
  · injection h with h
    subst h
    exact issued_quiet (deleteTransactionLoop_calls _ _ _ _ _) rfl
  · exact absurd h (by simp)

theorem submitTransaction_issued (x : External) (W : World) (wallet transaction : Nat) :
    Issued W (lightNodeWalletSubmitTransaction x W wallet transaction) := by
  unfold lightNodeWalletSubmitTransaction
  split
  · exact issued_clientInvoke _ _ _
  · exact issued_clientInvoke _ _ _
  · exact issued_refl W

theorem updateBlockNumber_issued (W : World) : Issued W (lightNodeUpdateBlockNumber W) := by
  unfold lightNodeUpdateBlockNumber
  repeat' split
  all_goals first
    | exact issued_refl W
    | exact issued_clientInvoke _ _ _

theorem updateNonce_issued (W : World) : Issued W (lightNodeUpdateNonce W) := by
  unfold lightNodeUpdateNonce
  repeat' split
  all_goals first
    | exact issued_refl W
    | exact issued_clientInvoke _ _ _

theorem updateTransactions_issued (W : World) : Issued W (lightNodeUpdateTransactions W) := by
  unfold lightNodeUpdateTransactions
  repeat' split
  all_goals first
    | exact issued_refl W
    | exact issued_clientInvoke _ _ _

theorem updateLogs_issued (x : External) (W : World) (wid : Int) (event : Nat) :
    Issued W (lightNodeUpdateLogs x W wid event) := by
  unfold lightNodeUpdateLogs
  repeat' split
  all_goals first
    | exact issued_refl W
    | exact issued_clientInvoke _ _ _

theorem updateWalletBalance_issued (W : World) (wid : Int) :
    Issued W (lightNodeUpdateWalletBalance W wid) := by
  unfold lightNodeUpdateWalletBalance
  repeat' split
  all_goals first
    | exact issued_refl W
    | exact issued_clientInvoke _ _ _

theorem updateTransactionGasEstimate_issued (x : External) (W : World) (wid tid : Int) :
    Issued W (lightNodeUpdateTransactionGasEstimate x W wid tid) := by
  unfold lightNodeUpdateTransactionGasEstimate
  repeat' split
  all_goals first
    | exact issued_refl W
    | exact issued_clientInvoke _ _ _

theorem updateWalletDefaultGasPrice_issued (W : World) (wid : Int) :
    Issued W (lightNodeUpdateWalletDefaultGasPrice W wid) := by
  unfold lightNodeUpdateWalletDefaultGasPrice
  repeat' split
  all_goals first
    | exact issued_refl W
    | exact issued_clientInvoke _ _ _

theorem threadRoutineBalances_issued :
    ∀ (n i : Nat) (W : World), Issued W (lightNodeThreadRoutineBalances n i W) := by
  intro n
  induction n with
  | zero => intro i W; exact issued_refl W
  | succ n ih =>
    intro i W
    simp only [lightNodeThreadRoutineBalances]
    exact issued_trans (updateWalletBalance_issued W _) (ih _ _)

theorem threadRoutineCycle_issued (x : External) (W : World) :
    Issued W (lightNodeThreadRoutineCycle x W) := by
  unfold lightNodeThreadRoutineCycle
  simp only []
  exact issued_trans (updateBlockNumber_issued W)
    (issued_trans (updateNonce_issued _)
      (issued_trans (updateTransactions_issued _)
        (issued_trans (updateLogs_issued x _ _ _) (threadRoutineBalances_issued _ _ _))))

/-- Every operation only adds callbacks that carry the successive values of the
counter. -/
theorem perform_issued (x : External) (W V : World) (op : NodeOp)
    (h : perform x W op = some V) : Issued W V := by
  cases op with
  | deleteTransaction t => exact deleteTransaction_issued W V t h
  | workerStart =>
    simp only [perform] at h
    split at h
    · injection h with h; subst h; exact issued_quiet rfl rfl
    · exact absurd h (by simp)
  | workerCycle =>
    simp only [perform] at h
    split at h
    · injection h with h; subst h; exact threadRoutineCycle_issued x W
    · exact absurd h (by simp)
  | workerExit =>
    simp only [perform] at h
    split at h
    · injection h with h; subst h; exact issued_quiet rfl rfl
    · exact absurd h (by simp)
  | connect client t => injection h with h; subst h; exact connect_issued W client t
  | removeListener lid => injection h with h; subst h; exact removeListener_issued W lid
  | getWalletHoldingToken token =>
    injection h with h; subst h; exact getWalletHoldingToken_issued W token
  | walletSubmitTransaction w t =>
    injection h with h; subst h; exact submitTransaction_issued x W w t
  | updateBlockHeight b => injection h with h; subst h; exact updateBlockHeight_issued W b
  | updateBlockNumber => injection h with h; subst h; exact updateBlockNumber_issued W
  | updateNonce => injection h with h; subst h; exact updateNonce_issued W
  | updateTransactions => injection h with h; subst h; exact updateTransactions_issued W
  | updateLogs wid event => injection h with h; subst h; exact updateLogs_issued x W wid event
  | updateWalletBalance wid =>
    injection h with h; subst h; exact updateWalletBalance_issued W wid
  | updateTransactionGasEstimate wid tid =>
    injection h with h; subst h; exact updateTransactionGasEstimate_issued x W wid tid
  | updateWalletDefaultGasPrice wid =>
    injection h with h; subst h; exact updateWalletDefaultGasPrice_issued W wid
  | _ => injection h with h; subst h; exact issued_quiet rfl rfl

theorem performAll_issued (x : External) :
    ∀ (ops : List NodeOp) (W V : World), performAll x W ops = some V → Issued W V := by
  intro ops
  induction ops with
  | nil =>
    intro W V h
    simp only [performAll] at h
    injection h with h
    subst h
    exact issued_refl W
  | cons op ops ih =>
    intro W V h
    simp only [performAll] at h
    cases hp : perform x W op with
    | none => rw [hp] at h; exact absurd h (by simp)
    | some W1 =>
      rw [hp] at h
      exact issued_trans (perform_issued x W W1 op hp) (ih W1 V h)

/-- C8 (amended). RequestId monotonicity: for every node, from its creation by
`createLightNode` on, and every sequence of node operations in which fewer than
`2 ^ 64` client callbacks are invoked, the `k`-th callback invocation carries the
`requestId` `k`, so each invocation carries a `requestId` strictly greater than
the `requestId` of every earlier invocation on that node, and the request ids
are unique. -/
theorem requestId_monotonic (x : External) (fixedLightNodeType : BREthereumType)
    (network : Nat) (account : BREthereumAccount) (ops : List NodeOp) (V : World)
    (h : performAll x (createLightNode fixedLightNodeType network account) ops = some V)
    (hlt : V.calls.length < requestIdModulus) :
    V.calls.map (fun c => c.rid) = List.range' 1 V.calls.length ∧
    List.Pairwise (fun a b => a.rid < b.rid) V.calls ∧
    (V.calls.map (fun c => c.rid)).Nodup := by
  obtain ⟨cs, hc, _, hm⟩ := performAll_issued x ops _ V h
  have hcs : V.calls = cs := by rw [hc]; rfl
  rw [hcs] at hlt ⊢
  have hr : (createLightNode fixedLightNodeType network account).node.requestId = 0 := rfl
  have hmap : cs.map (fun c => c.rid) = List.range' 1 cs.length := by
    rw [hm, hr, List.range'_eq_map_range]
    apply List.map_congr_left
    intro i hi
    have hi2 : i < cs.length := List.mem_range.mp hi
    rw [Nat.zero_add, Nat.mod_eq_of_lt (by omega), Nat.add_comm]
  have hpair : List.Pairwise (fun a b : Nat => a < b) (cs.map (fun c => c.rid)) := by
    rw [hmap]; exact List.pairwise_lt_range' 1 cs.length
  refine ⟨hmap, List.pairwise_map.mp hpair, ?_⟩
  exact hpair.imp (fun hab => Nat.ne_of_lt hab)

/-- C8 (amended) at a concrete node: the sample node is connected, its worker
starts and runs one cycle, and the balance of its wallet is asked for once
more. -/
theorem requestId_monotonic_witness :
    ∃ V, performAll sampleExternal sampleWorld
        [.connect sampleClient ⟨true, true, true, true⟩, .workerStart, .workerCycle,
         .updateWalletBalance 0] = some V ∧
      V.calls.map (fun c => c.rid) = [1, 2, 3, 4, 5, 6] ∧
      List.Pairwise (fun a b => a.rid < b.rid) V.calls :=
  ⟨(performAll sampleExternal sampleWorld
      [.connect sampleClient ⟨true, true, true, true⟩, .workerStart, .workerCycle,
       .updateWalletBalance 0]).getD sampleWorld, rfl, by decide,
    (requestId_monotonic sampleExternal .NODE_TYPE_JSON_RPC 1 { primaryAddress := "0xabc" }
      [.connect sampleClient ⟨true, true, true, true⟩, .workerStart, .workerCycle,
       .updateWalletBalance 0] _ rfl (by decide)).2.1⟩

theorem replicate_updateBlockNumber (x : External) :
    ∀ (k : Nat) (W : World), W.node.state = .LIGHT_NODE_CONNECTED →
      W.node.type = .NODE_TYPE_JSON_RPC →
      ∃ V, performAll x W (List.replicate k .updateBlockNumber) = some V ∧
        V.calls.map (fun c => c.rid) =
          W.calls.map (fun c => c.rid) ++
            (List.range k).map (fun i => (W.node.requestId + (i + 1)) % requestIdModulus) := by
  intro k
  induction k with
  | zero =>
    intro W _ _
    exact ⟨W, rfl, by simp⟩
  | succ k ih =>
    intro W hs ht
    have hstep : perform x W .updateBlockNumber =
        some (clientInvoke W W.node.client.funcGetBlockNumber .getBlockNumber) := by
      simp only [perform, updateBlockNumber_connected W hs (Or.inl ht)]
    obtain ⟨V, hV, hcalls⟩ :=
      ih (clientInvoke W W.node.client.funcGetBlockNumber .getBlockNumber) hs ht
    refine ⟨V, ?_, ?_⟩
    · simp only [List.replicate_succ, performAll, hstep]
      exact hV
    · rw [hcalls, List.range_succ_eq_map]
      simp only [clientInvoke, List.map_append, List.map_cons, List.map_nil, List.map_map,
        List.append_assoc, List.singleton_append, Nat.zero_add]
      congr 2
      apply List.map_congr_left
      intro i _
      simp only [Function.comp, Nat.succ_eq_add_one]
      rw [Nat.mod_add_mod]
      congr 1
      omega

/-- C8 as stated fails. The sample node is connected, its worker starts, and
`lightNodeUpdateBlockNumber` is called `2 ^ 64` times: the first callback
carries the `requestId` `1` and the last one the `requestId` `0`, so the request
ids are not strictly increasing. -/
theorem requestId_monotonic_counterexample :
    ∃ V, performAll sampleExternal sampleWorld
        ([.connect sampleClient ⟨true, true, true, true⟩, .workerStart] ++
          List.replicate requestIdModulus .updateBlockNumber) = some V ∧
      ¬ List.Pairwise (fun a b => a.rid < b.rid) V.calls := by
  obtain ⟨V, hV, hcalls⟩ :=
    replicate_updateBlockNumber sampleExternal requestIdModulus sampleWorldConnected rfl rfl
  have hpre : ∀ rest : List NodeOp,
      performAll sampleExternal sampleWorld
        ([.connect sampleClient ⟨true, true, true, true⟩, .workerStart] ++ rest) =
      performAll sampleExternal sampleWorldConnected rest := fun _ => rfl
  refine ⟨V, ?_, ?_⟩
  · rw [hpre]; exact hV
  intro hp
  have hp2 : List.Pairwise (fun a b : Nat => a < b) (V.calls.map (fun c => c.rid)) :=
    List.pairwise_map.mpr hp
  have h0 : sampleWorldConnected.calls.map (fun c => c.rid) = [] := rfl
  have hr : sampleWorldConnected.node.requestId = 0 := rfl
  rw [hcalls, h0, hr, List.nil_append] at hp2
  have hM : 1 < requestIdModulus := by decide
  have hlen : ((List.range requestIdModulus).map
      (fun i => (0 + (i + 1)) % requestIdModulus)).length = requestIdModulus := by
    rw [List.length_map, List.length_range]
  have hlt := List.pairwise_iff_getElem.mp hp2 0 (requestIdModulus - 1)
    (by rw [hlen]; omega) (by rw [hlen]; omega) (by omega)
  simp only [List.getElem_map, List.getElem_range, Nat.zero_add] at hlt
  have e1 : requestIdModulus - 1 + 1 = requestIdModulus := by omega
  rw [e1, Nat.mod_self] at hlt
  exact Nat.not_lt_zero _ hlt

/-! ## C16: listeners -/

/-- C16. Listener ids are slot indices that never shift: for every node,
`lightNodeAddListener` returns the number of listener slots, which is the number
of listeners added before it, removed ones included, and appends the listener;
`lightNodeRemoveListener (lid)` returns true exactly when `0 <= lid` and `lid`
is below the listener count, in which case it zeroes slot `lid`, so that
`lightNodeHasListener (lid)` is false afterwards, while the listener count,
every other slot, hence `lightNodeHasListener` of every other id, and
everything else are unchanged; for an out-of-range `lid` it returns false and
changes nothing. -/
theorem listener_ids (W : World) :
    (∀ c w b t,
      (lightNodeAddListener W c w b t).1 = (W.node.listeners.length : Int) ∧
      (lightNodeAddListener W c w b t).2 =
        { W with node := { W.node with
            listeners := W.node.listeners ++
              [{ context := c, walletEventHandler := w, blockEventHandler := b,
                 transactionEventHandler := t }] } }) ∧
    (∀ lid : Int, (lightNodeRemoveListener W lid).1 = true ↔
      (0 ≤ lid ∧ lid < (W.node.listeners.length : Int))) ∧
    (∀ lid : Int, 0 ≤ lid → lid < (W.node.listeners.length : Int) →
      (lightNodeRemoveListener W lid).2 =
        { W with node := { W.node with
            listeners := W.node.listeners.set lid.toNat zeroListener } } ∧
      lightNodeHasListener (lightNodeRemoveListener W lid).2.node lid = false ∧
      (lightNodeRemoveListener W lid).2.node.listeners.length = W.node.listeners.length ∧
      (∀ i : Nat, i ≠ lid.toNat →
        (lightNodeRemoveListener W lid).2.node.listeners[i]? = W.node.listeners[i]?) ∧
      (∀ other : Int, other ≠ lid →
        lightNodeHasListener (lightNodeRemoveListener W lid).2.node other =
          lightNodeHasListener W.node other)) ∧
    (∀ lid : Int, ¬ (0 ≤ lid ∧ lid < (W.node.listeners.length : Int)) →
      lightNodeRemoveListener W lid = (false, W)) := by
  refine ⟨?_, ?_, ?_, ?_⟩
  · intro c w b t
    refine ⟨?_, rfl⟩
    simp [lightNodeAddListener]
  · intro lid
    unfold lightNodeRemoveListener
    split
    · rename_i h; simp [h]
    · rename_i h; simp [h]
  · intro lid h0 h1
    have hV : (lightNodeRemoveListener W lid).2 =
        { W with node := { W.node with
            listeners := W.node.listeners.set lid.toNat zeroListener } } := by
      simp only [lightNodeRemoveListener, h0, h1, and_self, if_true]
      rfl
    have hn : lid.toNat < W.node.listeners.length := by omega
    refine ⟨hV, ?_, ?_, ?_, ?_⟩
    · rw [hV]
      have h1b : lid < ((W.node.listeners.set lid.toNat zeroListener).length : Int) := by
        rw [List.length_set]; exact h1
      simp only [lightNodeHasListener, h0, h1b, and_self, if_true,
        List.getElem?_set_self hn]
      rfl
    · rw [hV]; exact List.length_set _ _ _
    · intro i hi
      rw [hV]
      exact List.getElem?_set_ne (Ne.symm hi)
    · intro other hne
      rw [hV]
      unfold lightNodeHasListener
      simp only [List.length_set]
      by_cases hr : 0 ≤ other ∧ other < (W.node.listeners.length : Int)
      · have hne2 : lid.toNat ≠ other.toNat := by omega
        simp only [hr, and_self, if_true, List.getElem?_set_ne hne2]
      · simp only [hr, if_false]
  · intro lid h
    simp only [lightNodeRemoveListener, h, if_false]

/-- C16 at a concrete node: two listeners are added to the sample node and the
first one is removed. -/
theorem listener_ids_witness :
    (lightNodeAddListener (lightNodeAddListener sampleWorld 1 2 0 0).2 3 0 4 0).1 = 1 ∧
    (lightNodeRemoveListener
      (lightNodeAddListener (lightNodeAddListener sampleWorld 1 2 0 0).2 3 0 4 0).2 0).1 =
      true ∧
    lightNodeHasListener (lightNodeRemoveListener
      (lightNodeAddListener (lightNodeAddListener sampleWorld 1 2 0 0).2 3 0 4 0).2 0).2.node 0 =
      false ∧
    lightNodeHasListener (lightNodeRemoveListener
      (lightNodeAddListener (lightNodeAddListener sampleWorld 1 2 0 0).2 3 0 4 0).2 0).2.node 1 =
      true :=
  have h := listener_ids
    (lightNodeAddListener (lightNodeAddListener sampleWorld 1 2 0 0).2 3 0 4 0).2
  ⟨(listener_ids (lightNodeAddListener sampleWorld 1 2 0 0).2).1 3 0 4 0 |>.1,
   (h.2.1 0).mpr (by decide),
   (h.2.2.1 0 (by decide) (by decide)).2.1,
   ((h.2.2.1 0 (by decide) (by decide)).2.2.2.2 1 (by decide)).trans (by decide)⟩

/-! ## C15: the amount handed to the gas estimate -/

/-- C15. Canonical amount hex: in `lightNodeUpdateTransactionGasEstimate` on a
connected node of type JsonRpc or Les, for a transaction in the table, with `s`
the base-16 string that `coerceString` renders for its amount in WEI, exactly
one `estimateGas` callback is invoked; the amount passed is `"0x"` followed by
`s` with its first character removed if and only if that character is `'0'` (at
most one character is removed), and the data passed is `"0x"` followed by the
transaction data unchanged. In particular `s = "01"` (1 wei) yields `"0x1"` and
`s = "00"` (zero) yields `"0x0"`; these are the byte-wise renderings of 1 and
0. -/
theorem canonical_amount_hex (x : External) (W : World) (wid tid : Int) (t : Nat)
    (hs : W.node.state = .LIGHT_NODE_CONNECTED)
    (ht : W.node.type = .NODE_TYPE_JSON_RPC ∨ W.node.type = .NODE_TYPE_LES)
    (hl : lightNodeLookupTransaction W.node tid = some t) :
    lightNodeUpdateTransactionGasEstimate x W wid tid =
      clientInvoke W W.node.client.funcEstimateGas
        (.estimateGas wid tid (W.transactionObjects t).effectiveAddress
          (canonicalAmount (x.coerceString16 (W.transactionObjects t).effectiveAmountInWEI))
          ("0x" ++ (W.transactionObjects t).data)) ∧
    (∀ s : String, ∀ rest : List Char, s.data = '0' :: rest →
      canonicalAmount s = "0x" ++ String.mk rest) ∧
    (∀ s : String, s.data.head? ≠ some '0' → canonicalAmount s = "0x" ++ s) ∧
    canonicalAmount "01" = "0x1" ∧
    canonicalAmount "00" = "0x0" ∧
    byteWiseHex 1 = "01" ∧
    byteWiseHex 0 = "00" := by
  refine ⟨?_, ?_, ?_, by decide, by decide, by decide, by decide⟩
  · unfold lightNodeUpdateTransactionGasEstimate
    rw [hl]
    rcases ht with ht | ht <;> simp [hs, ht, canonicalData]
  · intro s rest h
    simp only [canonicalAmount, h]
  · intro s h
    unfold canonicalAmount
    split
    · rename_i rest heq
      rw [heq] at h
      exact absurd rfl h
    · rfl

/-- C15 at a concrete node: the connected sample node with a transaction of 1
wei, when `coerceString` is the byte-wise rendering. -/
theorem canonical_amount_hex_witness :
    (lightNodeUpdateTransactionGasEstimate
        { sampleExternal with coerceString16 := byteWiseHex }
        (lightNodeWalletCreateTransaction sampleExternal sampleWorldConnected 0 "0xdef"
          (.ether 1)).2 0 0).calls.map (fun c => c.request) =
      [.estimateGas 0 0 "0xdef" "0x1" "0x"] := by
  rw [(canonical_amount_hex { sampleExternal with coerceString16 := byteWiseHex }
    (lightNodeWalletCreateTransaction sampleExternal sampleWorldConnected 0 "0xdef"
      (.ether 1)).2 0 0 0 rfl (Or.inl rfl) (by decide)).1]
  decide

/-! ## Scans of a registry -/

theorem scanFrom_mem {α : Type} [DecidableEq α] (a : α) :
    ∀ (l : List α) (i : Nat), a ∈ l →
      ∃ k : Nat, scanFrom (fun y => decide (a = y)) l i = ((i + k : Nat) : Int) ∧
        l[k]? = some a := by
  intro l
  induction l with
  | nil => intro i h; exact absurd h (List.not_mem_nil _)
  | cons y ys ih =>
    intro i h
    by_cases hy : a = y
    · exact ⟨0, by simp [scanFrom, hy], by simp [hy]⟩
    · have hmem : a ∈ ys := by
        rcases List.mem_cons.mp h with h1 | h1
        · exact absurd h1 hy
        · exact h1
      obtain ⟨k, hk, hget⟩ := ih (i + 1) hmem
      refine ⟨k + 1, ?_, by simpa using hget⟩
      simp only [scanFrom, hy, decide_False, Bool.false_eq_true, if_false, hk]
      congr 1
      omega

/-! ## The transaction table across the operations -/

theorem lookupTransactionId_mem (n : BREthereumLightNodeRecord) (t : BREthereumTransaction)
    (h : t ∈ n.transactions) :
    0 ≤ lightNodeLookupTransactionId n t ∧
    lightNodeLookupTransactionId n t ≠ -1 ∧
    n.transactions[(lightNodeLookupTransactionId n t).toNat]? = some t := by
  obtain ⟨k, hk, hget⟩ := scanFrom_mem t n.transactions 0 h
  unfold lightNodeLookupTransactionId
  rw [hk]
  refine ⟨Int.ofNat_nonneg _, ?_, ?_⟩
  · intro hneg
    have hnn : (0 : Int) ≤ ((0 + k : Nat) : Int) := Int.ofNat_nonneg _
    rw [hneg] at hnn
    exact absurd hnn (by decide)
  · simpa using hget

/-- C14 (amended). Terminated transaction list: for every node and wallet
carrying `k` transactions, `lightNodeWalletGetTransactions` returns an array of `k + 1` ids
whose last entry is `-1` and whose entry `i < k` is the node-table id of the
wallet's `i`-th transaction (the id that `lightNodeLookupTransactionId` finds
for it); when every transaction that the wallet carries is in the node's table,
each of these ids is a slot of the table that holds the wallet's `i`-th
transaction, so that reading the array up to the first `-1` yields exactly `k`
ids, one per wallet transaction in wallet order. -/
theorem terminated_transaction_list (W : World) (wallet : Nat) :
    (lightNodeWalletGetTransactions W wallet).length = walletGetTransactionCount W wallet + 1 ∧
    (lightNodeWalletGetTransactions W wallet).getLast? = some (-1) ∧
    (∀ i, i < walletGetTransactionCount W wallet →
      (lightNodeWalletGetTransactions W wallet)[i]? =
        some (lightNodeLookupTransactionId W.node (walletGetTransactionByIndex W wallet i))) ∧
    ((∀ t ∈ (W.walletObjects wallet).transactions, t ∈ W.node.transactions) →
      (∀ i, i < walletGetTransactionCount W wallet →
        ∃ tid : Int, (lightNodeWalletGetTransactions W wallet)[i]? = some tid ∧ 0 ≤ tid ∧
          W.node.transactions[tid.toNat]? = some (walletGetTransactionByIndex W wallet i)) ∧
      ((lightNodeWalletGetTransactions W wallet).takeWhile (fun tid => tid != -1)).length =
        walletGetTransactionCount W wallet ∧
      (lightNodeWalletGetTransactions W wallet).takeWhile (fun tid => tid != -1) =
        (W.walletObjects wallet).transactions.map (lightNodeLookupTransactionId W.node)) := by
  have hmap : (List.range (walletGetTransactionCount W wallet)).map
      (fun index => lightNodeLookupTransactionId W.node
        (walletGetTransactionByIndex W wallet index)) =
      (W.walletObjects wallet).transactions.map (lightNodeLookupTransactionId W.node) := by
    apply List.ext_getElem?
    intro i
    simp only [walletGetTransactionCount, walletGetTransactionByIndex, List.getElem?_map,
      List.getElem?_range]
    by_cases hi : i < (W.walletObjects wallet).transactions.length
    · simp [List.getElem?_range hi, List.getElem?_eq_getElem hi]
    · have hi2 : (W.walletObjects wallet).transactions.length ≤ i := by omega
      simp [List.getElem?_eq_none hi2, List.getElem?_eq_none
        (show (List.range (W.walletObjects wallet).transactions.length).length ≤ i by
          simpa using hi2)]
  have hget : ∀ i, i < walletGetTransactionCount W wallet →
      (lightNodeWalletGetTransactions W wallet)[i]? =
        some (lightNodeLookupTransactionId W.node (walletGetTransactionByIndex W wallet i)) := by
    intro i hi
    unfold lightNodeWalletGetTransactions
    rw [List.getElem?_append_left (by simpa using hi)]
    simp [List.getElem?_range hi]
  refine ⟨?_, ?_, hget, ?_⟩
  · simp [lightNodeWalletGetTransactions]
  · simp [lightNodeWalletGetTransactions]
  · intro hall
    have hin : ∀ i, i < walletGetTransactionCount W wallet →
        walletGetTransactionByIndex W wallet i ∈ W.node.transactions := by
      intro i hi
      apply hall
      have hi2 : i < (W.walletObjects wallet).transactions.length := hi
      simp only [walletGetTransactionByIndex, List.getElem?_eq_getElem hi2, Option.join]
      exact List.getElem_mem _
    refine ⟨?_, ?_, ?_⟩
    · intro i hi
      have h := lookupTransactionId_mem W.node _ (hin i hi)
      exact ⟨_, hget i hi, h.1, h.2.2⟩
    · unfold lightNodeWalletGetTransactions
      rw [hmap, List.takeWhile_append_of_pos]
      · simp [walletGetTransactionCount]
      · intro tid htid
        obtain ⟨t, ht, rfl⟩ := List.mem_map.mp htid
        have h := lookupTransactionId_mem W.node t (hall t ht)
        simpa using h.2.1
    · unfold lightNodeWalletGetTransactions
      rw [hmap, List.takeWhile_append_of_pos]
      · simp
      · intro tid htid
        obtain ⟨t, ht, rfl⟩ := List.mem_map.mp htid
        have h := lookupTransactionId_mem W.node t (hall t ht)
        simpa using h.2.1

/-- C14 (amended) at a concrete node: the ether wallet of the sample node carries
its one
transaction, which has the id `0`. -/
theorem terminated_transaction_list_witness :
    lightNodeWalletGetTransactions sampleWorldWithTransaction 0 = [0, -1] ∧
    ((lightNodeWalletGetTransactions sampleWorldWithTransaction 0).takeWhile
      (fun tid => tid != -1)).length = 1 :=
  ⟨by decide,
   ((terminated_transaction_list sampleWorldWithTransaction 0).2.2.2 (by decide)).2.1⟩

/-- C14 as stated fails. A wallet of the account that is not in the registry of
the sample node creates a transaction, which gets the id `0`, and
`lightNodeDeleteTransaction` then nulls slot `0`; it asks only the wallets of the
registry, so the wallet still carries its one transaction.
`lightNodeWalletGetTransactions` returns two entries, both `-1`: reading up to
the first `-1` yields no id, not one. -/
theorem terminated_transaction_list_counterexample :
    lightNodeDeleteTransaction sampleWorldOutsideWallet (some 0) =
      some sampleWorldOutsideWalletDeleted ∧
    sampleWorldOutsideWalletDeleted.node.transactions = [none] ∧
    walletGetTransactionCount sampleWorldOutsideWalletDeleted 1 = 1 ∧
    walletGetTransactionByIndex sampleWorldOutsideWalletDeleted 1 0 = some 0 ∧
    lightNodeWalletGetTransactions sampleWorldOutsideWalletDeleted 1 = [-1, -1] ∧
    ((lightNodeWalletGetTransactions sampleWorldOutsideWalletDeleted 1).takeWhile
      (fun tid => tid != -1)).length = 0 :=
  ⟨rfl, by decide, by decide, by decide, by decide, by decide⟩

/-! ## The wallet registry across the operations -/

theorem walletFrame_refl (W : World) : WalletFrame W W := ⟨rfl, rfl, rfl⟩

theorem walletFrame_trans {W V U : World} (h1 : WalletFrame W V) (h2 : WalletFrame V U) :
    WalletFrame W U :=
  ⟨h2.1.trans h1.1, h2.2.1.trans h1.2.1, h2.2.2.trans h1.2.2⟩

theorem removeListener_walletFrame (W : World) (lid : Int) :
    WalletFrame W (lightNodeRemoveListener W lid).2 := by
  unfold lightNodeRemoveListener; split <;> exact ⟨rfl, rfl, rfl⟩

theorem connect_walletFrame (W : World) (client : BREthereumClient) (t : ThreadSetup) :
    WalletFrame W (lightNodeConnect W client t).world := by
  unfold lightNodeConnect
  repeat' split
  all_goals exact ⟨rfl, rfl, rfl⟩

theorem updateBlockHeight_walletFrame (W : World) (h : Nat) :
    WalletFrame W (lightNodeUpdateBlockHeight W h) := by
  unfold lightNodeUpdateBlockHeight; split <;> exact ⟨rfl, rfl, rfl⟩

theorem submitTransaction_walletFrame (x : External) (W : World) (wallet transaction : Nat) :
    WalletFrame W (lightNodeWalletSubmitTransaction x W wallet transaction) := by
  unfold lightNodeWalletSubmitTransaction; split <;> exact ⟨rfl, rfl, rfl⟩

theorem updateBlockNumber_walletFrame (W : World) :
    WalletFrame W (lightNodeUpdateBlockNumber W) := by
  unfold lightNodeUpdateBlockNumber; repeat' split
  all_goals exact ⟨rfl, rfl, rfl⟩

theorem updateNonce_walletFrame (W : World) : WalletFrame W (lightNodeUpdateNonce W) := by
  unfold lightNodeUpdateNonce; repeat' split
  all_goals exact ⟨rfl, rfl, rfl⟩

theorem updateTransactions_walletFrame (W : World) :
    WalletFrame W (lightNodeUpdateTransactions W) := by
  unfold lightNodeUpdateTransactions; repeat' split
  all_goals exact ⟨rfl, rfl, rfl⟩

theorem updateLogs_walletFrame (x : External) (W : World) (wid : Int) (event : Nat) :
    WalletFrame W (lightNodeUpdateLogs x W wid event) := by
  unfold lightNodeUpdateLogs; repeat' split
  all_goals exact ⟨rfl, rfl, rfl⟩

theorem updateWalletBalance_walletFrame (W : World) (wid : Int) :
    WalletFrame W (lightNodeUpdateWalletBalance W wid) := by
  unfold lightNodeUpdateWalletBalance; repeat' split
  all_goals exact ⟨rfl, rfl, rfl⟩

theorem updateTransactionGasEstimate_walletFrame (x : External) (W : World) (wid tid : Int) :
    WalletFrame W (lightNodeUpdateTransactionGasEstimate x W wid tid) := by
  unfold lightNodeUpdateTransactionGasEstimate; repeat' split
  all_goals exact ⟨rfl, rfl, rfl⟩

theorem updateWalletDefaultGasPrice_walletFrame (W : World) (wid : Int) :
    WalletFrame W (lightNodeUpdateWalletDefaultGasPrice W wid) := by
  unfold lightNodeUpdateWalletDefaultGasPrice; repeat' split
  all_goals exact ⟨rfl, rfl, rfl⟩

theorem threadRoutineBalances_walletFrame :
    ∀ (n i : Nat) (W : World), WalletFrame W (lightNodeThreadRoutineBalances n i W) := by
  intro n
  induction n with
  | zero => intro i W; exact walletFrame_refl W
  | succ n ih =>
    intro i W
    simp only [lightNodeThreadRoutineBalances]
    exact walletFrame_trans (updateWalletBalance_walletFrame W _) (ih _ _)

theorem threadRoutineCycle_walletFrame (x : External) (W : World) :
    WalletFrame W (lightNodeThreadRoutineCycle x W) := by
  unfold lightNodeThreadRoutineCycle
  simp only []
  exact walletFrame_trans (updateBlockNumber_walletFrame W)
    (walletFrame_trans (updateNonce_walletFrame _)
      (walletFrame_trans (updateTransactions_walletFrame _)
        (walletFrame_trans (updateLogs_walletFrame x _ _ _)
          (threadRoutineBalances_walletFrame _ _ _))))

theorem deleteTransactionLoop_nextWallet (t : BREthereumTransaction) (tid : Int) :
    ∀ (ws : List Nat) (i : Nat) (W : World),
      (lightNodeDeleteTransactionLoop t tid ws i W).nextWallet = W.nextWallet := by
  intro ws
  induction ws with
  | nil => intro i W; rfl
  | cons w rest ih =>
    intro i W
    simp only [lightNodeDeleteTransactionLoop]
    split
    · rw [ih]; rfl
    · rw [ih]

theorem deleteTransaction_walletFrame (W V : World) (t : BREthereumTransaction)
    (h : lightNodeDeleteTransaction W t = some V) : WalletFrame W V := by
  unfold lightNodeDeleteTransaction at h
  simp only [deleteTransactionLoop_node] at h
  split at h
  · injection h with h
    subst h
    exact ⟨rfl, rfl, deleteTransactionLoop_nextWallet _ _ _ _ _⟩
  · exact absurd h (by simp)

/-- Every operation other than `lightNodeInsertWallet` and
`lightNodeGetWalletHoldingToken` leaves the wallet registry, the ether wallet
and the wallet allocator as they are. -/
theorem perform_walletFrame (x : External) (W V : World) (op : NodeOp)
    (h : perform x W op = some V) (h1 : ∀ w, op ≠ .insertWallet w)
    (h2 : ∀ t, op ≠ .getWalletHoldingToken t) : WalletFrame W V := by
  cases op with
  | insertWallet w => exact absurd rfl (h1 w)
  | getWalletHoldingToken t => exact absurd rfl (h2 t)
  | deleteTransaction t => exact deleteTransaction_walletFrame W V t h
  | workerStart =>
    simp only [perform] at h
    split at h
    · injection h with h; subst h; exact ⟨rfl, rfl, rfl⟩
    · exact absurd h (by simp)
  | workerCycle =>
    simp only [perform] at h
    split at h
    · injection h with h; subst h; exact threadRoutineCycle_walletFrame x W
    · exact absurd h (by simp)
  | workerExit =>
    simp only [perform] at h
    split at h
    · injection h with h; subst h; exact ⟨rfl, rfl, rfl⟩
    · exact absurd h (by simp)
  | connect client t => injection h with h; subst h; exact connect_walletFrame W client t
  | removeListener lid => injection h with h; subst h; exact removeListener_walletFrame W lid
  | walletSubmitTransaction w t =>
    injection h with h; subst h; exact submitTransaction_walletFrame x W w t
  | updateBlockHeight b => injection h with h; subst h; exact updateBlockHeight_walletFrame W b
  | updateBlockNumber => injection h with h; subst h; exact updateBlockNumber_walletFrame W
  | updateNonce => injection h with h; subst h; exact updateNonce_walletFrame W
  | updateTransactions => injection h with h; subst h; exact updateTransactions_walletFrame W
  | updateLogs wid event =>
    injection h with h; subst h; exact updateLogs_walletFrame x W wid event
  | updateWalletBalance wid =>
    injection h with h; subst h; exact updateWalletBalance_walletFrame W wid
  | updateTransactionGasEstimate wid tid =>
    injection h with h; subst h; exact updateTransactionGasEstimate_walletFrame x W wid tid
  | updateWalletDefaultGasPrice wid =>
    injection h with h; subst h; exact updateWalletDefaultGasPrice_walletFrame W wid
  | _ => injection h with h; subst h; exact ⟨rfl, rfl, rfl⟩

theorem getWalletHoldingToken_found (W : World) (token : BREthereumToken)
    (h : scanFrom (fun w => decide (token = walletGetToken W w)) W.node.wallets 0 ≠ -1) :
    lightNodeGetWalletHoldingToken W token =
      (scanFrom (fun w => decide (token = walletGetToken W w)) W.node.wallets 0, W) := by
  unfold lightNodeGetWalletHoldingToken
  simp only [h, if_false]

theorem getWalletHoldingToken_created (W : World) (token : BREthereumToken)
    (h : scanFrom (fun w => decide (token = walletGetToken W w)) W.node.wallets 0 = -1) :
    lightNodeGetWalletHoldingToken W token =
      (lightNodeLookupWalletId
        (lightNodeInsertWallet
          (walletCreateHoldingToken W W.node.account W.node.network token).2
          W.nextWallet).node W.nextWallet,
       lightNodeInsertWallet
          (walletCreateHoldingToken W W.node.account W.node.network token).2
          W.nextWallet) := by
  unfold lightNodeGetWalletHoldingToken
  simp only [h, if_true]
  rfl

theorem perform_etherWallet (x : External) (W V : World) (op : NodeOp)
    (h : perform x W op = some V) :
    V.node.walletHoldingEther = W.node.walletHoldingEther ∧
      ∃ ext, V.node.wallets = W.node.wallets ++ ext := by
  by_cases h1 : ∃ w, op = .insertWallet w
  · obtain ⟨w, rfl⟩ := h1
    injection h with h
    subst h
    exact ⟨rfl, [w], rfl⟩
  by_cases h2 : ∃ t, op = .getWalletHoldingToken t
  · obtain ⟨t, rfl⟩ := h2
    injection h with h
    subst h
    by_cases hs : scanFrom (fun w => decide (t = walletGetToken W w)) W.node.wallets 0 = -1
    · rw [getWalletHoldingToken_created W t hs]
      exact ⟨rfl, [W.nextWallet], rfl⟩
    · rw [getWalletHoldingToken_found W t hs]
      exact ⟨rfl, [], (List.append_nil _).symm⟩
  · have hf := perform_walletFrame x W V op h (fun w e => h1 ⟨w, e⟩) (fun t e => h2 ⟨t, e⟩)
    exact ⟨hf.2.1, [], by rw [hf.1, List.append_nil]⟩

theorem performAll_etherWallet (x : External) :
    ∀ (ops : List NodeOp) (W V : World), performAll x W ops = some V →
      (∃ rest, W.node.wallets = W.node.walletHoldingEther :: rest) →
      ∃ rest, V.node.wallets = V.node.walletHoldingEther :: rest := by
  intro ops
  induction ops with
  | nil =>
    intro W V h hW
    injection h with h
    subst h
    exact hW
  | cons op ops ih =>
    intro W V h hW
    simp only [performAll] at h
    cases h1 : perform x W op with
    | none => rw [h1] at h; exact absurd h (by simp)
    | some W1 =>
      rw [h1] at h
      obtain ⟨he, ext, hext⟩ := perform_etherWallet x W W1 op h1
      obtain ⟨rest, hrest⟩ := hW
      exact ih W1 V h ⟨rest ++ ext, by rw [hext, he, hrest]; rfl⟩

/-- C11. Single ether wallet: in every node that a sequence of node operations
reaches from `createLightNode`, `lightNodeGetWallet` returns `0`, and the wallet
that `lightNodeLookupWallet` finds at registry index `0` is the member
`walletHoldingEther` of the node. -/
theorem single_ether_wallet (x : External) (fixedLightNodeType : BREthereumType)
    (network : Nat) (account : BREthereumAccount) (ops : List NodeOp) (V : World)
    (h : performAll x (createLightNode fixedLightNodeType network account) ops = some V) :
    lightNodeGetWallet V.node = 0 ∧
      lightNodeLookupWallet V.node 0 = some V.node.walletHoldingEther := by
  obtain ⟨rest, hrest⟩ :=
    performAll_etherWallet x ops (createLightNode fixedLightNodeType network account) V h
      ⟨[], rfl⟩
  constructor
  · unfold lightNodeGetWallet lightNodeLookupWalletId
    rw [hrest]
    simp [scanFrom]
  · unfold lightNodeLookupWallet
    rw [hrest]
    simp

theorem single_ether_wallet_witness :
    performAll sampleExternal (createLightNode .NODE_TYPE_JSON_RPC 1 { primaryAddress := "0xabc" })
        [.getWalletHoldingToken (some 5), .insertWallet 0,
         .walletCreateTransaction 0 "0xdef" (.ether 1)] =
      some ((lightNodeWalletCreateTransaction sampleExternal
        (lightNodeInsertWallet (lightNodeGetWalletHoldingToken sampleWorld (some 5)).2 0)
        0 "0xdef" (.ether 1)).2) ∧
    lightNodeGetWallet ((lightNodeWalletCreateTransaction sampleExternal
        (lightNodeInsertWallet (lightNodeGetWalletHoldingToken sampleWorld (some 5)).2 0)
        0 "0xdef" (.ether 1)).2).node = 0 ∧
    lightNodeLookupWallet ((lightNodeWalletCreateTransaction sampleExternal
        (lightNodeInsertWallet (lightNodeGetWalletHoldingToken sampleWorld (some 5)).2 0)
        0 "0xdef" (.ether 1)).2).node 0 =
      some ((lightNodeWalletCreateTransaction sampleExternal
        (lightNodeInsertWallet (lightNodeGetWalletHoldingToken sampleWorld (some 5)).2 0)
        0 "0xdef" (.ether 1)).2).node.walletHoldingEther :=
  ⟨rfl, single_ether_wallet sampleExternal .NODE_TYPE_JSON_RPC 1 { primaryAddress := "0xabc" }
    [.getWalletHoldingToken (some 5), .insertWallet 0,
     .walletCreateTransaction 0 "0xdef" (.ether 1)] _ rfl⟩

/-! ## C12: one wallet per token -/

/-- C23. Disconnect idempotence: for every node, `lightNodeDisconnect` returns
true, sets the state to Disconnecting and changes nothing else; after connect
followed by disconnect, and after any disconnect, a second disconnect returns
true and leaves the node and everything else exactly as the first disconnect
left them; and whatever the node is when the second disconnect is called, its
state afterwards is the state the first disconnect left. -/
theorem disconnect_idempotence (W : World) (client : BREthereumClient) (t : ThreadSetup) :
    (lightNodeDisconnect W).1 = true ∧
    (lightNodeDisconnect W).2 =
      { W with node := { W.node with state := .LIGHT_NODE_DISCONNECTING } } ∧
    lightNodeDisconnect (lightNodeDisconnect (lightNodeConnect W client t).world).2 =
      (true, (lightNodeDisconnect (lightNodeConnect W client t).world).2) ∧
    lightNodeDisconnect (lightNodeDisconnect W).2 = (true, (lightNodeDisconnect W).2) ∧
    (∀ V : World, (lightNodeDisconnect V).1 = true ∧
      (lightNodeDisconnect V).2.node.state = (lightNodeDisconnect W).2.node.state) :=
  ⟨rfl, rfl, rfl, rfl, fun _ => ⟨rfl, rfl⟩⟩

/-! ## C25: disconnect without a running worker -/

theorem perform_disconnecting (x : External) (W V : World) (op : NodeOp)
    (h : perform x W op = some V) (hs : W.node.state = .LIGHT_NODE_DISCONNECTING)
    (hop : isWorkerStep op = false) :
    V.node.state = .LIGHT_NODE_DISCONNECTING := by
  rw [perform_state x W V op h]
  cases op with
  | workerStart => exact absurd hop (by decide)
  | workerCycle => exact absurd hop (by decide)
  | workerExit => exact absurd hop (by decide)
  | connect client t =>
    have e : (lightNodeConnect W client t).stateWrites = [] := by
      unfold lightNodeConnect
      simp only [hs]
    simp only [stateWrites, e, stateAfter, hs]
  | disconnect => rfl
  | _ => exact hs

theorem performAll_disconnecting (x : External) :
    ∀ (ops : List NodeOp) (W V : World), performAll x W ops = some V →
      W.node.state = .LIGHT_NODE_DISCONNECTING → (∀ op ∈ ops, isWorkerStep op = false) →
      V.node.state = .LIGHT_NODE_DISCONNECTING := by
  intro ops
  induction ops with
  | nil =>
    intro W V h hs _
    injection h with h
    subst h
    exact hs
  | cons op ops ih =>
    intro W V h hs hops
    simp only [performAll] at h
    cases h1 : perform x W op with
    | none => rw [h1] at h; exact absurd h (by simp)
    | some W1 =>
      rw [h1] at h
      exact ih W1 V h
        (perform_disconnecting x W W1 op h1 hs (hops op (List.mem_cons_self _ _)))
        (fun o ho => hops o (List.mem_cons_of_mem _ ho))

/-- C25. Disconnect without a running worker blocks reconnection: for every node,
in particular one whose state is Created, Disconnected or Errored,
`lightNodeDisconnect` sets the state to Disconnecting, and in every node reached
from there by operations none of which is a step of the worker, the state is
Disconnecting and every `lightNodeConnect` returns false and leaves the node,
with its state Disconnecting, and everything else as they are. -/
theorem disconnect_blocks_reconnection (x : External) (W V : World) (ops : List NodeOp)
    (hops : ∀ op ∈ ops, isWorkerStep op = false)
    (hV : performAll x (lightNodeDisconnect W).2 ops = some V)
    (client : BREthereumClient) (t : ThreadSetup) :
    (lightNodeDisconnect W).2.node.state = .LIGHT_NODE_DISCONNECTING ∧
    V.node.state = .LIGHT_NODE_DISCONNECTING ∧
    (lightNodeConnect V client t).result = false ∧
    (lightNodeConnect V client t).world = V := by
  have hs : V.node.state = .LIGHT_NODE_DISCONNECTING :=
    performAll_disconnecting x ops (lightNodeDisconnect W).2 V hV rfl hops
  refine ⟨rfl, hs, ?_, ?_⟩
  · unfold lightNodeConnect
    simp only [hs]
  · unfold lightNodeConnect
    simp only [hs]

/-- C25 at a concrete node: the sample node, whose state is Created, after a
disconnect, a connect, a new listener and a second connect. -/
theorem disconnect_blocks_reconnection_witness :
    sampleWorld.node.state = .LIGHT_NODE_CREATED ∧
    performAll sampleExternal (lightNodeDisconnect sampleWorld).2
        [.connect sampleClient ⟨true, true, true, true⟩, .addListener 1 2 3 4,
         .connect sampleClient ⟨true, true, true, true⟩] =
      some (lightNodeAddListener (lightNodeDisconnect sampleWorld).2 1 2 3 4).2 ∧
    (lightNodeAddListener (lightNodeDisconnect sampleWorld).2 1 2 3 4).2.node.state =
      .LIGHT_NODE_DISCONNECTING ∧
    (lightNodeConnect (lightNodeAddListener (lightNodeDisconnect sampleWorld).2 1 2 3 4).2
      sampleClient ⟨true, true, true, true⟩).result = false ∧
    (lightNodeConnect (lightNodeAddListener (lightNodeDisconnect sampleWorld).2 1 2 3 4).2
      sampleClient ⟨true, true, true, true⟩).world =
      (lightNodeAddListener (lightNodeDisconnect sampleWorld).2 1 2 3 4).2 :=
  ⟨rfl, rfl,
   (disconnect_blocks_reconnection sampleExternal sampleWorld
      (lightNodeAddListener (lightNodeDisconnect sampleWorld).2 1 2 3 4).2
      [.connect sampleClient ⟨true, true, true, true⟩, .addListener 1 2 3 4,
       .connect sampleClient ⟨true, true, true, true⟩]
      (by decide) rfl sampleClient ⟨true, true, true, true⟩).2⟩

/-! ## C26: submit in any state -/

theorem updateBlockHeight_max (W : World) (h : Nat) :
    lightNodeUpdateBlockHeight W h =
      { W with node := { W.node with blockHeight := max W.node.blockHeight h } } := by
  unfold lightNodeUpdateBlockHeight
  by_cases hgt : h > W.node.blockHeight
  · have e : max W.node.blockHeight h = h := Nat.max_eq_right (Nat.le_of_lt hgt)
    simp only [hgt, if_true, e]
  · have e : max W.node.blockHeight h = W.node.blockHeight :=
      Nat.max_eq_left (Nat.le_of_not_lt hgt)
    simp only [hgt, if_false, e]

theorem updateBlockHeights_le :
    ∀ (hs : List Nat) (W : World),
      W.node.blockHeight ≤ (hs.foldl lightNodeUpdateBlockHeight W).node.blockHeight := by
  intro hs
  induction hs with
  | nil => intro W; exact Nat.le_refl _
  | cons h hs ih =>
    intro W
    simp only [List.foldl_cons]
    refine Nat.le_trans ?_ (ih (lightNodeUpdateBlockHeight W h))
    rw [updateBlockHeight_max]
    exact Nat.le_max_left _ _

theorem updateBlockHeights_height :
    ∀ (hs : List Nat) (W : World),
      (hs.foldl lightNodeUpdateBlockHeight W).node.blockHeight =
        hs.foldl max W.node.blockHeight := by
  intro hs
  induction hs with
  | nil => intro W; rfl
  | cons h hs ih =>
    intro W
    simp only [List.foldl_cons]
    rw [ih (lightNodeUpdateBlockHeight W h), updateBlockHeight_max]

/-- C27. Block height never decreases: for every node and every height `h`,
after `lightNodeUpdateBlockHeight (node, h)` the function `lightNodeGetBlockHeight`
returns the maximum of the previous height and `h`, and nothing else changes;
over any sequence of updates the height is the maximum of the height at the
start and the heights given, and it is non-decreasing: the height after the
first updates of the sequence is at most the height after all of them. -/
theorem block_height_never_decreases (W : World) (h : Nat) :
    lightNodeGetBlockHeight (lightNodeUpdateBlockHeight W h).node =
      max (lightNodeGetBlockHeight W.node) h ∧
    lightNodeUpdateBlockHeight W h =
      { W with node := { W.node with blockHeight := max W.node.blockHeight h } } ∧
    (∀ hs : List Nat,
      lightNodeGetBlockHeight (hs.foldl lightNodeUpdateBlockHeight W).node =
        hs.foldl max (lightNodeGetBlockHeight W.node)) ∧
    (∀ hs1 hs2 : List Nat,
      lightNodeGetBlockHeight (hs1.foldl lightNodeUpdateBlockHeight W).node ≤
        lightNodeGetBlockHeight ((hs1 ++ hs2).foldl lightNodeUpdateBlockHeight W).node) := by
  refine ⟨?_, updateBlockHeight_max W h, ?_, ?_⟩
  · rw [updateBlockHeight_max]
    rfl
  · intro hs
    exact updateBlockHeights_height hs W
  · intro hs1 hs2
    rw [List.foldl_append]
    exact updateBlockHeights_le hs2 _

end LightNode

namespace FileService

/-! ## C17: routing of load and save -/

/-- C17, at the failing input. With the types `"blocks"` (reader `21`, writer
`22`) and `"peers"` (reader `31`, writer `32`) defined, in this order, on the
service created for `("/tmp/x", "mainnet", "eth")`, `findType` answers `1` for
`"blocks"`, whose row is `0`; `fileServiceSave` for `"blocks"` invokes the
writer `32` of `"peers"` with the directory of `"peers"`, and `fileServiceLoad`
the reader `31`. With `"blocks"` alone defined, `fileServiceSave` for `"blocks"`
calls the function pointer of the empty row `1`, which is `NULL`, with the
directory `"/tmp/x/mainnet/eth/"`. An unregistered name returns the non-zero
status and invokes nothing. -/
theorem routing_failing_input :
    typeRow sampleServiceBlocksPeers 0 = "blocks" ∧
    findType sampleServiceBlocksPeers "blocks" = 1 ∧
    (fileServiceSave sampleRun sampleServiceBlocksPeers 5 "blocks").invoked =
      [{ func := 32, argument := 5, path := "/tmp/x/mainnet/eth/peers", version := 1 }] ∧
    (fileServiceLoad sampleRun sampleServiceBlocksPeers 6 "blocks").invoked =
      [{ func := 31, argument := 6, path := "/tmp/x/mainnet/eth/peers", version := 1 }] ∧
    (fileServiceSave sampleRun sampleServiceBlocks 5 "blocks").invoked =
      [{ func := 0, argument := 5, path := "/tmp/x/mainnet/eth/", version := 1 }] ∧
    fileServiceSave sampleRun sampleServiceBlocks 5 "logs" =
      { status := 215, invoked := [] } ∧
    fileServiceLoad sampleRun sampleServiceBlocks 6 "logs" =
      { status := 184, invoked := [] } := by
  decide

/-! ## C18: defining a type -/

/-- C18, at the failing input. On a service that holds nine type definitions,
`fileServiceDefineType` with a name of two characters stores the name, version,
reader and writer in row `9` and increments `count_elements` to `10`, yet it
returns the non-zero status `315`. -/
theorem defineType_failing_input :
    sampleServiceNine.count_elements = 9 ∧
    (fileServiceDefineType sampleServiceNine "t9" 9 109 209).1 = 315 ∧
    (fileServiceDefineType sampleServiceNine "t9" 9 109 209).2.count_elements = 10 ∧
    typeRow (fileServiceDefineType sampleServiceNine "t9" 9 109 209).2 9 = "t9" ∧
    (fileServiceDefineType sampleServiceNine "t9" 9 109 209).2.version.getD 9 0 = 9 ∧
    (fileServiceDefineType sampleServiceNine "t9" 9 109 209).2.FileReader.getD 9 0 = 109 ∧
    (fileServiceDefineType sampleServiceNine "t9" 9 109 209).2.FileWriter.getD 9 0 = 209 ∧
    (fileServiceDefineType sampleService "t0" 0 100 200).1 = 0 := by
  decide

/-! ## C20: creation -/

/-- C20, at the failing input. For a base directory of `65536` characters the
size cast to `uint16_t` is `0`, the length check passes, `fileServiceCreate`
does not return `NULL`, and `strcpy` writes past the 100 characters of
`baseDirectory`. -/
theorem create_failing_input :
    (String.mk (List.replicate 65536 'a')).length = 65536 ∧
    fileServiceCreate sampleMkdirFails (String.mk (List.replicate 65536 'a')) "mainnet" "eth" =
      .bufferOverflow := by
  have h : (String.mk (List.replicate 65536 'a')).length = 65536 := by
    show (List.replicate 65536 'a').length = 65536
    exact List.length_replicate _ _
  refine ⟨h, ?_⟩
  unfold fileServiceCreate
  simp only [h]
  decide

/-! ## C19: the current version -/

theorem defineCurrentVersionFrom_none (version : Nat) :
    ∀ (remaining i : Nat) (r : Int × BRFileServiceRecord),
      (∀ j, i ≤ j → j < i + remaining → r.2.version.getD j 0 ≠ version) →
      defineCurrentVersionFrom version remaining i r = r := by
  intro remaining
  induction remaining with
  | zero => intro i r _; rfl
  | succ n ih =>
    intro i r h
    have hi : r.2.version.getD i 0 ≠ version := h i (Nat.le_refl _) (by omega)
    simp only [defineCurrentVersionFrom, hi, if_false]
    exact ih (i + 1) r (fun j h1 h2 => h j (by omega) (by omega))

theorem defineCurrentVersionFrom_first (version : Nat) :
    ∀ (remaining i k : Nat) (r : Int × BRFileServiceRecord),
      i ≤ k → k < i + remaining → r.2.version.getD k 0 = version →
      (∀ j, i ≤ j → j < k → r.2.version.getD j 0 ≠ version) →
      defineCurrentVersionFrom version remaining i r =
        (0, { r.2 with current_element := k }) := by
  intro remaining
  induction remaining with
  | zero => intro i k r h1 h2; omega
  | succ n ih =>
    intro i k r h1 h2 hk hfirst
    by_cases hik : i = k
    · subst hik
      simp only [defineCurrentVersionFrom, hk, if_true]
    · have hi : r.2.version.getD i 0 ≠ version := hfirst i (Nat.le_refl _) (by omega)
      simp only [defineCurrentVersionFrom, hi, if_false]
      exact ih (i + 1) k r (by omega) (by omega) hk
        (fun j h3 h4 => hfirst j (by omega) h4)

/-- C19. `fileServiceDefineCurrentVersion` matches by version, first match wins:
for every file service, type name of fewer than 25 characters and version `v`,
if `i` is the smallest index of a table entry with version `v`, the function
returns `0` and sets `current_element` to `i` (nothing else changes); if no
table entry has version `v`, it returns non-zero and leaves the service, with
its `current_element`, unchanged; in both cases the outcome is the same for
every other type name of fewer than 25 characters. -/
theorem defineCurrentVersion_first_match (fs : BRFileServiceRecord) (type : String)
    (v : Nat) (h : type.length < 25) :
    (∀ i, i < fs.count_elements → fs.version.getD i 0 = v →
      (∀ j, j < i → fs.version.getD j 0 ≠ v) →
      fileServiceDefineCurrentVersion fs type v = (0, { fs with current_element := i })) ∧
    ((∀ i, i < fs.count_elements → fs.version.getD i 0 ≠ v) →
      (fileServiceDefineCurrentVersion fs type v).1 ≠ 0 ∧
      (fileServiceDefineCurrentVersion fs type v).2 = fs) ∧
    (∀ other : String, other.length < 25 →
      fileServiceDefineCurrentVersion fs other v = fileServiceDefineCurrentVersion fs type v) := by
  have hlen : type.length < FSR_LENGTH_TYPE := h
  refine ⟨?_, ?_, ?_⟩
  · intro i hi hv hfirst
    simp only [fileServiceDefineCurrentVersion, hlen, if_true]
    exact defineCurrentVersionFrom_first v fs.count_elements 0 i _ (Nat.zero_le _)
      (by omega) hv (fun j _ h2 => hfirst j h2)
  · intro hnone
    simp only [fileServiceDefineCurrentVersion, hlen, if_true]
    rw [defineCurrentVersionFrom_none v fs.count_elements 0 _
      (fun j _ h2 => hnone j (by omega))]
    exact ⟨show defineCurrentVersionFailure ≠ 0 by decide, rfl⟩
  · intro other ho
    have ho2 : other.length < FSR_LENGTH_TYPE := ho
    simp only [fileServiceDefineCurrentVersion, hlen, ho2, if_true]

/-- C19 at a concrete service: `"blocks"` has version `1` and `"peers"` version
`2`; asking for version `2` under the name `"blocks"` selects entry `1`, and
asking for version `7` selects nothing. -/
theorem defineCurrentVersion_first_match_witness :
    fileServiceDefineCurrentVersion sampleServiceBlocksPeers "blocks" 2 =
      (0, { sampleServiceBlocksPeers with current_element := 1 }) ∧
    (fileServiceDefineCurrentVersion sampleServiceBlocksPeers "blocks" 7).1 ≠ 0 ∧
    (fileServiceDefineCurrentVersion sampleServiceBlocksPeers "blocks" 7).2 =
      sampleServiceBlocksPeers ∧
    fileServiceDefineCurrentVersion sampleServiceBlocksPeers "peers" 2 =
      fileServiceDefineCurrentVersion sampleServiceBlocksPeers "blocks" 2 :=
  have h := defineCurrentVersion_first_match sampleServiceBlocksPeers "blocks"
  ⟨(h 2 (by decide)).1 1 (by decide) (by decide) (by decide),
   ((h 7 (by decide)).2.1 (by decide)).1, ((h 7 (by decide)).2.1 (by decide)).2,
   (h 2 (by decide)).2.2 "peers" (by decide)⟩

/-! ## C24: the names read back from the table -/

/-- C24, at the failing input. On the sample service `fileServiceDefineType`
succeeds (status `0`) for `"transactions"`, a name of 12 characters, which reads
back from row `0`; it succeeds again for `"peers"`, whose `strcpy` to row `1`
starts at character `10` of the member `type`, and afterwards row `0` reads
back as `"transactiopeers"`: the later definition has altered the stored name of
the earlier one, and `fileServiceClear` for `"transactions"` finds no row. -/
theorem stored_names_failing_input :
    "transactions".length = 12 ∧
    (fileServiceDefineType sampleService "transactions" 1 21 22).1 = 0 ∧
    typeRow (fileServiceDefineType sampleService "transactions" 1 21 22).2 0 =
      "transactions" ∧
    (fileServiceDefineType (fileServiceDefineType sampleService "transactions" 1 21 22).2
      "peers" 2 31 32).1 = 0 ∧
    typeRow sampleServiceTransactionsPeers 0 = "transactiopeers" ∧
    typeRow sampleServiceTransactionsPeers 1 = "peers" ∧
    fileServiceClear sampleServiceTransactionsPeers "transactions" = [] ∧
    fileServiceClearAll (fun _ _ => false) sampleServiceTransactionsPeers =
      [.removeFiles "/tmp/x/mainnet/eth/transactiopeers",
       .rmdir "/tmp/x/mainnet/eth/transactiopeers",
       .removeFiles "/tmp/x/mainnet/eth/peers", .rmdir "/tmp/x/mainnet/eth/peers"] := by
  decide

/-! ## C22: the table across definitions -/

theorem strcpyAt_length (memory : List Char) (offset : Nat) (source : String)
    (h : offset + (source.data.length + 1) ≤ memory.length) :
    (strcpyAt memory offset source).length = memory.length := by
  simp only [strcpyAt, List.length_append, List.length_take, List.length_drop,
    List.length_cons, List.length_nil]
  omega

theorem strcpyAt_before (memory : List Char) (offset : Nat) (source : String) (a len : Nat)
    (h1 : a + len ≤ offset) (h2 : offset ≤ memory.length) :
    ((strcpyAt memory offset source).drop a).take len = (memory.drop a).take len := by
  apply List.ext_getElem?
  intro j
  by_cases hj : j < len
  · have hlt : a + j < (memory.take offset).length := by
      rw [List.length_take]
      omega
    have e : strcpyAt memory offset source =
        memory.take offset ++ ((source.data ++ [nul]) ++
          memory.drop (offset + (source.data.length + 1))) := by
      simp only [strcpyAt, List.append_assoc]
    rw [List.getElem?_take_of_lt hj, List.getElem?_take_of_lt hj, List.getElem?_drop,
      List.getElem?_drop, e, List.getElem?_append_left hlt,
      List.getElem?_take_of_lt (by omega)]
  · have hge : len ≤ j := Nat.le_of_not_lt hj
    rw [List.getElem?_take_eq_none hge, List.getElem?_take_eq_none hge]

theorem strcpyAt_at (memory : List Char) (offset : Nat) (source : String)
    (h : offset ≤ memory.length) :
    ((strcpyAt memory offset source).drop offset).take (source.length + 1) =
      source.data ++ [nul] := by
  have hlen : (memory.take offset).length = offset := by
    rw [List.length_take]
    omega
  have e : strcpyAt memory offset source =
      memory.take offset ++ ((source.data ++ [nul]) ++
        memory.drop (offset + (source.data.length + 1))) := by
    simp only [strcpyAt, List.append_assoc]
  rw [e, List.drop_left' hlen]
  apply List.take_left'
  show (source.data ++ [nul]).length = source.data.length + 1
  rw [List.length_append]
  rfl

theorem takeWhile_terminated {α : Type} (p : α → Bool) (a : α) (rest : List α) :
    ∀ l : List α, (∀ c ∈ l, p c = true) → p a = false →
      (l ++ a :: rest).takeWhile p = l := by
  intro l
  induction l with
  | nil => intro _ ha; simp [List.takeWhile, ha]
  | cons c cs ih =>
    intro h ha
    have hc : p c = true := h c (List.mem_cons_self _ _)
    have e : (c :: cs) ++ a :: rest = c :: (cs ++ a :: rest) := rfl
    rw [e, List.takeWhile_cons_of_pos hc,
      ih (fun d hd => h d (List.mem_cons_of_mem _ hd)) ha]

theorem typeRow_of_segment (fs : BRFileServiceRecord) (i : Nat) (name : String)
    (hn : nul ∉ name.data)
    (h : (fs.type.drop (FSR_ELEMENTS_MAXIMUM * i)).take (name.length + 1) =
      name.data ++ [nul]) :
    typeRow fs i = name := by
  unfold typeRow
  have e : fs.type.drop (FSR_ELEMENTS_MAXIMUM * i) =
      name.data ++ nul :: (fs.type.drop (FSR_ELEMENTS_MAXIMUM * i)).drop (name.length + 1) := by
    have h0 := (List.take_append_drop (name.length + 1)
      (fs.type.drop (FSR_ELEMENTS_MAXIMUM * i))).symm
    rw [h] at h0
    simpa [List.append_assoc] using h0
  rw [e, takeWhile_terminated]
  · intro c hc
    have hne : c ≠ nul := fun hcn => hn (hcn ▸ hc)
    simpa using hne
  · simp

theorem defineType_accepted (fs : BRFileServiceRecord) (type : String)
    (version reader writer : Nat) (h1 : type.length < FSR_LENGTH_TYPE)
    (h2 : fs.count_elements < FSR_ELEMENTS_MAXIMUM) :
    (fileServiceDefineType fs type version reader writer).2 =
      { fs with
        type := strcpyAt fs.type (FSR_ELEMENTS_MAXIMUM * fs.count_elements) type
        version := fs.version.set fs.count_elements version
        FileReader := fs.FileReader.set fs.count_elements reader
        FileWriter := fs.FileWriter.set fs.count_elements writer
        count_elements := fs.count_elements + 1 } := by
  unfold fileServiceDefineType
  simp only [h1, h2, and_self, if_true]
  split <;> rfl

theorem defineType_rejected (fs : BRFileServiceRecord) (type : String)
    (version reader writer : Nat)
    (h : ¬ (type.length < FSR_LENGTH_TYPE ∧ fs.count_elements < FSR_ELEMENTS_MAXIMUM)) :
    fileServiceDefineType fs type version reader writer = (defineTypeFailure, fs) := by
  unfold fileServiceDefineType
  simp only [h, if_false]

theorem defineCurrentVersionFrom_frame (version : Nat) :
    ∀ (remaining i : Nat) (r : Int × BRFileServiceRecord),
      ∃ k, (defineCurrentVersionFrom version remaining i r).2 =
        { r.2 with current_element := k } := by
  intro remaining
  induction remaining with
  | zero => intro i r; exact ⟨r.2.current_element, rfl⟩
  | succ n ih =>
    intro i r
    simp only [defineCurrentVersionFrom]
    split
    · exact ⟨i, rfl⟩
    · exact ih (i + 1) r

theorem defineCurrentVersion_frame (fs : BRFileServiceRecord) (type : String) (version : Nat) :
    ∃ k, (fileServiceDefineCurrentVersion fs type version).2 =
      { fs with current_element := k } := by
  unfold fileServiceDefineCurrentVersion
  split
  · exact defineCurrentVersionFrom_frame version fs.count_elements 0
      (defineCurrentVersionFailure, fs)
  · exact ⟨fs.current_element, rfl⟩

theorem applyOps_count :
    ∀ (ops : List ServiceOp) (fs : BRFileServiceRecord),
      fs.count_elements ≤ FSR_ELEMENTS_MAXIMUM →
      (applyOps fs ops).count_elements =
        fs.count_elements + (acceptedNames fs.count_elements ops).length ∧
      (applyOps fs ops).count_elements ≤ FSR_ELEMENTS_MAXIMUM ∧
      ∀ n ∈ acceptedNames fs.count_elements ops, n.length < FSR_LENGTH_TYPE := by
  intro ops
  induction ops with
  | nil =>
    intro fs h
    exact ⟨rfl, h, fun n hn => absurd hn (List.not_mem_nil _)⟩
  | cons op ops ih =>
    intro fs h
    cases op with
    | defineType type version reader writer =>
      by_cases hg : type.length < FSR_LENGTH_TYPE ∧ fs.count_elements < FSR_ELEMENTS_MAXIMUM
      · have e := defineType_accepted fs type version reader writer hg.1 hg.2
        have hc : (fileServiceDefineType fs type version reader writer).2.count_elements =
            fs.count_elements + 1 := by rw [e]
        have hle : (fileServiceDefineType fs type version reader writer).2.count_elements ≤
            FSR_ELEMENTS_MAXIMUM := by rw [hc]; exact hg.2
        have step := ih (fileServiceDefineType fs type version reader writer).2 hle
        rw [hc] at step
        simp only [applyOps, List.foldl_cons, applyOp, acceptedNames, hg, and_self, if_true,
          List.length_cons, List.mem_cons]
        refine ⟨?_, step.2.1, ?_⟩
        · have h1 := step.1
          simp only [applyOps] at h1
          omega
        · intro n hn
          rcases hn with hn | hn
          · rw [hn]; exact hg.1
          · exact step.2.2 n hn
      · have e := defineType_rejected fs type version reader writer hg
        have step := ih fs h
        simp only [applyOps, List.foldl_cons, applyOp, acceptedNames, hg, if_false, e]
        exact step
    | defineCurrentVersion type version =>
      obtain ⟨k, hk⟩ := defineCurrentVersion_frame fs type version
      have step := ih { fs with current_element := k } h
      simp only [applyOps, List.foldl_cons, applyOp, acceptedNames, hk]
      exact step

theorem rowsHold_defineType (fs : BRFileServiceRecord) (ns : List String) (type : String)
    (version reader writer : Nat) (h : RowsHold fs ns)
    (hshort : ∀ n ∈ ns, n.length < FSR_ELEMENTS_MAXIMUM)
    (hlen : type.length < FSR_ELEMENTS_MAXIMUM)
    (hcount : fs.count_elements < FSR_ELEMENTS_MAXIMUM) :
    RowsHold (fileServiceDefineType fs type version reader writer).2 (ns ++ [type]) := by
  obtain ⟨hc, hm, hrows⟩ := h
  have hlen25 : type.length < FSR_LENGTH_TYPE :=
    Nat.lt_of_lt_of_le hlen (by decide)
  have hmem : fs.type.length = 250 := hm
  have hcount10 : fs.count_elements < 10 := hcount
  have hlen10 : type.data.length < 10 := hlen
  rw [defineType_accepted fs type version reader writer hlen25 hcount]
  refine ⟨?_, ?_, ?_⟩
  · show fs.count_elements + 1 = (ns ++ [type]).length
    rw [List.length_append, hc]
    rfl
  · show (strcpyAt fs.type (FSR_ELEMENTS_MAXIMUM * fs.count_elements) type).length = _
    rw [strcpyAt_length, hm]
    show 10 * fs.count_elements + (type.data.length + 1) ≤ fs.type.length
    omega
  · intro i n hin
    show ((strcpyAt fs.type (FSR_ELEMENTS_MAXIMUM * fs.count_elements) type).drop
      (FSR_ELEMENTS_MAXIMUM * i)).take (n.length + 1) = n.data ++ [nul]
    by_cases hi : i < ns.length
    · have hin2 : ns[i]? = some n := by
        rw [List.getElem?_append_left hi] at hin
        exact hin
      have hmemn : n ∈ ns := List.getElem?_mem hin2
      have hn10 : n.length < 10 := hshort n hmemn
      rw [strcpyAt_before]
      · exact hrows i n hin2
      · show 10 * i + (n.length + 1) ≤ 10 * fs.count_elements
        omega
      · show 10 * fs.count_elements ≤ fs.type.length
        omega
    · have hi2 : ns.length ≤ i := Nat.le_of_not_lt hi
      rw [List.getElem?_append_right hi2] at hin
      have hi3 : i - ns.length = 0 := by
        by_contra hne
        have hpos : 1 ≤ i - ns.length := by omega
        rw [List.getElem?_eq_none (by simpa using hpos)] at hin
        exact absurd hin (by simp)
      rw [hi3] at hin
      have hn : n = type := by simpa using hin.symm
      have hic : i = fs.count_elements := by omega
      rw [hn, hic]
      apply strcpyAt_at
      show 10 * fs.count_elements ≤ fs.type.length
      omega

theorem applyOps_rowsHold :
    ∀ (ops : List ServiceOp) (fs : BRFileServiceRecord) (ns : List String),
      RowsHold fs ns → (∀ n ∈ ns, n.length < FSR_ELEMENTS_MAXIMUM) →
      (∀ n ∈ acceptedNames fs.count_elements ops, n.length < FSR_ELEMENTS_MAXIMUM) →
      RowsHold (applyOps fs ops) (ns ++ acceptedNames fs.count_elements ops) := by
  intro ops
  induction ops with
  | nil =>
    intro fs ns h _ _
    simp only [applyOps, List.foldl_nil, acceptedNames, List.append_nil]
    exact h
  | cons op ops ih =>
    intro fs ns h hshort hacc
    cases op with
    | defineType type version reader writer =>
      by_cases hg : type.length < FSR_LENGTH_TYPE ∧ fs.count_elements < FSR_ELEMENTS_MAXIMUM
      · have hnames : acceptedNames fs.count_elements
            (.defineType type version reader writer :: ops) =
            type :: acceptedNames (fs.count_elements + 1) ops := by
          simp only [acceptedNames, hg, and_self, if_true]
        rw [hnames] at hacc ⊢
        have hlen : type.length < FSR_ELEMENTS_MAXIMUM := hacc type (List.mem_cons_self _ _)
        have hrow := rowsHold_defineType fs ns type version reader writer h hshort hlen hg.2
        have hc : (fileServiceDefineType fs type version reader writer).2.count_elements =
            fs.count_elements + 1 := by
          rw [defineType_accepted fs type version reader writer hg.1 hg.2]
        have step := ih (fileServiceDefineType fs type version reader writer).2 (ns ++ [type])
          hrow
          (fun n hn => by
            rcases List.mem_append.mp hn with h1 | h1
            · exact hshort n h1
            · rw [List.mem_singleton.mp h1]; exact hlen)
          (by
            rw [hc]
            exact fun n hn => hacc n (List.mem_cons_of_mem _ hn))
        rw [hc] at step
        have e : ns ++ type :: acceptedNames (fs.count_elements + 1) ops =
            ns ++ [type] ++ acceptedNames (fs.count_elements + 1) ops := by
          simp only [List.append_assoc, List.singleton_append]
        rw [e]
        exact step
      · have hnames : acceptedNames fs.count_elements
            (.defineType type version reader writer :: ops) =
            acceptedNames fs.count_elements ops := by
          simp only [acceptedNames, hg, if_false]
        rw [hnames] at hacc ⊢
        have e := defineType_rejected fs type version reader writer hg
        have step := ih fs ns h hshort hacc
        simp only [applyOps, List.foldl_cons, applyOp, e]
        exact step
    | defineCurrentVersion type version =>
      obtain ⟨k, hk⟩ := defineCurrentVersion_frame fs type version
      have step := ih { fs with current_element := k } ns h hshort hacc
      simp only [applyOps, List.foldl_cons, applyOp, hk, acceptedNames]
      exact step

theorem typeNames_of_rowsHold (fs : BRFileServiceRecord) (ns : List String)
    (h : RowsHold fs ns) (hn : ∀ n ∈ ns, nul ∉ n.data) : typeNames fs = ns := by
  obtain ⟨hc, _, hrows⟩ := h
  apply List.ext_getElem?
  intro i
  unfold typeNames
  rw [hc]
  by_cases hi : i < ns.length
  · have hget : ns[i]? = some ns[i] := List.getElem?_eq_getElem hi
    rw [List.getElem?_map, List.getElem?_range hi, hget]
    show some (typeRow fs i) = some ns[i]
    rw [typeRow_of_segment fs i ns[i] (hn _ (List.getElem_mem _)) (hrows i _ hget)]
  · have hi2 : ns.length ≤ i := Nat.le_of_not_lt hi
    rw [List.getElem?_eq_none hi2, List.getElem?_eq_none (by simpa using hi2)]

theorem create_record (mkdirFails : String → Bool) (base network currency : String)
    (fs : BRFileServiceRecord) (dirs : List String)
    (h : fileServiceCreate mkdirFails base network currency = .created fs dirs) :
    fs = { zeroRecord with baseDirectory := base, network := network, currency := currency } := by
  unfold fileServiceCreate at h
  simp only [] at h
  split at h
  · exact absurd h (by simp)
  · split at h
    · exact absurd h (by simp)
    · split at h
      · injection h with h1 _
        exact h1.symm
      · injection h with h1 _
        exact h1.symm

theorem rowsHold_created (base network currency : String) :
    RowsHold { zeroRecord with baseDirectory := base, network := network, currency := currency }
      [] := by
  refine ⟨rfl, ?_, ?_⟩
  · show (List.replicate (FSR_LENGTH_TYPE * FSR_ELEMENTS_MAXIMUM) nul).length = _
    exact List.length_replicate _ _
  · intro i n h
    exact absurd h (by simp)

/-- C22 as stated fails. On the service created for `("/tmp/x", "mainnet", "eth")`
two calls of `fileServiceDefineType` with the name `"blocks"` both store it, so
the table holds `"blocks"` twice; and after three calls with the name
`"transactions"`, which has 12 characters, row `0` reads back as a name of 32
characters. -/
theorem type_name_invariant_counterexample :
    fileServiceCreate sampleMkdirFails "/tmp/x" "mainnet" "eth" =
      .created sampleService ["/tmp/x/mainnet", "/tmp/x/mainnet/eth"] ∧
    applyOps sampleService [.defineType "blocks" 1 21 22, .defineType "blocks" 2 31 32] =
      sampleServiceBlocksTwice ∧
    typeNames sampleServiceBlocksTwice = ["blocks", "blocks"] ∧
    ¬ (typeNames sampleServiceBlocksTwice).Nodup ∧
    applyOps sampleService [.defineType "transactions" 1 21 22,
      .defineType "transactions" 2 31 32, .defineType "transactions" 3 41 42] =
      sampleServiceTransactionsThrice ∧
    typeNames sampleServiceTransactionsThrice =
      ["transactiotransactiotransactions", "transactiotransactions", "transactions"] ∧
    "transactiotransactiotransactions".length = 32 :=
  ⟨rfl, rfl, by decide, by decide, rfl, by decide, by decide⟩

/-- C22 (amended). Type-name invariant: in every file service reached from
`fileServiceCreate` by a sequence of `fileServiceDefineType` and
`fileServiceDefineCurrentVersion` calls, `count_elements` never exceeds 10 and is
the number of names that the calls of `fileServiceDefineType` have stored, each
of which has at most 24 characters; and when each of these names has at most 9
characters (and is a C string: it has no terminating character inside), the
type names held in the table are these names in the order of the calls, so
they have at most 24 characters each, and they are pairwise distinct when the
names given were. -/
theorem type_name_invariant (mkdirFails : String → Bool) (base network currency : String)
    (fs0 : BRFileServiceRecord) (dirs : List String)
    (hc : fileServiceCreate mkdirFails base network currency = .created fs0 dirs)
    (ops : List ServiceOp) :
    (applyOps fs0 ops).count_elements ≤ 10 ∧
    (applyOps fs0 ops).count_elements = (acceptedNames 0 ops).length ∧
    (∀ n ∈ acceptedNames 0 ops, n.length ≤ 24) ∧
    ((∀ n ∈ acceptedNames 0 ops, n.length ≤ 9 ∧ nul ∉ n.data) →
      typeNames (applyOps fs0 ops) = acceptedNames 0 ops ∧
      (∀ n ∈ typeNames (applyOps fs0 ops), n.length ≤ 24) ∧
      ((acceptedNames 0 ops).Nodup → (typeNames (applyOps fs0 ops)).Nodup)) := by
  have hfs := create_record mkdirFails base network currency fs0 dirs hc
  have hcount0 : fs0.count_elements = 0 := by rw [hfs]; rfl
  have hcnt := applyOps_count ops fs0 (by rw [hcount0]; exact Nat.zero_le _)
  rw [hcount0] at hcnt
  have hlen24 : ∀ n ∈ acceptedNames 0 ops, n.length ≤ 24 :=
    fun n hn => Nat.le_of_lt_succ (hcnt.2.2 n hn)
  refine ⟨hcnt.2.1, by rw [hcnt.1, Nat.zero_add], hlen24, ?_⟩
  intro hshort
  have hrows0 : RowsHold fs0 [] := by
    rw [hfs]
    exact rowsHold_created base network currency
  have hrows := applyOps_rowsHold ops fs0 [] hrows0
    (fun n hn => absurd hn (List.not_mem_nil _))
    (by
      rw [hcount0]
      exact fun n hn => Nat.lt_succ_of_le (hshort n hn).1)
  rw [hcount0, List.nil_append] at hrows
  have hnames : typeNames (applyOps fs0 ops) = acceptedNames 0 ops :=
    typeNames_of_rowsHold _ _ hrows (fun n hn => (hshort n hn).2)
  refine ⟨hnames, ?_, ?_⟩
  · rw [hnames]
    exact hlen24
  · rw [hnames]
    exact fun h => h

/-- C22 (amended) at a concrete service: the sample service after `"blocks"`,
`"peers"`, a change of the current version, and a name of 25 characters, which
is not stored. -/
theorem type_name_invariant_witness :
    fileServiceCreate sampleMkdirFails "/tmp/x" "mainnet" "eth" =
      .created sampleService ["/tmp/x/mainnet", "/tmp/x/mainnet/eth"] ∧
    acceptedNames 0 [.defineType "blocks" 1 21 22, .defineType "peers" 2 31 32,
      .defineCurrentVersion "blocks" 2, .defineType "aaaaaaaaaaaaaaaaaaaaaaaaa" 3 41 42] =
      ["blocks", "peers"] ∧
    (applyOps sampleService [.defineType "blocks" 1 21 22, .defineType "peers" 2 31 32,
      .defineCurrentVersion "blocks" 2,
      .defineType "aaaaaaaaaaaaaaaaaaaaaaaaa" 3 41 42]).count_elements ≤ 10 ∧
    typeNames (applyOps sampleService [.defineType "blocks" 1 21 22,
      .defineType "peers" 2 31 32, .defineCurrentVersion "blocks" 2,
      .defineType "aaaaaaaaaaaaaaaaaaaaaaaaa" 3 41 42]) =
      acceptedNames 0 [.defineType "blocks" 1 21 22, .defineType "peers" 2 31 32,
        .defineCurrentVersion "blocks" 2, .defineType "aaaaaaaaaaaaaaaaaaaaaaaaa" 3 41 42] ∧
    (typeNames (applyOps sampleService [.defineType "blocks" 1 21 22,
      .defineType "peers" 2 31 32, .defineCurrentVersion "blocks" 2,
      .defineType "aaaaaaaaaaaaaaaaaaaaaaaaa" 3 41 42])).Nodup :=
  ⟨rfl, by decide,
   (type_name_invariant sampleMkdirFails "/tmp/x" "mainnet" "eth" sampleService
      ["/tmp/x/mainnet", "/tmp/x/mainnet/eth"] rfl
      [.defineType "blocks" 1 21 22, .defineType "peers" 2 31 32,
       .defineCurrentVersion "blocks" 2, .defineType "aaaaaaaaaaaaaaaaaaaaaaaaa" 3 41 42]).1,
   ((type_name_invariant sampleMkdirFails "/tmp/x" "mainnet" "eth" sampleService
      ["/tmp/x/mainnet", "/tmp/x/mainnet/eth"] rfl
      [.defineType "blocks" 1 21 22, .defineType "peers" 2 31 32,
       .defineCurrentVersion "blocks" 2, .defineType "aaaaaaaaaaaaaaaaaaaaaaaaa" 3 41 42]).2.2.2
      (by decide)).1,
   ((type_name_invariant sampleMkdirFails "/tmp/x" "mainnet" "eth" sampleService
      ["/tmp/x/mainnet", "/tmp/x/mainnet/eth"] rfl
      [.defineType "blocks" 1 21 22, .defineType "peers" 2 31 32,
       .defineCurrentVersion "blocks" 2, .defineType "aaaaaaaaaaaaaaaaaaaaaaaaa" 3 41 42]).2.2.2
      (by decide)).2.2 (by decide)⟩

/-! ## C21: the directories of two services -/

theorem split_at_separator {α : Type} (sep : α) :
    ∀ (a b r s : List α), sep ∉ a → sep ∉ b → a ++ sep :: r = b ++ sep :: s →
      a = b ∧ r = s := by
  intro a
  induction a with
  | nil =>
    intro b r s _ hb h
    cases b with
    | nil =>
      have h2 : sep :: r = sep :: s := h
      injection h2 with _ h3
      exact ⟨rfl, h3⟩
    | cons y ys =>
      have h2 : sep :: r = y :: (ys ++ sep :: s) := h
      injection h2 with h3 _
      exact absurd (h3 ▸ List.mem_cons_self y ys) hb
  | cons x xs ih =>
    intro b r s ha hb h
    cases b with
    | nil =>
      have h2 : x :: (xs ++ sep :: r) = sep :: s := h
      injection h2 with h3 _
      exact absurd (h3 ▸ List.mem_cons_self x xs) ha
    | cons y ys =>
      have h2 : x :: (xs ++ sep :: r) = y :: (ys ++ sep :: s) := h
      injection h2 with h3 h4
      have step := ih ys r s (fun hm => ha (List.mem_cons_of_mem _ hm))
        (fun hm => hb (List.mem_cons_of_mem _ hm)) h4
      exact ⟨by rw [h3, step.1], step.2⟩

theorem paths_differ (base n1 c1 r1 n2 c2 r2 : String)
    (hn1 : '/' ∉ n1.data) (hc1 : '/' ∉ c1.data) (hn2 : '/' ∉ n2.data) (hc2 : '/' ∉ c2.data)
    (hne : (n1, c1) ≠ (n2, c2)) :
    base ++ "/" ++ n1 ++ "/" ++ c1 ++ "/" ++ r1 ≠ base ++ "/" ++ n2 ++ "/" ++ c2 ++ "/" ++ r2 := by
  intro h
  have hd := congrArg String.data h
  have hs : "/".data = ['/'] := rfl
  simp only [String.data_append, hs, List.append_assoc, List.singleton_append] at hd
  have hd2 := List.append_cancel_left hd
  injection hd2 with _ hd3
  have hnet := split_at_separator '/' n1.data n2.data _ _ hn1 hn2 hd3
  have hcur := split_at_separator '/' c1.data c2.data _ _ hc1 hc2 hnet.2
  have e1 : n1 = n2 := String.ext hnet.1
  have e2 : c1 = c2 := String.ext hcur.1
  exact hne (by rw [e1, e2])

theorem load_paths (run : FileCallback → Int) (fs : BRFileServiceRecord) (results : Nat)
    (type : String) (call : FileCallback)
    (h : call ∈ (fileServiceLoad run fs results type).invoked) :
    ∃ i, call.path = typeDirectory fs i := by
  unfold fileServiceLoad at h
  simp only [] at h
  split at h
  · split at h
    · rw [List.mem_singleton.mp h]
      exact ⟨_, rfl⟩
    · exact absurd h (List.not_mem_nil _)
  · exact absurd h (List.not_mem_nil _)

theorem save_paths (run : FileCallback → Int) (fs : BRFileServiceRecord) (entity : Nat)
    (type : String) (call : FileCallback)
    (h : call ∈ (fileServiceSave run fs entity type).invoked) :
    ∃ i, call.path = typeDirectory fs i := by
  unfold fileServiceSave at h
  simp only [] at h
  split at h
  · split at h
    · rw [List.mem_singleton.mp h]
      exact ⟨_, rfl⟩
    · exact absurd h (List.not_mem_nil _)
  · exact absurd h (List.not_mem_nil _)

theorem clearFrom_paths (fs : BRFileServiceRecord) (type : String) (op : FileSystemOp) :
    ∀ (remaining id : Nat), op ∈ fileServiceClearFrom fs type remaining id →
      ∃ i, dirpathOf op = typeDirectory fs i := by
  intro remaining
  induction remaining with
  | zero => intro id h; exact absurd h (List.not_mem_nil _)
  | succ n ih =>
    intro id h
    simp only [fileServiceClearFrom] at h
    rcases List.mem_append.mp h with h1 | h1
    · split at h1
      · rcases List.mem_cons.mp h1 with h2 | h2
        · rw [h2]; exact ⟨id, rfl⟩
        · rw [List.mem_singleton.mp h2]; exact ⟨id, rfl⟩
      · exact absurd h1 (List.not_mem_nil _)
    · exact ih (id + 1) h1

theorem clear_paths (fs : BRFileServiceRecord) (type : String) (op : FileSystemOp)
    (h : op ∈ fileServiceClear fs type) : ∃ i, dirpathOf op = typeDirectory fs i := by
  unfold fileServiceClear at h
  split at h
  · exact clearFrom_paths fs type op _ _ h
  · exact absurd h (List.not_mem_nil _)

theorem applyOp_labels (fs : BRFileServiceRecord) (op : ServiceOp) :
    (applyOp fs op).baseDirectory = fs.baseDirectory ∧
    (applyOp fs op).network = fs.network ∧ (applyOp fs op).currency = fs.currency := by
  cases op with
  | defineType type version reader writer =>
    by_cases hg : type.length < FSR_LENGTH_TYPE ∧ fs.count_elements < FSR_ELEMENTS_MAXIMUM
    · simp only [applyOp, defineType_accepted fs type version reader writer hg.1 hg.2,
        and_self]
    · simp only [applyOp, defineType_rejected fs type version reader writer hg, and_self]
  | defineCurrentVersion type version =>
    obtain ⟨k, hk⟩ := defineCurrentVersion_frame fs type version
    simp only [applyOp, hk, and_self]

theorem applyOps_labels :
    ∀ (ops : List ServiceOp) (fs : BRFileServiceRecord),
      (applyOps fs ops).baseDirectory = fs.baseDirectory ∧
      (applyOps fs ops).network = fs.network ∧ (applyOps fs ops).currency = fs.currency := by
  intro ops
  induction ops with
  | nil => intro fs; exact ⟨rfl, rfl, rfl⟩
  | cons op ops ih =>
    intro fs
    have h1 := applyOp_labels fs op
    have h2 := ih (applyOp fs op)
    simp only [applyOps, List.foldl_cons] at h2 ⊢
    exact ⟨h2.1.trans h1.1, h2.2.1.trans h1.2.1, h2.2.2.trans h1.2.2⟩

theorem typeDirectory_differ (fs1 fs2 : BRFileServiceRecord)
    (hbase : fs1.baseDirectory = fs2.baseDirectory)
    (hn1 : '/' ∉ fs1.network.data) (hc1 : '/' ∉ fs1.currency.data)
    (hn2 : '/' ∉ fs2.network.data) (hc2 : '/' ∉ fs2.currency.data)
    (hne : (fs1.network, fs1.currency) ≠ (fs2.network, fs2.currency)) (i j : Nat)
    (r1 r2 : String) :
    typeDirectory fs1 i ≠ typeDirectory fs2 j ∧
    typeDirectory fs1 i ++ "/" ++ r1 ≠ typeDirectory fs2 j ++ "/" ++ r2 := by
  unfold typeDirectory
  rw [hbase]
  refine ⟨paths_differ _ _ _ _ _ _ _ hn1 hc1 hn2 hc2 hne, ?_⟩
  have e : ∀ (b n c t r : String),
      b ++ "/" ++ n ++ "/" ++ c ++ "/" ++ t ++ "/" ++ r =
        b ++ "/" ++ n ++ "/" ++ c ++ "/" ++ (t ++ "/" ++ r) := by
    intro b n c t r
    simp only [String.append_assoc]
  rw [e, e]
  exact paths_differ _ _ _ _ _ _ _ hn1 hc1 hn2 hc2 hne

/-- C21 as stated fails. The services created with the same base `"/tmp/x"` for
the pairs `("a/b", "c")` and `("a", "b/c")`, which are distinct, construct the
same directory paths: `fileServiceClear` for `"blocks"` removes the files of
and the directory `"/tmp/x/a/b/c/blocks"` in both, and `fileServiceSave` and
`fileServiceLoad` hand the same path to their callbacks in both. -/
theorem file_service_isolation_counterexample :
    (sampleServiceSlashNetwork.baseDirectory, sampleServiceSlashNetwork.network,
      sampleServiceSlashNetwork.currency) = ("/tmp/x", "a/b", "c") ∧
    (sampleServiceSlashCurrency.baseDirectory, sampleServiceSlashCurrency.network,
      sampleServiceSlashCurrency.currency) = ("/tmp/x", "a", "b/c") ∧
    fileServiceClear sampleServiceSlashNetwork "blocks" =
      [.removeFiles "/tmp/x/a/b/c/blocks", .rmdir "/tmp/x/a/b/c/blocks"] ∧
    fileServiceClear sampleServiceSlashCurrency "blocks" =
      [.removeFiles "/tmp/x/a/b/c/blocks", .rmdir "/tmp/x/a/b/c/blocks"] ∧
    (fileServiceSave sampleRun sampleServiceSlashNetwork 5 "blocks").invoked.map
      (fun call => call.path) = ["/tmp/x/a/b/c/peers"] ∧
    (fileServiceSave sampleRun sampleServiceSlashCurrency 5 "blocks").invoked.map
      (fun call => call.path) = ["/tmp/x/a/b/c/peers"] ∧
    (fileServiceLoad sampleRun sampleServiceSlashNetwork 6 "blocks").invoked.map
      (fun call => call.path) = ["/tmp/x/a/b/c/peers"] ∧
    (fileServiceLoad sampleRun sampleServiceSlashCurrency 6 "blocks").invoked.map
      (fun call => call.path) = ["/tmp/x/a/b/c/peers"] :=
  ⟨by decide, by decide, by decide, by decide, by decide, by decide, by decide, by decide⟩

/-- C21 (amended). File service isolation: two file services created with the
same base directory and distinct (network, currency) pairs, none of the four
names containing the character `/`, and then given any definitions, construct
different directory paths: every path that `fileServiceLoad` or
`fileServiceSave` of the one hands to a callback differs from every such path
of the other, whatever the type names asked for; so do the directories that
`fileServiceClear` names, also against the paths of load and save; and no file
inside a type directory of the one is a file inside a type directory of the
other. -/
theorem file_service_isolation (mk1 mk2 : String → Bool) (base n1 c1 n2 c2 : String)
    (s1 s2 : BRFileServiceRecord) (d1 d2 : List String)
    (h1 : fileServiceCreate mk1 base n1 c1 = .created s1 d1)
    (h2 : fileServiceCreate mk2 base n2 c2 = .created s2 d2)
    (hn1 : '/' ∉ n1.data) (hc1 : '/' ∉ c1.data) (hn2 : '/' ∉ n2.data) (hc2 : '/' ∉ c2.data)
    (hne : (n1, c1) ≠ (n2, c2)) (ops1 ops2 : List ServiceOp) :
    (∀ (run1 run2 : FileCallback → Int) (a1 a2 : Nat) (t1 t2 : String)
        (call1 call2 : FileCallback),
      call1 ∈ (fileServiceLoad run1 (applyOps s1 ops1) a1 t1).invoked ++
        (fileServiceSave run1 (applyOps s1 ops1) a1 t1).invoked →
      call2 ∈ (fileServiceLoad run2 (applyOps s2 ops2) a2 t2).invoked ++
        (fileServiceSave run2 (applyOps s2 ops2) a2 t2).invoked →
      call1.path ≠ call2.path) ∧
    (∀ (t1 t2 : String) (o1 o2 : FileSystemOp),
      o1 ∈ fileServiceClear (applyOps s1 ops1) t1 →
      o2 ∈ fileServiceClear (applyOps s2 ops2) t2 →
      dirpathOf o1 ≠ dirpathOf o2) ∧
    (∀ (run2 : FileCallback → Int) (a2 : Nat) (t1 t2 : String) (o1 : FileSystemOp)
        (call2 : FileCallback),
      o1 ∈ fileServiceClear (applyOps s1 ops1) t1 →
      call2 ∈ (fileServiceLoad run2 (applyOps s2 ops2) a2 t2).invoked ++
        (fileServiceSave run2 (applyOps s2 ops2) a2 t2).invoked →
      dirpathOf o1 ≠ call2.path) ∧
    (∀ (i j : Nat) (file1 file2 : String),
      typeDirectory (applyOps s1 ops1) i ++ "/" ++ file1 ≠
        typeDirectory (applyOps s2 ops2) j ++ "/" ++ file2) := by
  have hs1 := create_record mk1 base n1 c1 s1 d1 h1
  have hs2 := create_record mk2 base n2 c2 s2 d2 h2
  have l1 := applyOps_labels ops1 s1
  have l2 := applyOps_labels ops2 s2
  have b1 : (applyOps s1 ops1).baseDirectory = base := by rw [l1.1, hs1]
  have b2 : (applyOps s2 ops2).baseDirectory = base := by rw [l2.1, hs2]
  have e1 : (applyOps s1 ops1).network = n1 := by rw [l1.2.1, hs1]
  have e2 : (applyOps s2 ops2).network = n2 := by rw [l2.2.1, hs2]
  have f1 : (applyOps s1 ops1).currency = c1 := by rw [l1.2.2, hs1]
  have f2 : (applyOps s2 ops2).currency = c2 := by rw [l2.2.2, hs2]
  have key : ∀ (i j : Nat) (r1 r2 : String),
      typeDirectory (applyOps s1 ops1) i ≠ typeDirectory (applyOps s2 ops2) j ∧
      typeDirectory (applyOps s1 ops1) i ++ "/" ++ r1 ≠
        typeDirectory (applyOps s2 ops2) j ++ "/" ++ r2 :=
    typeDirectory_differ (applyOps s1 ops1) (applyOps s2 ops2) (b1.trans b2.symm)
      (by rw [e1]; exact hn1) (by rw [f1]; exact hc1) (by rw [e2]; exact hn2)
      (by rw [f2]; exact hc2) (by rw [e1, f1, e2, f2]; exact hne)
  have transfer : ∀ (fs : BRFileServiceRecord) (run : FileCallback → Int) (a : Nat)
      (t : String) (call : FileCallback),
      call ∈ (fileServiceLoad run fs a t).invoked ++ (fileServiceSave run fs a t).invoked →
      ∃ i, call.path = typeDirectory fs i := by
    intro fs run a t call hcall
    rcases List.mem_append.mp hcall with h | h
    · exact load_paths run fs a t call h
    · exact save_paths run fs a t call h
  refine ⟨?_, ?_, ?_, ?_⟩
  · intro run1 run2 a1 a2 t1 t2 call1 call2 hm1 hm2
    obtain ⟨i, hi⟩ := transfer _ run1 a1 t1 call1 hm1
    obtain ⟨j, hj⟩ := transfer _ run2 a2 t2 call2 hm2
    rw [hi, hj]
    exact (key i j "" "").1
  · intro t1 t2 o1 o2 hm1 hm2
    obtain ⟨i, hi⟩ := clear_paths _ t1 o1 hm1
    obtain ⟨j, hj⟩ := clear_paths _ t2 o2 hm2
    rw [hi, hj]
    exact (key i j "" "").1
  · intro run2 a2 t1 t2 o1 call2 hm1 hm2
    obtain ⟨i, hi⟩ := clear_paths _ t1 o1 hm1
    obtain ⟨j, hj⟩ := transfer _ run2 a2 t2 call2 hm2
    rw [hi, hj]
    exact (key i j "" "").1
  · intro i j file1 file2
    exact (key i j file1 file2).2

/-- C21 (amended) at concrete services: the services created with the base
`"/tmp/x"` for `("mainnet", "eth")` and for `("mainnet", "btc")`, each with the
types `"blocks"` and `"peers"`. -/
theorem file_service_isolation_witness :
    fileServiceCreate sampleMkdirFails "/tmp/x" "mainnet" "eth" =
      .created sampleService ["/tmp/x/mainnet", "/tmp/x/mainnet/eth"] ∧
    fileServiceCreate sampleMkdirFails "/tmp/x" "mainnet" "btc" =
      .created sampleServiceBtc ["/tmp/x/mainnet", "/tmp/x/mainnet/btc"] ∧
    typeDirectory
      (applyOps sampleService [.defineType "blocks" 1 21 22, .defineType "peers" 2 31 32]) 0 =
      "/tmp/x/mainnet/eth/blocks" ∧
    typeDirectory
      (applyOps sampleServiceBtc [.defineType "blocks" 1 21 22, .defineType "peers" 2 31 32])
      0 = "/tmp/x/mainnet/btc/blocks" ∧
    typeDirectory
      (applyOps sampleService [.defineType "blocks" 1 21 22, .defineType "peers" 2 31 32]) 0
        ++ "/" ++ "1.dat" ≠
      typeDirectory
        (applyOps sampleServiceBtc [.defineType "blocks" 1 21 22, .defineType "peers" 2 31 32])
        0 ++ "/" ++ "1.dat" :=
  ⟨rfl, rfl, by decide, by decide,
   (file_service_isolation sampleMkdirFails sampleMkdirFails "/tmp/x" "mainnet" "eth"
      "mainnet" "btc" sampleService sampleServiceBtc ["/tmp/x/mainnet", "/tmp/x/mainnet/eth"]
      ["/tmp/x/mainnet", "/tmp/x/mainnet/btc"] rfl rfl (by decide) (by decide) (by decide)
      (by decide) (by decide)
      [.defineType "blocks" 1 21 22, .defineType "peers" 2 31 32]
      [.defineType "blocks" 1 21 22, .defineType "peers" 2 31 32]).2.2.2 0 0 "1.dat" "1.dat"⟩

end FileService
